import Mathlib

/-!
# libav-playground: two example encoders (`example1.cpp`, `example2.cpp`)

Both programs drive an external encoding library through a fixed pipeline and
fill a planar YUV 4:2:0 frame with a synthetic pattern.  The embedding has
three layers:

* byte planes with bounds-checked stores, `memset`, C `for` loops, and the
  frame-fill code of both programs;
* the library as an environment (`Lib`): for every library function the
  results it hands back, indexed by the number of earlier calls of that
  function;
* the two `main` functions as state transformers that record every library
  call (with its result) in a trace, together with what was printed and how
  the process ended.

The packet loops `while (avcodec_receive_packet(...) == 0)` run as long as
the library keeps handing out packets, so `main` takes a bound `fuel` on the
number of rounds of each packet loop; a run that uses it up ends in the
status `outOfFuel`.  What a program does when it returns is stated for all
large enough `fuel`.

The file holds the definitions first and the theorems after them.
-/

namespace LibavPlayground

/-! ## Byte planes -/

/-- A C `for (k = start; k < start + n; ++k) body(k)` loop over a state that
may run into undefined behaviour (`none`). -/
def forLoop {σ : Type} (body : Nat → σ → Option σ) : Nat → Nat → σ → Option σ
  | _, 0, s => some s
  | k, n + 1, s => (body k s).bind (forLoop body (k + 1) n)

/-- Store of one byte `p[i] = v`; outside the buffer the store is undefined. -/
def store (p : List Nat) (i v : Nat) : Option (List Nat) :=
  if i < p.length then some (p.set i (v % 256)) else none

/-- The libc call `memset(p + off, v, n)`: the `n` bytes from offset `off` on
become `(unsigned char) v`; undefined when they do not lie inside the buffer. -/
def memset (p : List Nat) (off v n : Nat) : Option (List Nat) :=
  if off + n ≤ p.length then
    some (p.take off ++ List.replicate n (v % 256) ++ p.drop (off + n))
  else none

/-- Pixel formats; only `AV_PIX_FMT_YUV420P` is used. -/
inductive PixelFormat where
  | AV_PIX_FMT_YUV420P
  deriving DecidableEq, Repr

/-- The part of `AVFrame` the programs touch.  A `data` pointer is `none`
when it is null, otherwise it is the plane buffer it points to. -/
structure Frame where
  format : PixelFormat
  width : Nat
  height : Nat
  linesize0 : Nat
  linesize1 : Nat
  linesize2 : Nat
  data0 : Option (List Nat)
  data1 : Option (List Nat)
  data2 : Option (List Nat)
  pts : Int
  deriving DecidableEq, Repr

/-- Sample `(x, y)` of the luma plane, `frame->data[0][y * linesize[0] + x]`. -/
def Frame.luma (f : Frame) (x y : Nat) : Option Nat :=
  f.data0.bind fun p => p[y * f.linesize0 + x]?

/-- Sample `(x, y)` of the first chroma plane. -/
def Frame.chromaU (f : Frame) (x y : Nat) : Option Nat :=
  f.data1.bind fun p => p[y * f.linesize1 + x]?

/-- Sample `(x, y)` of the second chroma plane. -/
def Frame.chromaV (f : Frame) (x y : Nat) : Option Nat :=
  f.data2.bind fun p => p[y * f.linesize2 + x]?

/-- A rational number as the library stores it (`AVRational`). -/
structure AVRational where
  num : Int
  den : Int
  deriving DecidableEq, Repr

/-- Value of an `AVRational`. -/
def AVRational.toRat (q : AVRational) : ℚ := (q.num : ℚ) / (q.den : ℚ)

/-! ## Frame fill of `example1.cpp` -/

namespace example1

/-- Constant `width` of `main`. -/
def width : Nat := 320

/-- Constant `height` of `main`. -/
def height : Nat := 240

/-- Constant `framerate` of `main`. -/
def framerate : AVRational := ⟨2, 1⟩

/-- Constant `time_base` of `main`. -/
def time_base : AVRational := ⟨1, 2⟩

/-- Luma value of frame `i`: `(i % 2 == 0) ? 255 : 0`. -/
def y_val (i : Nat) : Nat := if i % 2 = 0 then 255 else 0

/-- The luma loop `for y < rows: memset(data + y * linesize, v, w)`. -/
def fillPlane (linesize v w rows : Nat) (p : List Nat) : Option (List Nat) :=
  forLoop (fun y q => memset q (y * linesize) v w) 0 rows p

/-- The chroma loop: per row one `memset` on each of the two planes. -/
def fillChroma (ls1 ls2 v w rows : Nat) (p : List Nat × List Nat) :
    Option (List Nat × List Nat) :=
  forLoop (fun y q =>
    (memset q.1 (y * ls1) v w).bind fun q1 =>
    (memset q.2 (y * ls2) v w).bind fun q2 => some (q1, q2)) 0 rows p

/-- The fill part of the loop body for frame index `i` (lines 93-102). -/
def fillFrame (i : Nat) (f : Frame) : Option Frame :=
  f.data0.bind fun d0 =>
  (fillPlane f.linesize0 (y_val i) width height d0).bind fun d0' =>
  f.data1.bind fun d1 =>
  f.data2.bind fun d2 =>
  (fillChroma f.linesize1 f.linesize2 128 (width / 2) (height / 2) (d1, d2)).bind fun c =>
  some { f with data0 := some d0', data1 := some c.1, data2 := some c.2 }

end example1

/-! ## Frame fill of `example2.cpp` -/

namespace example2

/-- Constant `width` of `main`. -/
def width : Nat := 320

/-- Constant `height` of `main`. -/
def height : Nat := 240

/-- Constant `fps` of `main`. -/
def fps : Nat := 2

/-- Constant `numFrames` of `main`. -/
def numFrames : Nat := 20

/-- Value assigned to `cctx->time_base`, `AVRational{1, fps}`. -/
def time_base : AVRational := ⟨1, fps⟩

/-- Value assigned to `cctx->framerate`, `AVRational{fps, 1}`. -/
def framerate : AVRational := ⟨fps, 1⟩

/-- Luma value of frame `i`: `uint8_t((i * 256 / numFrames) & 0xFF)`. -/
def gray (i : Nat) : Nat := ((i * 256 / numFrames) &&& 0xFF) % 256

/-- The luma loops: `for y < rows: for x < w: data[y * linesize + x] = v`. -/
def fillPlane (linesize v w rows : Nat) (p : List Nat) : Option (List Nat) :=
  forLoop (fun y q => forLoop (fun x r => store r (y * linesize + x) v) 0 w q) 0 rows p

/-- The chroma loops: per sample one store into each of the two planes. -/
def fillChroma (ls1 ls2 v w rows : Nat) (p : List Nat × List Nat) :
    Option (List Nat × List Nat) :=
  forLoop (fun y q => forLoop (fun x r =>
    (store r.1 (y * ls1 + x) v).bind fun r1 =>
    (store r.2 (y * ls2 + x) v).bind fun r2 => some (r1, r2)) 0 w q) 0 rows p

/-- The fill part of the loop body for frame index `i` (lines 105-119). -/
def fillFrame (i : Nat) (f : Frame) : Option Frame :=
  f.data0.bind fun d0 =>
  (fillPlane f.linesize0 (gray i) width height d0).bind fun d0' =>
  f.data1.bind fun d1 =>
  f.data2.bind fun d2 =>
  (fillChroma f.linesize1 f.linesize2 128 (width / 2) (height / 2) (d1, d2)).bind fun c =>
  some { f with data0 := some d0', data1 := some c.1, data2 := some c.2 }

end example2

/-! ## The library as environment -/

/-- Codec identifiers: the one `example2` names, and whatever the container
format of `example1` selects. -/
inductive CodecID where
  | AV_CODEC_ID_MPEG4
  | other (tag : Nat)
  deriving DecidableEq, Repr

/-- An encoded packet: the compressed data (kept abstract) with its timing
fields and stream index. -/
structure Packet where
  payload : Nat
  pts : Int
  dts : Int
  duration : Int
  stream_index : Int
  deriving DecidableEq, Repr

/-- The encoder settings written into the codec context before
`avcodec_open2`; `none` is a field the program leaves at its default. -/
structure CodecConfig where
  codec_id : CodecID
  bit_rate : Option Int
  width : Nat
  height : Nat
  time_base : AVRational
  framerate : AVRational
  gop_size : Option Int
  max_b_frames : Option Int
  pix_fmt : PixelFormat
  global_header : Bool
  deriving DecidableEq, Repr

/-- A library call together with the arguments that matter. -/
inductive Call where
  | avformat_network_init
  | avformat_alloc_output_context2 (format : Option String) (filename : String) (oc : Bool)
  | avcodec_find_encoder (id : CodecID)
  | avcodec_get_name (id : CodecID)
  | avformat_new_stream
  | avcodec_alloc_context3
  | avcodec_open2 (cfg : CodecConfig)
  | avcodec_parameters_from_context
  | avio_open (filename : String)
  | av_dict_set (key value : String)
  | avformat_write_header (options : Bool)
  | av_frame_alloc
  | av_init_packet
  | av_frame_get_buffer (align : Nat)
  | av_packet_alloc
  | av_frame_make_writable
  | avcodec_send_frame (frame : Option Frame)
  | avcodec_receive_packet (pkt : Packet)
  | av_packet_rescale_ts
  | av_interleaved_write_frame (pkt : Packet)
  | av_packet_unref
  | av_write_trailer
  | av_frame_free
  | av_packet_free
  | avcodec_free_context
  | avio_closep
  | avformat_free_context
  | av_strerror (err : Int)
  deriving DecidableEq, Repr

/-- One entry of the trace: the call and the result it handed back (for a
call that returns a pointer, `1` for a valid pointer and `0` for null; `0`
for a call without result). For `avformat_alloc_output_context2` the
argument `oc` tells whether the context pointer it stored is valid, for
`avcodec_receive_packet` the argument is the packet it stored. -/
structure Event where
  call : Call
  ret : Int
  deriving DecidableEq, Repr

/-- Result of a pointer-returning call as recorded in the trace. -/
def ptr (valid : Bool) : Int := if valid then 1 else 0

/-- Behaviour of the library: what each function hands back.  A function the
programs call repeatedly gives its result by the number of earlier calls of
that same function.  `buf0 .. buf2` and `linesize0 .. linesize2` are the
plane buffers and strides `av_frame_get_buffer` sets up; `nofile`,
`globalheader` and `video_codec` are read from the output format. -/
structure Lib where
  avformat_network_init : Int
  avformat_alloc_output_context2 : Int
  oc : Bool
  video_codec : CodecID
  globalheader : Bool
  nofile : Bool
  avcodec_find_encoder : CodecID → Bool
  avcodec_get_name : CodecID → String
  avformat_new_stream : Bool
  avcodec_alloc_context3 : Bool
  avcodec_open2 : Int
  avcodec_parameters_from_context : Int
  avio_open : Int
  av_dict_set : Int
  avformat_write_header : Int
  av_frame_alloc : Bool
  av_frame_get_buffer : Int
  linesize0 : Nat
  linesize1 : Nat
  linesize2 : Nat
  buf0 : List Nat
  buf1 : List Nat
  buf2 : List Nat
  av_packet_alloc : Bool
  av_frame_make_writable : Nat → Int
  avcodec_send_frame : Nat → Int
  avcodec_receive_packet : Nat → Int
  packet : Nat → Packet
  av_rescale_q : Int → Int
  stream_index : Int
  av_interleaved_write_frame : Nat → Int
  av_write_trailer : Int
  avio_closep : Int
  av_strerror : Int → String
  av_strerror_ret : Int → Int
  AVERROR_EAGAIN : Int
  AVERROR_EOF : Int

/-- Timestamp of a frame that has none yet. -/
def AV_NOPTS_VALUE : Int := -9223372036854775808

/-! ## Program state -/

/-- How far the process has got. -/
inductive Status where
  | running
  | exited (code : Int)
  | undefined
  | outOfFuel
  deriving DecidableEq, Repr

/-- State of a run: the status, the library calls made so far (oldest first),
what was written to `std::cerr` and `std::cout`, the frame behind the
`frame` pointer, and how often each repeated library function was called. -/
@[ext]
structure State where
  status : Status
  trace : List Event
  cerr : List String
  cout : List String
  frame : Option Frame
  n_writable : Nat
  n_send : Nat
  n_recv : Nat
  n_write : Nat

/-- State at the start of `main`. -/
def State.init : State := ⟨.running, [], [], [], none, 0, 0, 0, 0⟩

/-- Record a library call. -/
def State.call (s : State) (c : Call) (ret : Int) : State :=
  { s with trace := s.trace ++ [⟨c, ret⟩] }

/-- Write a line to `std::cerr`. -/
def State.printErr (s : State) (m : String) : State := { s with cerr := s.cerr ++ [m] }

/-- Write a line to `std::cout`. -/
def State.printOut (s : State) (m : String) : State := { s with cout := s.cout ++ [m] }

/-- End of the process with an exit status (`return` from `main`, `std::exit`). -/
def State.exit (s : State) (code : Int) : State := { s with status := .exited code }

/-- A null pointer is dereferenced or a store leaves its buffer. -/
def State.crash (s : State) : State := { s with status := .undefined }

/-- Sequencing: the rest of the program runs only while the process does. -/
def State.andThen (s : State) (k : State → State) : State :=
  match s.status with
  | .running => k s
  | _ => s

/-- The frame as `av_frame_alloc`, the three assignments and
`av_frame_get_buffer` leave it: on failure of the latter no buffers. -/
def newFrame (lib : Lib) (w h : Nat) : Frame :=
  if lib.av_frame_get_buffer < 0 then
    ⟨.AV_PIX_FMT_YUV420P, w, h, 0, 0, 0, none, none, none, AV_NOPTS_VALUE⟩
  else
    ⟨.AV_PIX_FMT_YUV420P, w, h, lib.linesize0, lib.linesize1, lib.linesize2,
      some lib.buf0, some lib.buf1, some lib.buf2, AV_NOPTS_VALUE⟩

/-- The packet as passed to the muxer: `av_packet_rescale_ts` converted the
timing fields, then `stream_index` was assigned. -/
def muxPacket (lib : Lib) (p : Packet) : Packet :=
  { p with pts := lib.av_rescale_q p.pts, dts := lib.av_rescale_q p.dts,
           duration := lib.av_rescale_q p.duration, stream_index := lib.stream_index }

/-! ## `example1.cpp` -/

namespace example1

/-- Constant `filename` of `main`. -/
def filename : String := "output.mp4"

/-- Steps 1 to 8 of `main`: up to and including `avformat_write_header`. -/
def setup (lib : Lib) (s : State) : State :=
  let s := s.call .avformat_network_init lib.avformat_network_init
  let s := s.call (.avformat_alloc_output_context2 none filename lib.oc)
    lib.avformat_alloc_output_context2
  if lib.oc = false then (s.printErr "Could not alloc output context\n").exit (-1) else
  let codec_id := lib.video_codec
  let s := s.call (.avcodec_find_encoder codec_id) (ptr (lib.avcodec_find_encoder codec_id))
  if lib.avcodec_find_encoder codec_id = false then
    let s := s.call (.avcodec_get_name codec_id) 1
    (s.printErr ("Could not find encoder for " ++ lib.avcodec_get_name codec_id ++ "\n")).exit (-1)
  else
  let s := s.call .avformat_new_stream (ptr lib.avformat_new_stream)
  if lib.avformat_new_stream = false then
    (s.printErr "Could not create stream\n").exit (-1)
  else
  let s := s.call .avcodec_alloc_context3 (ptr lib.avcodec_alloc_context3)
  if lib.avcodec_alloc_context3 = false then s.crash else
  let cfg : CodecConfig :=
    ⟨codec_id, none, width, height, time_base, framerate, none, none,
      .AV_PIX_FMT_YUV420P, lib.globalheader⟩
  let s := s.call (.avcodec_open2 cfg) lib.avcodec_open2
  if lib.avcodec_open2 < 0 then (s.printErr "Could not open video codec\n").exit (-1) else
  let s := s.call .avcodec_parameters_from_context lib.avcodec_parameters_from_context
  let s := if lib.nofile = false then s.call (.avio_open filename) lib.avio_open else s
  if lib.nofile = false ∧ lib.avio_open < 0 then
    (s.printErr ("Could not open " ++ filename ++ "\n")).exit (-1)
  else
  let s := s.call (.avformat_write_header false) lib.avformat_write_header
  if lib.avformat_write_header < 0 then
    (s.printErr "Error occurred when writing header\n").exit (-1)
  else s

/-- Step 9 of `main`: the frame and the packet. -/
def prepare (lib : Lib) (s : State) : State :=
  let s := s.call .av_frame_alloc (ptr lib.av_frame_alloc)
  if lib.av_frame_alloc = false then s.crash else
  let s := s.call (.av_frame_get_buffer 32) lib.av_frame_get_buffer
  let s := { s with frame := some (newFrame lib width height) }
  s.call .av_packet_alloc (ptr lib.av_packet_alloc)

/-- The loop `while (avcodec_receive_packet(cctx, pkt) == 0) ...` (lines
113-121 and 126-131); one unit of fuel per call of `avcodec_receive_packet`. -/
def drain (lib : Lib) : Nat → State → State
  | 0, s => { s with status := .outOfFuel }
  | fuel + 1, s =>
    let r := lib.avcodec_receive_packet s.n_recv
    let p := lib.packet s.n_recv
    let s := { s.call (.avcodec_receive_packet p) r with n_recv := s.n_recv + 1 }
    if r = 0 then
      if lib.av_packet_alloc = false then s.crash else
      let s := s.call .av_packet_rescale_ts 0
      let s := { s.call (.av_interleaved_write_frame (muxPacket lib p))
                    (lib.av_interleaved_write_frame s.n_write) with n_write := s.n_write + 1 }
      let s := s.call .av_packet_unref 0
      drain lib fuel s
    else s

/-- Step 10 of `main`: the loop over the frames, `n` iterations from index `i`. -/
def encode (lib : Lib) (fuel : Nat) : Nat → Nat → State → State
  | 0, _, s => s
  | n + 1, i, s =>
    let s := { s.call .av_frame_make_writable (lib.av_frame_make_writable s.n_writable) with
                n_writable := s.n_writable + 1 }
    match s.frame.bind (fillFrame i) with
    | none => s.crash
    | some f =>
      let f := { f with pts := (i : Int) }
      let r := lib.avcodec_send_frame s.n_send
      let s := { s.call (.avcodec_send_frame (some f)) r with
                  frame := some f, n_send := s.n_send + 1 }
      if r < 0 then s.printErr "Error sending a frame for encoding\n"
      else (drain lib fuel s).andThen (encode lib fuel n (i + 1))

/-- Steps 11 to 13 of `main`: flush, trailer, cleanup, `return 0`. -/
def finish (lib : Lib) (fuel : Nat) (s : State) : State :=
  let s := { s.call (.avcodec_send_frame none) (lib.avcodec_send_frame s.n_send) with
              n_send := s.n_send + 1 }
  (drain lib fuel s).andThen fun s =>
  let s := s.call .av_write_trailer lib.av_write_trailer
  let s := { s.call .av_frame_free 0 with frame := none }
  let s := s.call .av_packet_free 0
  let s := s.call .avcodec_free_context 0
  let s := if lib.nofile = false then s.call .avio_closep lib.avio_closep else s
  let s := s.call .avformat_free_context 0
  let s := s.printOut ("output written to " ++ filename ++ "\n")
  s.exit 0

/-- The program `example1.cpp`. -/
def main (lib : Lib) (fuel : Nat) : State :=
  (setup lib State.init).andThen fun s =>
  (prepare lib s).andThen fun s =>
  (encode lib fuel 10 0 s).andThen fun s =>
  finish lib fuel s

end example1

/-! ## `example2.cpp` -/

namespace example2

/-- Function `checkError`: on a negative code, print and `std::exit(1)`. -/
def checkError (lib : Lib) (err : Int) (msg : String) (s : State) : State :=
  if err < 0 then
    let s := s.call (.av_strerror err) (lib.av_strerror_ret err)
    let s := s.printErr
      (msg ++ " error=" ++ toString err ++ " (" ++ lib.av_strerror err ++ ")\n")
    s.exit 1
  else s

/-- Constant `outFilename` of `main`. -/
def outFilename : String := "out.mp4"

/-- Steps 1 to 5 of `main`: up to and including `avformat_write_header`. -/
def setup (lib : Lib) (s : State) : State :=
  let ret := lib.avformat_alloc_output_context2
  let s := s.call (.avformat_alloc_output_context2 (some "mp4") outFilename lib.oc) ret
  (checkError lib ret "avformat_alloc_output_context2" s).andThen fun s =>
  let s := s.call (.avcodec_find_encoder .AV_CODEC_ID_MPEG4)
    (ptr (lib.avcodec_find_encoder .AV_CODEC_ID_MPEG4))
  if lib.avcodec_find_encoder .AV_CODEC_ID_MPEG4 = false then
    (s.printErr "mpeg4 encoder not found\n").exit 1
  else
  let s := s.call .avformat_new_stream (ptr lib.avformat_new_stream)
  if lib.avformat_new_stream = false then (s.printErr "cannot create stream\n").exit 1 else
  if lib.oc = false then s.crash else
  let s := s.call .avcodec_alloc_context3 (ptr lib.avcodec_alloc_context3)
  if lib.avcodec_alloc_context3 = false then
    (s.printErr "could not alloc codec context\n").exit 1
  else
  let cfg : CodecConfig :=
    ⟨.AV_CODEC_ID_MPEG4, some 400000, width, height, time_base, framerate, some 1, some 0,
      .AV_PIX_FMT_YUV420P, false⟩
  let ret := lib.avcodec_open2
  let s := s.call (.avcodec_open2 cfg) ret
  (checkError lib ret "avcodec_open2" s).andThen fun s =>
  let ret := lib.avcodec_parameters_from_context
  let s := s.call .avcodec_parameters_from_context ret
  (checkError lib ret "avcodec_parameters_from_context" s).andThen fun s =>
  let s := if lib.nofile = false then
      checkError lib lib.avio_open "avio_open" (s.call (.avio_open outFilename) lib.avio_open)
    else s
  s.andThen fun s =>
  let s := s.call (.av_dict_set "movflags" "empty_moov+frag_keyframe+default_base_moof")
    lib.av_dict_set
  let ret := lib.avformat_write_header
  let s := s.call (.avformat_write_header true) ret
  checkError lib ret "avformat_write_header" s

/-- Step 6 of `main`: the reusable frame and packet. -/
def prepare (lib : Lib) (s : State) : State :=
  let s := s.call .av_frame_alloc (ptr lib.av_frame_alloc)
  let s := s.call .av_init_packet 0
  if lib.av_frame_alloc = false then s.crash else
  let ret := lib.av_frame_get_buffer
  let s := s.call (.av_frame_get_buffer 32) ret
  let s := { s with frame := some (newFrame lib width height) }
  checkError lib ret "av_frame_get_buffer" s

/-- The loop `while (ret >= 0) ...` (lines 128-141 and 147-157); `msgR` and
`msgW` are the messages of its two `checkError` calls.  One unit of fuel per
call of `avcodec_receive_packet`. -/
def drain (lib : Lib) (msgR msgW : String) : Nat → Int → State → State
  | 0, ret, s => if ret < 0 then s else { s with status := .outOfFuel }
  | fuel + 1, ret, s =>
    if ret < 0 then s else
    let r := lib.avcodec_receive_packet s.n_recv
    let p := lib.packet s.n_recv
    let s := { s.call (.avcodec_receive_packet p) r with n_recv := s.n_recv + 1 }
    if r = lib.AVERROR_EAGAIN ∨ r = lib.AVERROR_EOF then s else
    (checkError lib r msgR s).andThen fun s =>
    let s := s.call .av_packet_rescale_ts 0
    let w := lib.av_interleaved_write_frame s.n_write
    let s := { s.call (.av_interleaved_write_frame (muxPacket lib p)) w with
                n_write := s.n_write + 1 }
    (checkError lib w msgW s).andThen fun s =>
    let s := s.call .av_packet_unref 0
    drain lib msgR msgW fuel w s

/-- Step 7 of `main`: the encode loop, `n` iterations from index `i`. -/
def encode (lib : Lib) (fuel : Nat) : Nat → Nat → State → State
  | 0, _, s => s
  | n + 1, i, s =>
    let ret := lib.av_frame_make_writable s.n_writable
    let s := { s.call .av_frame_make_writable ret with n_writable := s.n_writable + 1 }
    (checkError lib ret "av_frame_make_writable" s).andThen fun s =>
    match s.frame.bind (fillFrame i) with
    | none => s.crash
    | some f =>
      let f := { f with pts := (i : Int) }
      let ret := lib.avcodec_send_frame s.n_send
      let s := { s.call (.avcodec_send_frame (some f)) ret with
                  frame := some f, n_send := s.n_send + 1 }
      (checkError lib ret "avcodec_send_frame" s).andThen fun s =>
      (drain lib "avcodec_receive_packet" "av_interleaved_write_frame" fuel ret s).andThen
        (encode lib fuel n (i + 1))

/-- Steps 8 and 9 of `main`: flush, trailer, cleanup, `return 0`. -/
def finish (lib : Lib) (fuel : Nat) (s : State) : State :=
  let ret := lib.avcodec_send_frame s.n_send
  let s := { s.call (.avcodec_send_frame none) ret with n_send := s.n_send + 1 }
  (checkError lib ret "avcodec_send_frame(flush)" s).andThen fun s =>
  (drain lib "avcodec_receive_packet(flush)" "av_interleaved_write_frame(flush)"
      fuel ret s).andThen fun s =>
  let s := s.call .av_write_trailer lib.av_write_trailer
  let s := if lib.nofile = false then s.call .avio_closep lib.avio_closep else s
  let s := { s.call .av_frame_free 0 with frame := none }
  let s := s.call .avcodec_free_context 0
  let s := s.call .avformat_free_context 0
  let s := s.printOut ("Wrote " ++ outFilename ++ "\n")
  s.exit 0

/-- The program `example2.cpp`. -/
def main (lib : Lib) (fuel : Nat) : State :=
  (setup lib State.init).andThen fun s =>
  (prepare lib s).andThen fun s =>
  (encode lib fuel numFrames 0 s).andThen fun s =>
  finish lib fuel s

end example2

/-! ## Predicates on planes -/

/-- Pointwise description of a plane `q` obtained from `p` by writing the byte
`v` at every index in `W` and nothing else. -/
def Painted (W : Nat → Prop) (v : Nat) (p q : List Nat) : Prop :=
  q.length = p.length ∧
    ∀ i, i < p.length → (W i → q[i]? = some v) ∧ (¬ W i → q[i]? = p[i]?)

/-- Indices of the first `w` bytes of the rows `0 .. y - 1`. -/
def InRows (ls w y : Nat) (i : Nat) : Prop := ∃ r, r < y ∧ r * ls ≤ i ∧ i < r * ls + w

/-! ## Predicates on frames -/

/-- The three planes of a frame are present and hold the visible rows. -/
def FrameFits (f : Frame) : Prop :=
  ∃ d0 d1 d2, f.data0 = some d0 ∧ f.data1 = some d1 ∧ f.data2 = some d2 ∧
    (∀ y, y < 240 → y * f.linesize0 + 320 ≤ d0.length) ∧
    (∀ y, y < 120 → y * f.linesize1 + 160 ≤ d1.length) ∧
    (∀ y, y < 120 → y * f.linesize2 + 160 ≤ d2.length)

/-- All visible luma samples of `f` are `v`, all visible chroma samples 128. -/
def Solid (v : Nat) (f : Frame) : Prop :=
  (∀ x y, x < 320 → y < 240 → f.luma x y = some v) ∧
  (∀ x y, x < 160 → y < 120 → f.chromaU x y = some 128 ∧ f.chromaV x y = some 128)

/-! ## Views of the trace -/

/-- The frames submitted with `avcodec_send_frame`, oldest first (the flush
submission, which passes no frame, is left out). -/
def sentFrames (t : List Event) : List Frame :=
  t.filterMap fun e =>
    match e.call with
    | .avcodec_send_frame (some f) => some f
    | _ => none

/-- The property `P k f` holds for the `k`-th frame of the list, counted from `i`. -/
def GoodFrom (P : Nat → Frame → Prop) : Nat → List Frame → Prop
  | _, [] => True
  | i, f :: fs => P i f ∧ GoodFrom P (i + 1) fs

/-- What the claims say about the frames `example1` submits: at most 10, the
`k`-th with `pts = k` and the solid pattern of index `k`. -/
def example1.SentOK (t : List Event) : Prop :=
  (sentFrames t).length ≤ 10 ∧
  GoodFrom (fun k f => f.pts = (k : Int) ∧ Solid (example1.y_val k) f) 0 (sentFrames t)

/-- What the claims say about the frames `example2` submits: at most 20, the
`k`-th with `pts = k` and all luma samples `gray k`. -/
def example2.SentOK (t : List Event) : Prop :=
  (sentFrames t).length ≤ 20 ∧
  GoodFrom (fun k f => f.pts = (k : Int) ∧ Solid (example2.gray k) f) 0 (sentFrames t)

/-! ## Runs in which the packet loops end -/

/-- The encoder stops handing out packets at some point: after any number of
`avcodec_receive_packet` calls a later one returns something other than 0. -/
def Lib.Drains (lib : Lib) : Prop :=
  ∀ n, ∃ m, n ≤ m ∧ lib.avcodec_receive_packet m ≠ 0

/-- Trace of `k` rounds of a packet loop that starts with the `nr`-th call of
`avcodec_receive_packet` and the `nw`-th call of `av_interleaved_write_frame`. -/
def drainEvents (lib : Lib) : Nat → Nat → Nat → List Event
  | _, _, 0 => []
  | nr, nw, k + 1 =>
    [⟨.avcodec_receive_packet (lib.packet nr), 0⟩,
     ⟨.av_packet_rescale_ts, 0⟩,
     ⟨.av_interleaved_write_frame (muxPacket lib (lib.packet nr)),
       lib.av_interleaved_write_frame nw⟩,
     ⟨.av_packet_unref, 0⟩] ++ drainEvents lib (nr + 1) (nw + 1) k

/-- State after a packet loop that wrote `k` packets and then stopped at a
non-zero result of `avcodec_receive_packet`. -/
def drained (lib : Lib) (k : Nat) (s : State) : State :=
  { s with
    trace := s.trace ++ drainEvents lib s.n_recv s.n_write k ++
      [⟨.avcodec_receive_packet (lib.packet (s.n_recv + k)),
        lib.avcodec_receive_packet (s.n_recv + k)⟩],
    n_recv := s.n_recv + k + 1,
    n_write := s.n_write + k }

/-! ## More views of the trace -/

/-- The submissions to the encoder, oldest first: for every call of
`avcodec_send_frame` the `pts` of the frame passed (`none` for the flush
submission, which passes no frame) and the result of the call. -/
def sendLog (t : List Event) : List (Option Int × Int) :=
  t.filterMap fun e =>
    match e.call with
    | .avcodec_send_frame f => some (f.map Frame.pts, e.ret)
    | _ => none

/-- The events the muxing order is about: submissions, packets received
(`avcodec_receive_packet` returned 0) and packets written. -/
def isMux (e : Event) : Bool :=
  match e.call with
  | .avcodec_send_frame _ => true
  | .avcodec_receive_packet _ => decide (e.ret = 0)
  | .av_interleaved_write_frame _ => true
  | _ => false

/-- The calls of the trace the muxing order is about, oldest first. -/
def muxCalls (t : List Event) : List Call := (t.filter isMux).map Event.call

/-- Calls made inside the frame loop. -/
def isLoopCall : Call → Bool
  | .av_frame_make_writable => true
  | .avcodec_send_frame (some _) => true
  | .avcodec_receive_packet _ => true
  | .av_packet_rescale_ts => true
  | .av_interleaved_write_frame _ => true
  | .av_packet_unref => true
  | _ => false

/-- A packet is received and then written. -/
def muxPair (lib : Lib) (p : Packet) : List Call :=
  [.avcodec_receive_packet p, .av_interleaved_write_frame (muxPacket lib p)]

/-- One submission followed by the packets it made available, each received
and then written. -/
def render (lib : Lib) (b : Option Frame × List Packet) : List Call :=
  .avcodec_send_frame b.1 :: b.2.flatMap (muxPair lib)

/-- The packets the encoder hands out in `k` rounds from its `nr`-th call on. -/
def packetsFrom (lib : Lib) (nr k : Nat) : List Packet := (List.range' nr k).map lib.packet

/-- What the muxing order is about, with results: a submission (the `pts` of
the frame, `none` for the flush, and the result), a call of
`avcodec_receive_packet` (the packet it stored and its result), a call of
`av_interleaved_write_frame` (the packet it was given). -/
inductive MuxEv where
  | submit (pts : Option Int) (ret : Int)
  | receive (pkt : Packet) (ret : Int)
  | write (pkt : Packet)
  deriving DecidableEq, Repr

/-- The submissions, receptions and writes of a trace, oldest first; every
call of `avcodec_receive_packet` is kept, whatever it returned. -/
def muxLog (t : List Event) : List MuxEv :=
  t.filterMap fun e =>
    match e.call with
    | .avcodec_send_frame f => some (.submit (f.map Frame.pts) e.ret)
    | .avcodec_receive_packet p => some (.receive p e.ret)
    | .av_interleaved_write_frame p => some (.write p)
    | _ => none

/-- After `nr` calls of `avcodec_receive_packet` the encoder has exactly `k`
packets available: its next `k` calls return 0 and the one after them does
not. -/
def Drained (lib : Lib) (nr k : Nat) : Prop :=
  (∀ j, j < k → lib.avcodec_receive_packet (nr + j) = 0) ∧
  lib.avcodec_receive_packet (nr + k) ≠ 0

/-- A packet loop that starts at the `nr`-th call of `avcodec_receive_packet`
and runs until drained: `k` times a packet is received with result 0 and
written at once, then one more call of `avcodec_receive_packet` returns what
ended the loop. -/
def drainLog (lib : Lib) : Nat → Nat → List MuxEv
  | nr, 0 => [.receive (lib.packet nr) (lib.avcodec_receive_packet nr)]
  | nr, k + 1 =>
    .receive (lib.packet nr) 0 :: .write (muxPacket lib (lib.packet nr)) ::
      drainLog lib (nr + 1) k

/-- Number of calls of `avcodec_receive_packet` made when packet loops with
`ks` packets have run one after the other, starting after `nr` calls. -/
def endIndex : Nat → List Nat → Nat
  | nr, [] => nr
  | nr, k :: ks => endIndex (nr + k + 1) ks

/-- Every one of the consecutive packet loops with `ks` packets, the first
starting after `nr` calls of `avcodec_receive_packet`, took all the packets
the encoder had available. -/
def AllDrained (lib : Lib) : Nat → List Nat → Prop
  | _, [] => True
  | nr, k :: ks => Drained lib nr k ∧ AllDrained lib (nr + k + 1) ks

/-- The frame loop from frame index `i`: each frame is submitted and followed
by its packet loop, run until drained. -/
def loopLog (lib : Lib) : Nat → Nat → List Nat → List MuxEv
  | _, _, [] => []
  | i, nr, k :: ks =>
    .submit (some (i : Int)) (lib.avcodec_send_frame i) ::
      (drainLog lib nr k ++ loopLog lib (i + 1) (nr + k + 1) ks)

/-- Encode and mux until drained, for a trace with `N` frames: there are
numbers of packets `ks` (one per frame) and `kf` (for the flush) such that
after every submission the encoder had exactly that many packets available
(`Drained`), and the submissions, receptions and writes of the trace are:
frame `0`, its packets each received and written, the call of
`avcodec_receive_packet` that found no more; frame `1`, and so on to frame
`N - 1`; then the flush submission with its packets in the same way. -/
def UntilDrained (lib : Lib) (N : Nat) (t : List Event) : Prop :=
  ∃ (ks : List Nat) (kf : Nat), ks.length = N ∧ AllDrained lib 0 ks ∧
    Drained lib (endIndex 0 ks) kf ∧
    muxLog t = loopLog lib 0 0 ks ++
      MuxEv.submit none (lib.avcodec_send_frame N) :: drainLog lib (endIndex 0 ks) kf

/-- Number of iterations of the frame loop of `example1` that run, out of
`n`, when the next submission is the `j`-th call of `avcodec_send_frame`: the
loop is left at the first submission that fails. -/
def example1.iterations (lib : Lib) : Nat → Nat → Nat
  | 0, _ => 0
  | n + 1, j =>
    if lib.avcodec_send_frame j < 0 then 1 else 1 + example1.iterations lib n (j + 1)

/-- The frame loop ran `m` iterations from frame index `i`, took the state
from `s` to `s'` and is still running. -/
structure LoopRun (lib : Lib) (i m : Nat) (s s' : State) : Prop where
  status : s'.status = .running
  frame : ∃ f, s'.frame = some f ∧ FrameFits f
  cout : s'.cout = s.cout
  n_send : s'.n_send = i + m
  log : (∀ k, i ≤ k → k < i + m → 0 ≤ lib.avcodec_send_frame k) →
    ∃ ks : List Nat, ks.length = m ∧ AllDrained lib s.n_recv ks ∧
      s'.n_recv = endIndex s.n_recv ks ∧
      muxLog s'.trace = muxLog s.trace ++ loopLog lib i s.n_recv ks
  trace : ∃ (evs : List Event) (blocks : List (Option Frame × List Packet)),
    s'.trace = s.trace ++ evs ∧
    (∀ e, e ∈ evs → isLoopCall e.call = true) ∧
    (sentFrames evs).length = m ∧
    sendLog evs =
      (List.range' i m).map (fun k : Nat => (some (k : Int), lib.avcodec_send_frame k)) ∧
    muxCalls evs = blocks.flatMap (render lib) ∧
    blocks.map (fun b => b.1.map Frame.pts) =
      (List.range' i m).map (fun k : Nat => some (k : Int))

/-- State after the two calls that open an iteration of the frame loop. -/
def submitted (lib : Lib) (f : Frame) (s : State) : State :=
  { s with
    trace := s.trace ++ [⟨.av_frame_make_writable, lib.av_frame_make_writable s.n_writable⟩] ++
      [⟨.avcodec_send_frame (some f), lib.avcodec_send_frame s.n_send⟩],
    frame := some f, n_send := s.n_send + 1, n_writable := s.n_writable + 1 }

/-! ## Complete runs -/

/-- The plane buffers `av_frame_get_buffer` sets up hold the visible rows. -/
def Lib.BuffersFit (lib : Lib) : Prop :=
  (∀ y, y < 240 → y * lib.linesize0 + 320 ≤ lib.buf0.length) ∧
  (∀ y, y < 120 → y * lib.linesize1 + 160 ≤ lib.buf1.length) ∧
  (∀ y, y < 120 → y * lib.linesize2 + 160 ≤ lib.buf2.length)

/-- `example1` gets past `avformat_write_header` and has its frame and its
packet.  Nothing is assumed about the results of `av_frame_make_writable`,
`avcodec_send_frame`, `avcodec_receive_packet`, `av_interleaved_write_frame`
and `av_write_trailer`. -/
structure example1.Ready (lib : Lib) : Prop where
  oc : lib.oc = true
  find_encoder : lib.avcodec_find_encoder lib.video_codec = true
  new_stream : lib.avformat_new_stream = true
  alloc_context3 : lib.avcodec_alloc_context3 = true
  open2 : 0 ≤ lib.avcodec_open2
  avio_open : lib.nofile = true ∨ 0 ≤ lib.avio_open
  write_header : 0 ≤ lib.avformat_write_header
  frame_alloc : lib.av_frame_alloc = true
  get_buffer : 0 ≤ lib.av_frame_get_buffer
  fits : lib.BuffersFit
  packet_alloc : lib.av_packet_alloc = true

/-- No library call fails: every pointer handed back is valid and no return
code is negative, except that `avcodec_receive_packet` either hands out a
packet (0) or reports that none is available (`AVERROR(EAGAIN)` or
`AVERROR_EOF`, both negative); the buffers of the frame hold the visible
rows; and the encoder stops handing out packets at some point. -/
structure Lib.NoFail (lib : Lib) : Prop where
  network_init : 0 ≤ lib.avformat_network_init
  alloc_output_context2 : 0 ≤ lib.avformat_alloc_output_context2
  oc : lib.oc = true
  find_encoder : ∀ id, lib.avcodec_find_encoder id = true
  new_stream : lib.avformat_new_stream = true
  alloc_context3 : lib.avcodec_alloc_context3 = true
  open2 : 0 ≤ lib.avcodec_open2
  parameters_from_context : 0 ≤ lib.avcodec_parameters_from_context
  avio_open : 0 ≤ lib.avio_open
  dict_set : 0 ≤ lib.av_dict_set
  write_header : 0 ≤ lib.avformat_write_header
  frame_alloc : lib.av_frame_alloc = true
  get_buffer : 0 ≤ lib.av_frame_get_buffer
  fits : lib.BuffersFit
  packet_alloc : lib.av_packet_alloc = true
  make_writable : ∀ k, 0 ≤ lib.av_frame_make_writable k
  send_frame : ∀ k, 0 ≤ lib.avcodec_send_frame k
  eagain : lib.AVERROR_EAGAIN < 0
  eof : lib.AVERROR_EOF < 0
  receive_packet : ∀ k, lib.avcodec_receive_packet k = 0 ∨
    lib.avcodec_receive_packet k = lib.AVERROR_EAGAIN ∨
    lib.avcodec_receive_packet k = lib.AVERROR_EOF
  write_frame : ∀ k, 0 ≤ lib.av_interleaved_write_frame k
  write_trailer : 0 ≤ lib.av_write_trailer
  closep : 0 ≤ lib.avio_closep
  drains : lib.Drains

/-- Trace of steps 1 to 7 of `example1` when nothing fails. -/
def example1.setupEvents (lib : Lib) : List Event :=
  [⟨.avformat_network_init, lib.avformat_network_init⟩,
   ⟨.avformat_alloc_output_context2 none example1.filename lib.oc,
     lib.avformat_alloc_output_context2⟩,
   ⟨.avcodec_find_encoder lib.video_codec, ptr (lib.avcodec_find_encoder lib.video_codec)⟩,
   ⟨.avformat_new_stream, ptr lib.avformat_new_stream⟩,
   ⟨.avcodec_alloc_context3, ptr lib.avcodec_alloc_context3⟩,
   ⟨.avcodec_open2 ⟨lib.video_codec, none, example1.width, example1.height,
      example1.time_base, example1.framerate, none, none, .AV_PIX_FMT_YUV420P,
      lib.globalheader⟩, lib.avcodec_open2⟩,
   ⟨.avcodec_parameters_from_context, lib.avcodec_parameters_from_context⟩] ++
  (if lib.nofile = false then [⟨.avio_open example1.filename, lib.avio_open⟩] else [])

/-- Trace of step 9 of `example1`. -/
def example1.prepareEvents (lib : Lib) : List Event :=
  [⟨.av_frame_alloc, ptr lib.av_frame_alloc⟩,
   ⟨.av_frame_get_buffer 32, lib.av_frame_get_buffer⟩,
   ⟨.av_packet_alloc, ptr lib.av_packet_alloc⟩]

/-- Trace of steps 12 and 13 of `example1`. -/
def example1.closeEvents (lib : Lib) : List Event :=
  [⟨.av_frame_free, 0⟩, ⟨.av_packet_free, 0⟩, ⟨.avcodec_free_context, 0⟩] ++
  (if lib.nofile = false then [⟨.avio_closep, lib.avio_closep⟩] else []) ++
  [⟨.avformat_free_context, 0⟩]

/-- State of `example1` when it enters the frame loop. -/
def example1.prepared (lib : Lib) : State :=
  { State.init with
    trace := example1.setupEvents lib ++
      [⟨.avformat_write_header false, lib.avformat_write_header⟩] ++
      example1.prepareEvents lib,
    frame := some (newFrame lib example1.width example1.height) }

/-- State of `example1` at `return 0`, when the frame loop ended in `s` and
the flush loop wrote `k` packets. -/
def example1.finished (lib : Lib) (k : Nat) (s : State) : State :=
  { s with
    status := .exited 0,
    trace := s.trace ++ [⟨.avcodec_send_frame none, lib.avcodec_send_frame s.n_send⟩] ++
      drainEvents lib s.n_recv s.n_write k ++
      [⟨.avcodec_receive_packet (lib.packet (s.n_recv + k)),
        lib.avcodec_receive_packet (s.n_recv + k)⟩] ++
      [⟨.av_write_trailer, lib.av_write_trailer⟩] ++ example1.closeEvents lib,
    cout := s.cout ++ ["output written to " ++ example1.filename ++ "\n"],
    frame := none,
    n_send := s.n_send + 1,
    n_recv := s.n_recv + k + 1,
    n_write := s.n_write + k }

/-- Trace of steps 1 to 4 of `example2` when nothing fails. -/
def example2.setupEvents (lib : Lib) : List Event :=
  [⟨.avformat_alloc_output_context2 (some "mp4") example2.outFilename lib.oc,
     lib.avformat_alloc_output_context2⟩,
   ⟨.avcodec_find_encoder .AV_CODEC_ID_MPEG4,
     ptr (lib.avcodec_find_encoder .AV_CODEC_ID_MPEG4)⟩,
   ⟨.avformat_new_stream, ptr lib.avformat_new_stream⟩,
   ⟨.avcodec_alloc_context3, ptr lib.avcodec_alloc_context3⟩,
   ⟨.avcodec_open2 ⟨.AV_CODEC_ID_MPEG4, some 400000, example2.width, example2.height,
      example2.time_base, example2.framerate, some 1, some 0, .AV_PIX_FMT_YUV420P, false⟩,
     lib.avcodec_open2⟩,
   ⟨.avcodec_parameters_from_context, lib.avcodec_parameters_from_context⟩] ++
  (if lib.nofile = false then [⟨.avio_open example2.outFilename, lib.avio_open⟩] else []) ++
  [⟨.av_dict_set "movflags" "empty_moov+frag_keyframe+default_base_moof", lib.av_dict_set⟩]

/-- Trace of step 6 of `example2`. -/
def example2.prepareEvents (lib : Lib) : List Event :=
  [⟨.av_frame_alloc, ptr lib.av_frame_alloc⟩,
   ⟨.av_init_packet, 0⟩,
   ⟨.av_frame_get_buffer 32, lib.av_frame_get_buffer⟩]

/-- Trace of the cleanup of `example2` after the trailer. -/
def example2.closeEvents (lib : Lib) : List Event :=
  (if lib.nofile = false then [⟨.avio_closep, lib.avio_closep⟩] else []) ++
  [⟨.av_frame_free, 0⟩, ⟨.avcodec_free_context, 0⟩, ⟨.avformat_free_context, 0⟩]

/-- State of `example2` when it enters the frame loop. -/
def example2.prepared (lib : Lib) : State :=
  { State.init with
    trace := example2.setupEvents lib ++
      [⟨.avformat_write_header true, lib.avformat_write_header⟩] ++
      example2.prepareEvents lib,
    frame := some (newFrame lib example2.width example2.height) }

/-- State of `example2` at `return 0`, when the frame loop ended in `s` and
the flush loop wrote `k` packets. -/
def example2.finished (lib : Lib) (k : Nat) (s : State) : State :=
  { s with
    status := .exited 0,
    trace := s.trace ++ [⟨.avcodec_send_frame none, lib.avcodec_send_frame s.n_send⟩] ++
      drainEvents lib s.n_recv s.n_write k ++
      [⟨.avcodec_receive_packet (lib.packet (s.n_recv + k)),
        lib.avcodec_receive_packet (s.n_recv + k)⟩] ++
      [⟨.av_write_trailer, lib.av_write_trailer⟩] ++ example2.closeEvents lib,
    cout := s.cout ++ ["Wrote " ++ example2.outFilename ++ "\n"],
    frame := none,
    n_send := s.n_send + 1,
    n_recv := s.n_recv + k + 1,
    n_write := s.n_write + k }

/-- Shape of the trace of a complete run: the events `pre` up to the frame
loop, `m` iterations of the frame loop, the flush submission with its packet
loop, and the events `post` from the trailer on. -/
structure RunShape (lib : Lib) (pre post : List Event) (m : Nat) (s : State) : Prop where
  status : s.status = .exited 0
  trace : ∃ (evs : List Event) (blocks : List (Option Frame × List Packet)) (nr nw k : Nat),
    s.trace = pre ++ evs ++
      [⟨.avcodec_send_frame none, lib.avcodec_send_frame m⟩] ++
      drainEvents lib nr nw k ++
      [⟨.avcodec_receive_packet (lib.packet (nr + k)), lib.avcodec_receive_packet (nr + k)⟩] ++
      post ∧
    lib.avcodec_receive_packet (nr + k) ≠ 0 ∧
    (∀ e, e ∈ evs → isLoopCall e.call = true) ∧
    (sentFrames evs).length = m ∧
    sendLog evs =
      (List.range' 0 m).map (fun k : Nat => (some (k : Int), lib.avcodec_send_frame k)) ∧
    muxCalls evs = blocks.flatMap (render lib) ∧
    blocks.map (fun b => b.1.map Frame.pts) =
      (List.range' 0 m).map (fun k : Nat => some (k : Int))

/-- Events of `example1` before the frame loop. -/
def example1.preEvents (lib : Lib) : List Event :=
  example1.setupEvents lib ++ [⟨.avformat_write_header false, lib.avformat_write_header⟩] ++
    example1.prepareEvents lib

/-- Events of `example1` from the trailer on. -/
def example1.postEvents (lib : Lib) : List Event :=
  [⟨.av_write_trailer, lib.av_write_trailer⟩] ++ example1.closeEvents lib

/-- Events of `example2` before the frame loop. -/
def example2.preEvents (lib : Lib) : List Event :=
  example2.setupEvents lib ++ [⟨.avformat_write_header true, lib.avformat_write_header⟩] ++
    example2.prepareEvents lib

/-- Events of `example2` from the trailer on. -/
def example2.postEvents (lib : Lib) : List Event :=
  [⟨.av_write_trailer, lib.av_write_trailer⟩] ++ example2.closeEvents lib

/-! ## Muxing order (C2) -/

/-- The packets `avcodec_receive_packet` handed out with result 0, oldest first. -/
def receivedPackets (t : List Event) : List Packet :=
  t.filterMap fun e =>
    match e.call with
    | .avcodec_receive_packet p => if e.ret = 0 then some p else none
    | _ => none

/-- The packets passed to `av_interleaved_write_frame`, oldest first. -/
def writtenPackets (t : List Event) : List Packet :=
  t.filterMap fun e =>
    match e.call with
    | .av_interleaved_write_frame p => some p
    | _ => none

/-- The packet a call of `avcodec_receive_packet` stored. -/
def Call.received : Call → Option Packet
  | .avcodec_receive_packet p => some p
  | _ => none

/-- The packet a call of `av_interleaved_write_frame` was given. -/
def Call.written : Call → Option Packet
  | .av_interleaved_write_frame p => some p
  | _ => none

/-- The packets written are the packets received, in the same order, each
prepared with `muxPacket`; and the submissions, receptions with result 0 and
writes form `N + 1` blocks, one per submission (frames `0 .. N - 1`, then the
flush), in which every packet received is written before anything else
happens. -/
def MuxBlocks (lib : Lib) (N : Nat) (t : List Event) : Prop :=
  writtenPackets t = (receivedPackets t).map (muxPacket lib) ∧
  (writtenPackets t).map Packet.payload = (receivedPackets t).map Packet.payload ∧
  ∃ blocks : List (Option Frame × List Packet),
    muxCalls t = blocks.flatMap (render lib) ∧
    blocks.map (fun b => b.1.map Frame.pts) =
      (List.range N).map (fun k : Nat => some (k : Int)) ++ [none]

/-- Muxing order of a trace with `N` frames: `MuxBlocks`, and every packet
loop runs until the encoder has no packet left (`UntilDrained`). -/
def MuxOrder (lib : Lib) (N : Nat) (t : List Event) : Prop :=
  MuxBlocks lib N t ∧ UntilDrained lib N t

/-! ## Pipeline order (C3) -/

/-- The call that writes the container trailer. -/
def isTrailer : Call → Bool
  | .av_write_trailer => true
  | _ => false

/-- A library in which nothing fails: strides equal to the widths, buffers of
zeros, and an encoder that hands out one packet after every submission (its
calls of `avcodec_receive_packet` return 0 and `AVERROR(EAGAIN)` in turn). -/
def sampleLib : Lib where
  avformat_network_init := 0
  avformat_alloc_output_context2 := 0
  oc := true
  video_codec := .other 27
  globalheader := true
  nofile := false
  avcodec_find_encoder := fun _ => true
  avcodec_get_name := fun _ => "h264"
  avformat_new_stream := true
  avcodec_alloc_context3 := true
  avcodec_open2 := 0
  avcodec_parameters_from_context := 0
  avio_open := 0
  av_dict_set := 0
  avformat_write_header := 0
  av_frame_alloc := true
  av_frame_get_buffer := 0
  linesize0 := 320
  linesize1 := 160
  linesize2 := 160
  buf0 := List.replicate (320 * 240) 0
  buf1 := List.replicate (160 * 120) 0
  buf2 := List.replicate (160 * 120) 0
  av_packet_alloc := true
  av_frame_make_writable := fun _ => 0
  avcodec_send_frame := fun _ => 0
  avcodec_receive_packet := fun k => if k % 2 = 0 then 0 else -11
  packet := fun k => ⟨k, k, k, 1, 0⟩
  av_rescale_q := fun t => t * 6400
  stream_index := 0
  av_interleaved_write_frame := fun _ => 0
  av_write_trailer := 0
  avio_closep := 0
  av_strerror := fun _ => "error"
  av_strerror_ret := fun _ => 0
  AVERROR_EAGAIN := -11
  AVERROR_EOF := -541478725

/-- As `sampleLib`, but every call of `avcodec_send_frame` fails. -/
def sendFailsLib : Lib := { sampleLib with avcodec_send_frame := fun _ => -1 }

/-- As `sampleLib`, but `av_frame_make_writable`, `av_interleaved_write_frame`
and `av_write_trailer` always fail and `avcodec_send_frame` fails at frame 3. -/
def roughLib : Lib :=
  { sampleLib with
    av_frame_make_writable := fun _ => -1
    avcodec_send_frame := fun k => if k = 3 then -1 else 0
    av_interleaved_write_frame := fun _ => -5
    av_write_trailer := -5 }

/-- As `sampleLib`, but `avcodec_receive_packet` returns 0 at every call: the
encoder never reports that it has no packet left. -/
def neverDrainsLib : Lib := { sampleLib with avcodec_receive_packet := fun _ => 0 }

/-! ## Checked results (C1) -/

/-- A call that only produces the text of a message. -/
def isMessageCall : Call → Bool
  | .av_strerror _ => true
  | .avcodec_get_name _ => true
  | _ => false

/-- The failing results on which `example1` ends the process: a null output
context, encoder or stream, and a negative result of `avcodec_open2`,
`avio_open` or `avformat_write_header`. -/
def example1.aborts (e : Event) : Bool :=
  match e.call with
  | .avformat_alloc_output_context2 _ _ oc => !oc
  | .avcodec_find_encoder _ => decide (e.ret = 0)
  | .avformat_new_stream => decide (e.ret = 0)
  | .avcodec_open2 _ => decide (e.ret < 0)
  | .avio_open _ => decide (e.ret < 0)
  | .avformat_write_header _ => decide (e.ret < 0)
  | _ => false

/-- The failing results on which `example2` ends the process: a null
encoder, stream or codec context, a negative result of a call followed by
`checkError`, and a negative result of `avcodec_receive_packet` other than
`AVERROR(EAGAIN)` and `AVERROR_EOF`. -/
def example2.aborts (lib : Lib) (e : Event) : Bool :=
  match e.call with
  | .avformat_alloc_output_context2 _ _ _ => decide (e.ret < 0)
  | .avcodec_find_encoder _ => decide (e.ret = 0)
  | .avformat_new_stream => decide (e.ret = 0)
  | .avcodec_alloc_context3 => decide (e.ret = 0)
  | .avcodec_open2 _ => decide (e.ret < 0)
  | .avcodec_parameters_from_context => decide (e.ret < 0)
  | .avio_open _ => decide (e.ret < 0)
  | .avformat_write_header _ => decide (e.ret < 0)
  | .av_frame_get_buffer _ => decide (e.ret < 0)
  | .av_frame_make_writable => decide (e.ret < 0)
  | .avcodec_send_frame _ => decide (e.ret < 0)
  | .avcodec_receive_packet _ =>
    decide (e.ret < 0 ∧ e.ret ≠ lib.AVERROR_EAGAIN ∧ e.ret ≠ lib.AVERROR_EOF)
  | .av_interleaved_write_frame _ => decide (e.ret < 0)
  | _ => false

/-- No event of the trace is a failing checked result. -/
def Clean (ab : Event → Bool) (t : List Event) : Prop := ∀ e, e ∈ t → ab e = false

/-- Failing checked results end the process at once: either no checked
result in the trace has failed, and then the process has not exited with a
non-zero status; or exactly one has, after it the trace holds at most one
call, which only produces the text of the message, a message was written to
`std::cerr`, and the process has exited with a non-zero status. -/
def AbortsAtOnce (ab : Event → Bool) (s : State) : Prop :=
  (Clean ab s.trace ∧ ∀ c, s.status = .exited c → c = 0) ∨
  (∃ pre e post, s.trace = pre ++ e :: post ∧ Clean ab pre ∧ ab e = true ∧
    (post = [] ∨ ∃ m, post = [m] ∧ isMessageCall m.call = true ∧ ab m = false) ∧
    (∃ c, s.status = .exited c ∧ c ≠ 0) ∧ s.cerr ≠ [])

/-- The process is running and no checked result has failed. -/
def Good (ab : Event → Bool) (s : State) : Prop := s.status = .running ∧ Clean ab s.trace

/-- No checked result has failed and the process has not exited with a
non-zero status. -/
def Quiet (ab : Event → Bool) (s : State) : Prop :=
  Clean ab s.trace ∧ ∀ c, s.status = .exited c → c = 0

/-! # Theorems

## Lemmas on planes -/

theorem Painted.refl_empty (v : Nat) (p : List Nat) : Painted (fun _ => False) v p p := by
  constructor
  · rfl
  · intro i _; simp

theorem Painted.eq_of {W : Nat → Prop} {v : Nat} {p q r : List Nat}
    (hq : Painted W v p q) (hr : Painted W v p r) : q = r := by
  apply List.ext_getElem?
  intro i
  by_cases hi : i < p.length
  · by_cases hw : W i
    · rw [(hq.2 i hi).1 hw, (hr.2 i hi).1 hw]
    · rw [(hq.2 i hi).2 hw, (hr.2 i hi).2 hw]
  · have h1 : q.length ≤ i := by rw [hq.1]; omega
    have h2 : r.length ≤ i := by rw [hr.1]; omega
    rw [List.getElem?_eq_none h1, List.getElem?_eq_none h2]

theorem Painted.congr {W W' : Nat → Prop} {v : Nat} {p q : List Nat}
    (h : Painted W v p q) (hW : ∀ i, i < p.length → (W i ↔ W' i)) : Painted W' v p q := by
  refine ⟨h.1, fun i hi => ⟨fun hw => ?_, fun hw => ?_⟩⟩
  · exact (h.2 i hi).1 ((hW i hi).2 hw)
  · exact (h.2 i hi).2 (fun h' => hw ((hW i hi).1 h'))

theorem store_painted {W : Nat → Prop} {v : Nat} {p q : List Nat}
    (h : Painted W (v % 256) p q) (j : Nat) (hj : j < p.length) :
    ∃ r, store q j v = some r ∧ Painted (fun i => W i ∨ i = j) (v % 256) p r := by
  have hjq : j < q.length := by rw [h.1]; exact hj
  refine ⟨q.set j (v % 256), by simp [store, hjq], ?_, ?_⟩
  · rw [List.length_set]; exact h.1
  · intro i hi
    rw [List.getElem?_set]
    by_cases hij : j = i
    · subst hij; simp [hjq]
    · have hij' : ¬ i = j := fun h' => hij h'.symm
      simp only [hij, if_false, hij', or_false]
      exact h.2 i hi

theorem store_some_lt {p q : List Nat} {j v : Nat} (h : store p j v = some q) :
    j < p.length ∧ q.length = p.length := by
  unfold store at h
  split at h
  · rename_i hj
    simp only [Option.some.injEq] at h
    subst h
    exact ⟨hj, by simp⟩
  · simp at h

theorem memset_painted {W : Nat → Prop} {v : Nat} {p q : List Nat}
    (h : Painted W (v % 256) p q) (off n : Nat) (hb : off + n ≤ p.length) :
    ∃ r, memset q off v n = some r ∧
      Painted (fun i => W i ∨ (off ≤ i ∧ i < off + n)) (v % 256) p r := by
  have hbq : off + n ≤ q.length := by rw [h.1]; exact hb
  have hmin : min off q.length = off := by omega
  have hlen1 : (List.take off q).length = off := by simp; omega
  refine ⟨q.take off ++ List.replicate n (v % 256) ++ q.drop (off + n),
    by simp [memset, hbq], ?_, ?_⟩
  · have := h.1
    simp only [List.length_append, hlen1, List.length_replicate, List.length_drop]
    omega
  · intro i hi
    have hiq : i < q.length := by rw [h.1]; exact hi
    have hget : (q.take off ++ List.replicate n (v % 256) ++ q.drop (off + n))[i]? =
        if off ≤ i ∧ i < off + n then some (v % 256) else q[i]? := by
      by_cases h1 : i < off
      · have hn : ¬ (off ≤ i ∧ i < off + n) := by omega
        rw [List.append_assoc, List.getElem?_append_left (by rw [hlen1]; exact h1),
          List.getElem?_take_of_lt h1]
        simp [hn]
      · by_cases h2 : i < off + n
        · have hy : (off ≤ i ∧ i < off + n) := by omega
          rw [List.getElem?_append_left
              (by simp only [List.length_append, hlen1, List.length_replicate]; omega),
            List.getElem?_append_right (by rw [hlen1]; omega), hlen1,
            List.getElem?_replicate]
          have h3 : i - off < n := by omega
          simp [hy, h3]
        · have hn : ¬ (off ≤ i ∧ i < off + n) := by omega
          rw [List.getElem?_append_right
              (by simp only [List.length_append, hlen1, List.length_replicate]; omega),
            List.getElem?_drop]
          simp only [List.length_append, hlen1, List.length_replicate]
          have : off + n + (i - (off + n)) = i := by omega
          rw [this]
          simp [hn]
    rw [hget]
    constructor
    · rintro (hw | hw)
      · by_cases hr : off ≤ i ∧ i < off + n
        · simp [hr]
        · simp only [hr, if_false]; exact (h.2 i hi).1 hw
      · simp [hw]
    · intro hw
      have hr : ¬ (off ≤ i ∧ i < off + n) := fun h' => hw (Or.inr h')
      have hw' : ¬ W i := fun h' => hw (Or.inl h')
      simp only [hr, if_false]; exact (h.2 i hi).2 hw'

theorem memset_some_le {p q : List Nat} {off v n : Nat} (h : memset p off v n = some q) :
    off + n ≤ p.length ∧ q.length = p.length := by
  unfold memset at h
  split at h
  · rename_i hb
    simp only [Option.some.injEq] at h
    subst h
    refine ⟨hb, ?_⟩
    simp only [List.length_append, List.length_take, List.length_replicate, List.length_drop]
    omega
  · simp at h

/-! ## Lemmas on loops -/

theorem forLoop_inv {σ : Type} (body : Nat → σ → Option σ) (I : Nat → σ → Prop) :
    ∀ (n k : Nat) (s : σ), I k s →
      (∀ j t, k ≤ j → j < k + n → I j t → ∃ t', body j t = some t' ∧ I (j + 1) t') →
      ∃ s', forLoop body k n s = some s' ∧ I (k + n) s' := by
  intro n
  induction n with
  | zero => intro k s hI _; exact ⟨s, rfl, hI⟩
  | succ n ih =>
    intro k s hI hbody
    obtain ⟨t, ht, hIt⟩ := hbody k s (le_refl k) (by omega) hI
    obtain ⟨s', hs', hIs'⟩ := ih (k + 1) t hIt
      (fun j u hj1 hj2 hu => hbody j u (by omega) (by omega) hu)
    refine ⟨s', ?_, ?_⟩
    · simp [forLoop, ht, hs']
    · have : k + (n + 1) = k + 1 + n := by omega
      rw [this]; exact hIs'

theorem forLoop_some_inv {σ : Type} (body : Nat → σ → Option σ) (I : Nat → σ → Prop) :
    ∀ (n k : Nat) (s s' : σ), I k s →
      (∀ j t t', k ≤ j → j < k + n → I j t → body j t = some t' → I (j + 1) t') →
      forLoop body k n s = some s' → I (k + n) s' := by
  intro n
  induction n with
  | zero =>
    intro k s s' hI _ h
    simp only [forLoop, Option.some.injEq] at h
    subst h; exact hI
  | succ n ih =>
    intro k s s' hI hbody h
    simp only [forLoop] at h
    cases hb : body k s with
    | none => rw [hb] at h; simp at h
    | some t =>
      rw [hb] at h
      simp only [Option.some_bind] at h
      have hIt := hbody k s t (le_refl k) (by omega) hI hb
      have := ih (k + 1) t s' hIt (fun j u u' hj1 hj2 hu => hbody j u u' (by omega) (by omega) hu) h
      have e : k + (n + 1) = k + 1 + n := by omega
      rw [e]; exact this

theorem forLoop_pair {α β : Type} (f : Nat → α → Option α) (g : Nat → β → Option β) :
    ∀ (n k : Nat) (a : α) (b : β),
      forLoop (fun y (q : α × β) =>
          (f y q.1).bind fun q1 => (g y q.2).bind fun q2 => some (q1, q2)) k n (a, b) =
        (forLoop f k n a).bind fun a' => (forLoop g k n b).bind fun b' => some (a', b') := by
  intro n
  induction n with
  | zero => intro k a b; simp [forLoop]
  | succ n ih =>
    intro k a b
    simp only [forLoop]
    cases hf : f k a with
    | none => simp
    | some a1 =>
      cases hg : g k b with
      | none =>
        simp only [Option.some_bind, Option.none_bind]
        cases forLoop f (k + 1) n a1 <;> simp
      | some b1 => simp only [Option.some_bind]; exact ih (k + 1) a1 b1

theorem InRows_zero (ls w i : Nat) : ¬ InRows ls w 0 i := by
  rintro ⟨r, hr, _⟩; omega

theorem InRows_succ (ls w y i : Nat) :
    InRows ls w (y + 1) i ↔ (InRows ls w y i ∨ (y * ls ≤ i ∧ i < y * ls + w)) := by
  constructor
  · rintro ⟨r, hr, h1, h2⟩
    by_cases h : r = y
    · subst h; exact Or.inr ⟨h1, h2⟩
    · exact Or.inl ⟨r, by omega, h1, h2⟩
  · rintro (⟨r, hr, h1, h2⟩ | ⟨h1, h2⟩)
    · exact ⟨r, by omega, h1, h2⟩
    · exact ⟨y, by omega, h1, h2⟩

theorem InRows_of_lt {ls w rows x y : Nat} (hx : x < w) (hy : y < rows) :
    InRows ls w rows (y * ls + x) := ⟨y, hy, by omega, by omega⟩

theorem not_InRows_padding {ls w rows x y : Nat} (hx : w ≤ x) (hxl : x < ls) :
    ¬ InRows ls w rows (y * ls + x) := by
  rintro ⟨r, _, h1, h2⟩
  rcases Nat.lt_trichotomy r y with h | h | h
  · have : (r + 1) * ls ≤ y * ls := Nat.mul_le_mul_right ls h
    rw [Nat.add_mul] at this
    omega
  · subst h; omega
  · have : (y + 1) * ls ≤ r * ls := Nat.mul_le_mul_right ls h
    rw [Nat.add_mul] at this
    omega

/-- One row of stores (inner loop of `example2`) paints the row. -/
theorem rowStores_painted {ls v w y : Nat} {p q : List Nat}
    (h : Painted (InRows ls w y) (v % 256) p q) (hb : y * ls + w ≤ p.length) :
    ∃ r, forLoop (fun x r => store r (y * ls + x) v) 0 w q = some r ∧
      Painted (InRows ls w (y + 1)) (v % 256) p r := by
  obtain ⟨r, hr, hP⟩ := forLoop_inv (fun x r => store r (y * ls + x) v)
    (fun x r => Painted (fun i => InRows ls w y i ∨ (y * ls ≤ i ∧ i < y * ls + x)) (v % 256) p r)
    w 0 q (h.congr (fun i _ => by constructor
                                  · intro h'; exact Or.inl h'
                                  · rintro (h' | h')
                                    · exact h'
                                    · omega))
    (by
      intro j t _ hj hI
      obtain ⟨t', ht', hP'⟩ := store_painted hI (y * ls + j) (by omega)
      refine ⟨t', ht', hP'.congr (fun i _ => ?_)⟩
      constructor
      · rintro ((h' | h') | h')
        · exact Or.inl h'
        · exact Or.inr (by omega)
        · exact Or.inr (by omega)
      · rintro (h' | h')
        · exact Or.inl (Or.inl h')
        · by_cases e : i = y * ls + j
          · exact Or.inr e
          · exact Or.inl (Or.inr (by omega)))
  refine ⟨r, hr, hP.congr (fun i _ => ?_)⟩
  rw [InRows_succ]
  simp

/-- A row of stores that did not leave the buffer stayed inside it. -/
theorem rowStores_some {ls v w y : Nat} {q r : List Nat}
    (h : forLoop (fun x r => store r (y * ls + x) v) 0 w q = some r) :
    r.length = q.length ∧ (w = 0 ∨ y * ls + w ≤ q.length) := by
  have := forLoop_some_inv (fun x r => store r (y * ls + x) v)
    (fun x r => r.length = q.length ∧ (x = 0 ∨ y * ls + x ≤ q.length)) w 0 q r
    ⟨rfl, Or.inl rfl⟩
    (by
      intro j t t' _ _ hI ht
      obtain ⟨h1, h2⟩ := store_some_lt ht
      exact ⟨by omega, Or.inr (by omega)⟩) h
  simpa using this

/-- The memset-based luma fill of `example1` stays in bounds and paints the rows. -/
theorem example1.fillPlane_painted1 (ls v w rows : Nat) (p : List Nat)
    (hb : ∀ y, y < rows → y * ls + w ≤ p.length) :
    ∃ q, example1.fillPlane ls v w rows p = some q ∧
      Painted (InRows ls w rows) (v % 256) p q := by
  have := forLoop_inv (fun y q => memset q (y * ls) v w)
    (fun y q => Painted (InRows ls w y) (v % 256) p q) rows 0 p
    ((Painted.refl_empty (v % 256) p).congr
      (fun i _ => ⟨fun h => h.elim, fun h => InRows_zero ls w i h⟩))
    (by
      intro j t _ hj hI
      obtain ⟨t', ht', hP'⟩ := memset_painted hI (j * ls) w (hb j (by omega))
      exact ⟨t', ht', hP'.congr (fun i _ => (InRows_succ ls w j i).symm)⟩)
  simpa [example1.fillPlane] using this

/-- The per-sample luma fill of `example2` stays in bounds and paints the rows. -/
theorem example2.fillPlane_painted2 (ls v w rows : Nat) (p : List Nat)
    (hb : ∀ y, y < rows → y * ls + w ≤ p.length) :
    ∃ q, example2.fillPlane ls v w rows p = some q ∧
      Painted (InRows ls w rows) (v % 256) p q := by
  have := forLoop_inv (fun y q => forLoop (fun x r => store r (y * ls + x) v) 0 w q)
    (fun y q => Painted (InRows ls w y) (v % 256) p q) rows 0 p
    ((Painted.refl_empty (v % 256) p).congr
      (fun i _ => ⟨fun h => h.elim, fun h => InRows_zero ls w i h⟩))
    (by
      intro j t _ hj hI
      exact rowStores_painted hI (hb j (by omega)))
  simpa [example2.fillPlane] using this

/-- Whenever the luma fill of `example1` is defined, every row was in bounds. -/
theorem example1.fillPlane_some1 {ls v w rows : Nat} {p q : List Nat}
    (h : example1.fillPlane ls v w rows p = some q) :
    ∀ y, y < rows → y * ls + w ≤ p.length := by
  have := forLoop_some_inv (fun y q => memset q (y * ls) v w)
    (fun y q => q.length = p.length ∧ ∀ r, r < y → r * ls + w ≤ p.length) rows 0 p q
    ⟨rfl, fun r hr => by omega⟩
    (by
      intro j t t' _ _ hI ht
      obtain ⟨h1, h2⟩ := memset_some_le ht
      refine ⟨by omega, fun r hr => ?_⟩
      by_cases e : r = j
      · subst e; omega
      · exact hI.2 r (by omega)) h
  intro y hy
  exact this.2 y (by omega)

/-- Whenever the luma fill of `example2` is defined (and rows are not empty),
every row was in bounds. -/
theorem example2.fillPlane_some2 {ls v w rows : Nat} {p q : List Nat} (hw : 0 < w)
    (h : example2.fillPlane ls v w rows p = some q) :
    ∀ y, y < rows → y * ls + w ≤ p.length := by
  have := forLoop_some_inv (fun y q => forLoop (fun x r => store r (y * ls + x) v) 0 w q)
    (fun y q => q.length = p.length ∧ ∀ r, r < y → r * ls + w ≤ p.length) rows 0 p q
    ⟨rfl, fun r hr => by omega⟩
    (by
      intro j t t' _ _ hI ht
      obtain ⟨h1, h2⟩ := rowStores_some ht
      refine ⟨by omega, fun r hr => ?_⟩
      by_cases e : r = j
      · subst e; omega
      · exact hI.2 r (by omega)) h
  intro y hy
  exact this.2 y (by omega)

theorem example1.fillChroma_eq1 (ls1 ls2 v w rows : Nat) (p1 p2 : List Nat) :
    example1.fillChroma ls1 ls2 v w rows (p1, p2) =
      (example1.fillPlane ls1 v w rows p1).bind fun a =>
      (example1.fillPlane ls2 v w rows p2).bind fun b => some (a, b) := by
  unfold example1.fillChroma example1.fillPlane
  exact forLoop_pair (fun y q => memset q (y * ls1) v w) (fun y q => memset q (y * ls2) v w)
    rows 0 p1 p2

theorem example2.fillChroma_eq2 (ls1 ls2 v w rows : Nat) (p1 p2 : List Nat) :
    example2.fillChroma ls1 ls2 v w rows (p1, p2) =
      (example2.fillPlane ls1 v w rows p1).bind fun a =>
      (example2.fillPlane ls2 v w rows p2).bind fun b => some (a, b) := by
  unfold example2.fillChroma example2.fillPlane
  have hin : (fun y (q : List Nat × List Nat) => forLoop (fun x (r : List Nat × List Nat) =>
      (store r.1 (y * ls1 + x) v).bind fun r1 =>
      (store r.2 (y * ls2 + x) v).bind fun r2 => some (r1, r2)) 0 w q) =
      (fun y (q : List Nat × List Nat) =>
        (forLoop (fun x r => store r (y * ls1 + x) v) 0 w q.1).bind fun q1 =>
        (forLoop (fun x r => store r (y * ls2 + x) v) 0 w q.2).bind fun q2 => some (q1, q2)) := by
    funext y q
    exact forLoop_pair (fun x r => store r (y * ls1 + x) v) (fun x r => store r (y * ls2 + x) v)
      w 0 q.1 q.2
  rw [hin]
  exact forLoop_pair (fun y q => forLoop (fun x r => store r (y * ls1 + x) v) 0 w q)
    (fun y q => forLoop (fun x r => store r (y * ls2 + x) v) 0 w q) rows 0 p1 p2

/-- Both luma fills agree, stay inside a plane of `ls * rows` bytes, paint the
visible samples and leave the padding alone. -/
theorem plane_fill_spec (ls v w rows : Nat) (p : List Nat) (hw : w ≤ ls)
    (hp : p.length = ls * rows) (hv : v < 256) :
    ∃ q, example1.fillPlane ls v w rows p = some q ∧
      example2.fillPlane ls v w rows p = some q ∧ q.length = p.length ∧
      (∀ x y, x < w → y < rows → q[y * ls + x]? = some v) ∧
      (∀ x y, w ≤ x → x < ls → y < rows → q[y * ls + x]? = p[y * ls + x]?) := by
  have hb : ∀ y, y < rows → y * ls + w ≤ p.length := by
    intro y hy
    have : (y + 1) * ls ≤ rows * ls := Nat.mul_le_mul_right ls hy
    rw [Nat.add_mul] at this
    rw [hp, Nat.mul_comm ls rows]
    omega
  have hin : ∀ x y, x < ls → y < rows → y * ls + x < p.length := by
    intro x y hx hy
    have : (y + 1) * ls ≤ rows * ls := Nat.mul_le_mul_right ls hy
    rw [Nat.add_mul] at this
    rw [hp, Nat.mul_comm ls rows]
    omega
  obtain ⟨q, hq, hP⟩ := example1.fillPlane_painted1 ls v w rows p hb
  obtain ⟨q', hq', hP'⟩ := example2.fillPlane_painted2 ls v w rows p hb
  have e : q' = q := hP'.eq_of hP
  subst e
  rw [Nat.mod_eq_of_lt hv] at hP
  refine ⟨q', hq, hq', hP.1, ?_, ?_⟩
  · intro x y hx hy
    exact (hP.2 _ (hin x y (by omega) hy)).1 (InRows_of_lt hx hy)
  · intro x y hx hxl hy
    exact (hP.2 _ (hin x y hxl hy)).2 (not_InRows_padding hx hxl)

theorem painted_visible {ls v w rows : Nat} {p q : List Nat}
    (h : Painted (InRows ls w rows) v p q) (hb : ∀ y, y < rows → y * ls + w ≤ p.length)
    (x y : Nat) (hx : x < w) (hy : y < rows) : q[y * ls + x]? = some v :=
  (h.2 _ (by have := hb y hy; omega)).1 (InRows_of_lt hx hy)

theorem Solid.keep_pts {v : Nat} {f : Frame} (h : Solid v f) (t : Int) :
    Solid v { f with pts := t } := h

theorem FrameFits.with_pts {f : Frame} (h : FrameFits f) (t : Int) :
    FrameFits { f with pts := t } := h

theorem example1.fillFrame_ok1 (i : Nat) (f : Frame) (h : FrameFits f) :
    ∃ f', example1.fillFrame i f = some f' ∧ FrameFits f' ∧
      Solid (example1.y_val i) f' := by
  obtain ⟨d0, d1, d2, e0, e1, e2, b0, b1, b2⟩ := h
  obtain ⟨q0, hq0, P0⟩ := example1.fillPlane_painted1 f.linesize0 (example1.y_val i) 320 240 d0 b0
  obtain ⟨q1, hq1, P1⟩ := example1.fillPlane_painted1 f.linesize1 128 160 120 d1 b1
  obtain ⟨q2, hq2, P2⟩ := example1.fillPlane_painted1 f.linesize2 128 160 120 d2 b2
  have hy : example1.y_val i % 256 = example1.y_val i := by
    unfold example1.y_val; split <;> rfl
  rw [hy] at P0
  refine ⟨{ f with data0 := some q0, data1 := some q1, data2 := some q2 }, ?_, ?_, ?_, ?_⟩
  · have hq0' : example1.fillPlane f.linesize0 (example1.y_val i) example1.width example1.height d0
        = some q0 := hq0
    have hq1' : example1.fillPlane f.linesize1 128 (example1.width / 2) (example1.height / 2) d1
        = some q1 := hq1
    have hq2' : example1.fillPlane f.linesize2 128 (example1.width / 2) (example1.height / 2) d2
        = some q2 := hq2
    unfold example1.fillFrame
    rw [e0, e1, e2]
    simp only [Option.some_bind, example1.fillChroma_eq1, hq0', hq1', hq2']
  · exact ⟨q0, q1, q2, rfl, rfl, rfl, fun y hy => by rw [P0.1]; exact b0 y hy,
      fun y hy => by rw [P1.1]; exact b1 y hy, fun y hy => by rw [P2.1]; exact b2 y hy⟩
  · intro x y hx hy'
    exact painted_visible P0 b0 x y hx hy'
  · intro x y hx hy'
    exact ⟨painted_visible P1 b1 x y hx hy', painted_visible P2 b2 x y hx hy'⟩

theorem example1.fillFrame_some1 {i : Nat} {f f' : Frame}
    (h : example1.fillFrame i f = some f') :
    FrameFits f' ∧ Solid (example1.y_val i) f' := by
  have hf : FrameFits f := by
    unfold example1.fillFrame at h
    cases e0 : f.data0 with
    | none => rw [e0] at h; simp at h
    | some d0 =>
      rw [e0] at h
      simp only [Option.some_bind] at h
      cases hq0 : example1.fillPlane f.linesize0 (example1.y_val i) example1.width
          example1.height d0 with
      | none => rw [hq0] at h; simp at h
      | some q0 =>
        rw [hq0] at h
        simp only [Option.some_bind] at h
        cases e1 : f.data1 with
        | none => rw [e1] at h; simp at h
        | some d1 =>
          cases e2 : f.data2 with
          | none => rw [e1, e2] at h; simp at h
          | some d2 =>
            rw [e1, e2] at h
            simp only [Option.some_bind, example1.fillChroma_eq1] at h
            cases hq1 : example1.fillPlane f.linesize1 128 (example1.width / 2)
                (example1.height / 2) d1 with
            | none => rw [hq1] at h; simp at h
            | some q1 =>
              cases hq2 : example1.fillPlane f.linesize2 128 (example1.width / 2)
                  (example1.height / 2) d2 with
              | none => rw [hq1, hq2] at h; simp at h
              | some q2 =>
                exact ⟨d0, d1, d2, e0, e1, e2, example1.fillPlane_some1 hq0,
                  example1.fillPlane_some1 hq1, example1.fillPlane_some1 hq2⟩
  obtain ⟨g, hg, h1, h2⟩ := example1.fillFrame_ok1 i f hf
  rw [hg] at h
  simp only [Option.some.injEq] at h
  subst h
  exact ⟨h1, h2⟩

theorem example2.gray_lt2 (i : Nat) : example2.gray i < 256 := by
  unfold example2.gray
  exact Nat.mod_lt _ (by decide)

theorem example2.fillFrame_ok2 (i : Nat) (f : Frame) (h : FrameFits f) :
    ∃ f', example2.fillFrame i f = some f' ∧ FrameFits f' ∧
      Solid (example2.gray i) f' := by
  obtain ⟨d0, d1, d2, e0, e1, e2, b0, b1, b2⟩ := h
  obtain ⟨q0, hq0, P0⟩ := example2.fillPlane_painted2 f.linesize0 (example2.gray i) 320 240 d0 b0
  obtain ⟨q1, hq1, P1⟩ := example2.fillPlane_painted2 f.linesize1 128 160 120 d1 b1
  obtain ⟨q2, hq2, P2⟩ := example2.fillPlane_painted2 f.linesize2 128 160 120 d2 b2
  rw [Nat.mod_eq_of_lt (example2.gray_lt2 i)] at P0
  refine ⟨{ f with data0 := some q0, data1 := some q1, data2 := some q2 }, ?_, ?_, ?_, ?_⟩
  · have hq0' : example2.fillPlane f.linesize0 (example2.gray i) example2.width example2.height d0
        = some q0 := hq0
    have hq1' : example2.fillPlane f.linesize1 128 (example2.width / 2) (example2.height / 2) d1
        = some q1 := hq1
    have hq2' : example2.fillPlane f.linesize2 128 (example2.width / 2) (example2.height / 2) d2
        = some q2 := hq2
    unfold example2.fillFrame
    rw [e0, e1, e2]
    simp only [Option.some_bind, example2.fillChroma_eq2, hq0', hq1', hq2']
  · exact ⟨q0, q1, q2, rfl, rfl, rfl, fun y hy => by rw [P0.1]; exact b0 y hy,
      fun y hy => by rw [P1.1]; exact b1 y hy, fun y hy => by rw [P2.1]; exact b2 y hy⟩
  · intro x y hx hy'
    exact painted_visible P0 b0 x y hx hy'
  · intro x y hx hy'
    exact ⟨painted_visible P1 b1 x y hx hy', painted_visible P2 b2 x y hx hy'⟩

theorem example2.fillFrame_some2 {i : Nat} {f f' : Frame}
    (h : example2.fillFrame i f = some f') :
    FrameFits f' ∧ Solid (example2.gray i) f' := by
  have hf : FrameFits f := by
    unfold example2.fillFrame at h
    cases e0 : f.data0 with
    | none => rw [e0] at h; simp at h
    | some d0 =>
      rw [e0] at h
      simp only [Option.some_bind] at h
      cases hq0 : example2.fillPlane f.linesize0 (example2.gray i) example2.width
          example2.height d0 with
      | none => rw [hq0] at h; simp at h
      | some q0 =>
        rw [hq0] at h
        simp only [Option.some_bind] at h
        cases e1 : f.data1 with
        | none => rw [e1] at h; simp at h
        | some d1 =>
          cases e2 : f.data2 with
          | none => rw [e1, e2] at h; simp at h
          | some d2 =>
            rw [e1, e2] at h
            simp only [Option.some_bind, example2.fillChroma_eq2] at h
            cases hq1 : example2.fillPlane f.linesize1 128 (example2.width / 2)
                (example2.height / 2) d1 with
            | none => rw [hq1] at h; simp at h
            | some q1 =>
              cases hq2 : example2.fillPlane f.linesize2 128 (example2.width / 2)
                  (example2.height / 2) d2 with
              | none => rw [hq1, hq2] at h; simp at h
              | some q2 =>
                exact ⟨d0, d1, d2, e0, e1, e2,
                  example2.fillPlane_some2 (by decide) hq0,
                  example2.fillPlane_some2 (by decide) hq1,
                  example2.fillPlane_some2 (by decide) hq2⟩
  obtain ⟨g, hg, h1, h2⟩ := example2.fillFrame_ok2 i f hf
  rw [hg] at h
  simp only [Option.some.injEq] at h
  subst h
  exact ⟨h1, h2⟩

theorem GoodFrom.get {P : Nat → Frame → Prop} :
    ∀ (fs : List Frame) (i k : Nat) (f : Frame),
      GoodFrom P i fs → fs[k]? = some f → P (i + k) f := by
  intro fs
  induction fs with
  | nil => intro i k f _ h; simp at h
  | cons g gs ih =>
    intro i k f hg h
    cases k with
    | zero =>
      simp only [List.getElem?_cons_zero, Option.some.injEq] at h
      subst h; exact hg.1
    | succ k =>
      simp only [List.getElem?_cons_succ] at h
      have := ih (i + 1) k f hg.2 h
      have e : i + 1 + k = i + (k + 1) := by omega
      rw [e] at this; exact this

theorem GoodFrom.append {P : Nat → Frame → Prop} :
    ∀ (fs gs : List Frame) (i : Nat),
      GoodFrom P i fs → GoodFrom P (i + fs.length) gs → GoodFrom P i (fs ++ gs) := by
  intro fs
  induction fs with
  | nil => intro gs i _ h; simpa using h
  | cons f fs ih =>
    intro gs i h1 h2
    refine ⟨h1.1, ih gs (i + 1) h1.2 ?_⟩
    have e : i + (f :: fs).length = i + 1 + fs.length := by simp; omega
    rw [e] at h2; exact h2

@[simp] theorem sentFrames_nil : sentFrames [] = [] := rfl

theorem sentFrames_cons (e : Event) (t : List Event) :
    sentFrames (e :: t) =
      (match e.call with
        | .avcodec_send_frame (some f) => [f]
        | _ => []) ++ sentFrames t := by
  unfold sentFrames
  rw [List.filterMap_cons]
  split <;> rename_i h
  · split
    · rename_i h'; rw [h'] at h; simp at h
    · rfl
  · split
    · rename_i f h'; rw [h'] at h; simp at h; subst h; rfl
    · rename_i h'
      split at h
      · rename_i f h''; exact absurd h'' (h' f)
      · simp at h

@[simp] theorem sentFrames_append (a b : List Event) :
    sentFrames (a ++ b) = sentFrames a ++ sentFrames b := by
  simp [sentFrames, List.filterMap_append]

@[simp] theorem State.call_trace (s : State) (c : Call) (r : Int) :
    (s.call c r).trace = s.trace ++ [⟨c, r⟩] := rfl

@[simp] theorem State.call_status (s : State) (c : Call) (r : Int) :
    (s.call c r).status = s.status := rfl

@[simp] theorem State.call_cerr (s : State) (c : Call) (r : Int) :
    (s.call c r).cerr = s.cerr := rfl

@[simp] theorem State.call_cout (s : State) (c : Call) (r : Int) :
    (s.call c r).cout = s.cout := rfl

@[simp] theorem State.call_frame (s : State) (c : Call) (r : Int) :
    (s.call c r).frame = s.frame := rfl

@[simp] theorem State.call_n_send (s : State) (c : Call) (r : Int) :
    (s.call c r).n_send = s.n_send := rfl

@[simp] theorem State.call_n_recv (s : State) (c : Call) (r : Int) :
    (s.call c r).n_recv = s.n_recv := rfl

@[simp] theorem State.call_n_write (s : State) (c : Call) (r : Int) :
    (s.call c r).n_write = s.n_write := rfl

@[simp] theorem State.call_n_writable (s : State) (c : Call) (r : Int) :
    (s.call c r).n_writable = s.n_writable := rfl

@[simp] theorem State.printErr_trace (s : State) (m : String) :
    (s.printErr m).trace = s.trace := rfl

@[simp] theorem State.printErr_status (s : State) (m : String) :
    (s.printErr m).status = s.status := rfl

@[simp] theorem State.printErr_cerr (s : State) (m : String) :
    (s.printErr m).cerr = s.cerr ++ [m] := rfl

@[simp] theorem State.printErr_cout (s : State) (m : String) :
    (s.printErr m).cout = s.cout := rfl

@[simp] theorem State.printErr_n_send (s : State) (m : String) :
    (s.printErr m).n_send = s.n_send := rfl

@[simp] theorem State.printErr_frame (s : State) (m : String) :
    (s.printErr m).frame = s.frame := rfl

@[simp] theorem State.printOut_trace (s : State) (m : String) :
    (s.printOut m).trace = s.trace := rfl

@[simp] theorem State.printOut_status (s : State) (m : String) :
    (s.printOut m).status = s.status := rfl

@[simp] theorem State.printOut_cerr (s : State) (m : String) :
    (s.printOut m).cerr = s.cerr := rfl

@[simp] theorem State.printOut_cout (s : State) (m : String) :
    (s.printOut m).cout = s.cout ++ [m] := rfl

@[simp] theorem State.exit_trace (s : State) (c : Int) : (s.exit c).trace = s.trace := rfl

@[simp] theorem State.exit_status (s : State) (c : Int) : (s.exit c).status = .exited c := rfl

@[simp] theorem State.exit_cerr (s : State) (c : Int) : (s.exit c).cerr = s.cerr := rfl

@[simp] theorem State.exit_cout (s : State) (c : Int) : (s.exit c).cout = s.cout := rfl

@[simp] theorem State.crash_trace (s : State) : s.crash.trace = s.trace := rfl

@[simp] theorem State.crash_status (s : State) : s.crash.status = .undefined := rfl

@[simp] theorem State.crash_cerr (s : State) : s.crash.cerr = s.cerr := rfl

@[simp] theorem State.init_trace : State.init.trace = [] := rfl

@[simp] theorem State.init_status : State.init.status = .running := rfl

@[simp] theorem State.init_cerr : State.init.cerr = [] := rfl

@[simp] theorem State.init_cout : State.init.cout = [] := rfl

@[simp] theorem State.init_n_send : State.init.n_send = 0 := rfl

theorem State.andThen_running {s : State} (k : State → State) (h : s.status = .running) :
    s.andThen k = k s := by
  unfold State.andThen; rw [h]

theorem State.andThen_stopped {s : State} (k : State → State) (h : s.status ≠ .running) :
    s.andThen k = s := by
  unfold State.andThen
  split
  · rename_i h'; exact absurd h' h
  · rfl

/-- A property of `s.andThen k` follows from the two ways it can go. -/
theorem State.andThen_cases (P : State → Prop) (s : State) (k : State → State)
    (h1 : s.status ≠ .running → P s) (h2 : s.status = .running → P (k s)) :
    P (s.andThen k) := by
  by_cases h : s.status = .running
  · rw [State.andThen_running k h]; exact h2 h
  · rw [State.andThen_stopped k h]; exact h1 h

theorem example2.checkError_trace_sent2 (lib : Lib) (err : Int) (msg : String) (s : State) :
    sentFrames (example2.checkError lib err msg s).trace = sentFrames s.trace := by
  unfold example2.checkError
  split <;> simp [sentFrames]

/-! ## The frames submitted by `example1` -/

theorem example1.setup_sent1 (lib : Lib) (s : State) :
    sentFrames (example1.setup lib s).trace = sentFrames s.trace := by
  unfold example1.setup
  simp only []
  split_ifs <;> simp [sentFrames]

theorem example1.prepare_sent1 (lib : Lib) (s : State) :
    sentFrames (example1.prepare lib s).trace = sentFrames s.trace := by
  unfold example1.prepare
  simp only []
  split_ifs <;> simp [sentFrames]

theorem example1.drain_sent1 (lib : Lib) :
    ∀ (fuel : Nat) (s : State),
      sentFrames (example1.drain lib fuel s).trace = sentFrames s.trace := by
  intro fuel
  induction fuel with
  | zero => intro s; rfl
  | succ fuel ih =>
    intro s
    unfold example1.drain
    simp only []
    split_ifs
    · simp [sentFrames]
    · rw [ih]; simp [sentFrames]
    · simp [sentFrames]

theorem example1.finish_sent1 (lib : Lib) (fuel : Nat) (s : State) :
    sentFrames (example1.finish lib fuel s).trace = sentFrames s.trace := by
  unfold example1.finish
  simp only []
  apply State.andThen_cases (fun t => sentFrames t.trace = sentFrames s.trace)
  · intro _; rw [example1.drain_sent1]; simp [sentFrames]
  · intro _
    split_ifs <;> simp [example1.drain_sent1] <;> simp [sentFrames]

theorem example1.encode_sent1 (lib : Lib) (fuel : Nat) :
    ∀ (n i : Nat) (s : State), ∃ fs,
      sentFrames (example1.encode lib fuel n i s).trace = sentFrames s.trace ++ fs ∧
      fs.length ≤ n ∧
      GoodFrom (fun k f => f.pts = (k : Int) ∧ Solid (example1.y_val k) f) i fs := by
  intro n
  induction n with
  | zero => intro i s; exact ⟨[], by simp [example1.encode], by simp, trivial⟩
  | succ n ih =>
    intro i s
    unfold example1.encode
    simp only []
    split
    · exact ⟨[], by simp [sentFrames], by simp, trivial⟩
    · rename_i f hf
      have hfill : ∃ g, example1.fillFrame i g = some f := by
        simp only [State.call_frame] at hf
        cases hs : s.frame with
        | none => rw [hs] at hf; simp at hf
        | some g => rw [hs] at hf; exact ⟨g, hf⟩
      obtain ⟨g, hg⟩ := hfill
      have hgood := example1.fillFrame_some1 hg
      split_ifs
      · refine ⟨[{ f with pts := (i : Int) }], by simp [sentFrames], by simp, ⟨rfl, ?_⟩, trivial⟩
        exact hgood.2.keep_pts _
      · apply State.andThen_cases (fun t => ∃ fs, sentFrames t.trace = sentFrames s.trace ++ fs ∧
          fs.length ≤ n + 1 ∧
          GoodFrom (fun k f => f.pts = (k : Int) ∧ Solid (example1.y_val k) f) i fs)
        · intro _
          refine ⟨[{ f with pts := (i : Int) }], ?_, by simp, ⟨rfl, hgood.2.keep_pts _⟩, trivial⟩
          rw [example1.drain_sent1]; simp [sentFrames]
        · intro _
          obtain ⟨fs, h1, h2, h3⟩ := ih (i + 1) (example1.drain lib fuel
            { s.call .av_frame_make_writable (lib.av_frame_make_writable s.n_writable) |>.call
                (.avcodec_send_frame (some { f with pts := (i : Int) }))
                (lib.avcodec_send_frame s.n_send) with
              frame := some { f with pts := (i : Int) }, n_send := s.n_send + 1,
              n_writable := s.n_writable + 1 })
          refine ⟨{ f with pts := (i : Int) } :: fs, ?_, by simp; omega,
            ⟨rfl, hgood.2.keep_pts _⟩, h3⟩
          have := h1
          rw [example1.drain_sent1] at this
          simp [sentFrames] at this ⊢
          convert this using 2

theorem example1.main_sent1 (lib : Lib) (fuel : Nat) :
    example1.SentOK (example1.main lib fuel).trace := by
  unfold example1.main
  refine State.andThen_cases (fun t => example1.SentOK t.trace) _ _ (fun _ => ?_) (fun _ => ?_)
  · simp [example1.SentOK, example1.setup_sent1, GoodFrom]
  · refine State.andThen_cases (fun t => example1.SentOK t.trace) _ _ (fun _ => ?_) (fun _ => ?_)
    · simp [example1.SentOK, example1.setup_sent1, example1.prepare_sent1, GoodFrom]
    · obtain ⟨fs, h1, h2, h3⟩ := example1.encode_sent1 lib fuel 10 0
        (example1.prepare lib (example1.setup lib State.init))
      simp only [example1.setup_sent1, example1.prepare_sent1, State.init_trace, sentFrames_nil,
        List.nil_append] at h1
      refine State.andThen_cases (fun t => example1.SentOK t.trace) _ _ (fun _ => ?_) (fun _ => ?_)
      · simp only [example1.SentOK, h1]; exact ⟨h2, h3⟩
      · simp only [example1.SentOK, example1.finish_sent1, h1]; exact ⟨h2, h3⟩

/-! ## The frames submitted by `example2` -/

theorem example2.setup_sent2 (lib : Lib) (s : State) :
    sentFrames (example2.setup lib s).trace = sentFrames s.trace := by
  unfold example2.setup
  simp only []
  repeat' first
    | refine State.andThen_cases (fun t => sentFrames t.trace = sentFrames s.trace) _ _
        (fun _ => ?_) (fun _ => ?_)
    | split_ifs
    | simp [example2.checkError_trace_sent2, sentFrames_cons]

theorem example2.prepare_sent2 (lib : Lib) (s : State) :
    sentFrames (example2.prepare lib s).trace = sentFrames s.trace := by
  unfold example2.prepare
  simp only []
  split_ifs <;> simp [example2.checkError_trace_sent2, sentFrames_cons]

theorem example2.drain_sent2 (lib : Lib) (msgR msgW : String) :
    ∀ (fuel : Nat) (ret : Int) (s : State),
      sentFrames (example2.drain lib msgR msgW fuel ret s).trace = sentFrames s.trace := by
  intro fuel
  induction fuel with
  | zero => intro ret s; unfold example2.drain; split_ifs <;> rfl
  | succ fuel ih =>
    intro ret s
    unfold example2.drain
    simp only []
    repeat' first
      | refine State.andThen_cases (fun t => sentFrames t.trace = sentFrames s.trace) _ _
          (fun _ => ?_) (fun _ => ?_)
      | split_ifs
      | simp [example2.checkError_trace_sent2, sentFrames_cons, ih]

theorem example2.finish_sent2 (lib : Lib) (fuel : Nat) (s : State) :
    sentFrames (example2.finish lib fuel s).trace = sentFrames s.trace := by
  unfold example2.finish
  simp only []
  repeat' first
    | refine State.andThen_cases (fun t => sentFrames t.trace = sentFrames s.trace) _ _
        (fun _ => ?_) (fun _ => ?_)
    | split_ifs
    | simp [example2.checkError_trace_sent2, example2.drain_sent2, sentFrames_cons]

theorem example2.encode_sent2 (lib : Lib) (fuel : Nat) :
    ∀ (n i : Nat) (s : State), ∃ fs,
      sentFrames (example2.encode lib fuel n i s).trace = sentFrames s.trace ++ fs ∧
      fs.length ≤ n ∧
      GoodFrom (fun k f => f.pts = (k : Int) ∧ Solid (example2.gray k) f) i fs := by
  intro n
  induction n with
  | zero => intro i s; exact ⟨[], by simp [example2.encode], by simp, trivial⟩
  | succ n ih =>
    intro i s
    unfold example2.encode
    simp only []
    refine State.andThen_cases (fun t => ∃ fs, sentFrames t.trace = sentFrames s.trace ++ fs ∧
        fs.length ≤ n + 1 ∧
        GoodFrom (fun k f => f.pts = (k : Int) ∧ Solid (example2.gray k) f) i fs) _ _
        (fun _ => ?_) (fun _ => ?_)
    · exact ⟨[], by simp [example2.checkError_trace_sent2, sentFrames_cons], by simp, trivial⟩
    · split
      · exact ⟨[], by simp [example2.checkError_trace_sent2, sentFrames_cons], by simp, trivial⟩
      · rename_i f hf
        have hfill : ∃ g, example2.fillFrame i g = some f := by
          cases hs : (example2.checkError lib (lib.av_frame_make_writable s.n_writable)
              "av_frame_make_writable"
              { s.call .av_frame_make_writable (lib.av_frame_make_writable s.n_writable) with
                n_writable := s.n_writable + 1 }).frame with
          | none => rw [hs] at hf; simp at hf
          | some g => rw [hs] at hf; exact ⟨g, hf⟩
        obtain ⟨g, hg⟩ := hfill
        have hgood := example2.fillFrame_some2 hg
        refine State.andThen_cases (fun t => ∃ fs,
          sentFrames t.trace = sentFrames s.trace ++ fs ∧ fs.length ≤ n + 1 ∧
          GoodFrom (fun k f => f.pts = (k : Int) ∧ Solid (example2.gray k) f) i fs) _ _
          (fun _ => ?_) (fun _ => ?_)
        · exact ⟨[{ f with pts := (i : Int) }],
            by simp [example2.checkError_trace_sent2, sentFrames_cons], by simp,
            ⟨rfl, hgood.2.keep_pts _⟩, trivial⟩
        · refine State.andThen_cases (fun t => ∃ fs,
            sentFrames t.trace = sentFrames s.trace ++ fs ∧ fs.length ≤ n + 1 ∧
            GoodFrom (fun k f => f.pts = (k : Int) ∧ Solid (example2.gray k) f) i fs) _ _
            (fun _ => ?_) (fun _ => ?_)
          · exact ⟨[{ f with pts := (i : Int) }],
              by simp [example2.checkError_trace_sent2, example2.drain_sent2, sentFrames_cons],
              by simp, ⟨rfl, hgood.2.keep_pts _⟩, trivial⟩
          · generalize hu : example2.drain lib "avcodec_receive_packet"
              "av_interleaved_write_frame" fuel _ _ = u
            have hut : sentFrames u.trace = sentFrames s.trace ++ [{ f with pts := (i : Int) }] := by
              rw [← hu]
              simp [example2.checkError_trace_sent2, example2.drain_sent2, sentFrames_cons]
            obtain ⟨fs, h1, h2, h3⟩ := ih (i + 1) u
            refine ⟨{ f with pts := (i : Int) } :: fs, ?_, by simp; omega,
              ⟨rfl, hgood.2.keep_pts _⟩, h3⟩
            rw [h1, hut]; simp

theorem example2.main_sent2 (lib : Lib) (fuel : Nat) :
    example2.SentOK (example2.main lib fuel).trace := by
  unfold example2.main
  refine State.andThen_cases (fun t => example2.SentOK t.trace) _ _ (fun _ => ?_) (fun _ => ?_)
  · simp [example2.SentOK, example2.setup_sent2, GoodFrom]
  · refine State.andThen_cases (fun t => example2.SentOK t.trace) _ _ (fun _ => ?_) (fun _ => ?_)
    · simp [example2.SentOK, example2.setup_sent2, example2.prepare_sent2, GoodFrom]
    · obtain ⟨fs, h1, h2, h3⟩ := example2.encode_sent2 lib fuel example2.numFrames 0
        (example2.prepare lib (example2.setup lib State.init))
      simp only [example2.setup_sent2, example2.prepare_sent2, State.init_trace, sentFrames_nil,
        List.nil_append] at h1
      refine State.andThen_cases (fun t => example2.SentOK t.trace) _ _ (fun _ => ?_) (fun _ => ?_)
      · simp only [example2.SentOK, h1]; exact ⟨h2, h3⟩
      · simp only [example2.SentOK, example2.finish_sent2, h1]; exact ⟨h2, h3⟩

theorem GoodFrom.pts_eq {Q : Nat → Frame → Prop} :
    ∀ (fs : List Frame) (i : Nat), GoodFrom (fun k f => f.pts = (k : Int) ∧ Q k f) i fs →
      fs.map (fun f => f.pts) = (List.range' i fs.length).map (fun k : Nat => (k : Int)) := by
  intro fs
  induction fs with
  | nil => intro i _; rfl
  | cons f fs ih =>
    intro i h
    simp only [List.map_cons, List.length_cons, List.range'_succ]
    rw [h.1.1, ih (i + 1) h.2]

theorem Lib.Drains.stop {lib : Lib} (h : lib.Drains) (n : Nat) :
    ∃ k, (∀ j, j < k → lib.avcodec_receive_packet (n + j) = 0) ∧
      lib.avcodec_receive_packet (n + k) ≠ 0 := by
  have hex : ∃ k, lib.avcodec_receive_packet (n + k) ≠ 0 := by
    obtain ⟨m, hm, hne⟩ := h n
    exact ⟨m - n, by rw [Nat.add_sub_cancel' hm]; exact hne⟩
  classical
  refine ⟨Nat.find hex, fun j hj => ?_, Nat.find_spec hex⟩
  have := Nat.find_min hex hj
  simpa using this

theorem example1.drain_eq1 (lib : Lib) (hp : lib.av_packet_alloc = true) :
    ∀ (k fuel : Nat) (s : State), k < fuel →
      (∀ j, j < k → lib.avcodec_receive_packet (s.n_recv + j) = 0) →
      lib.avcodec_receive_packet (s.n_recv + k) ≠ 0 →
      example1.drain lib fuel s = drained lib k s := by
  intro k
  induction k with
  | zero =>
    intro fuel s hf _ hne
    obtain ⟨fuel, rfl⟩ : ∃ f, fuel = f + 1 := ⟨fuel - 1, by omega⟩
    simp only [Nat.add_zero] at hne
    unfold example1.drain
    simp only [hne, if_false]
    ext <;> simp [drained, drainEvents]
  | succ k ih =>
    intro fuel s hf hz hne
    obtain ⟨fuel, rfl⟩ : ∃ f, fuel = f + 1 := ⟨fuel - 1, by omega⟩
    have h0 : lib.avcodec_receive_packet s.n_recv = 0 := by simpa using hz 0 (by omega)
    unfold example1.drain
    simp only [h0, hp, if_true]
    rw [ih fuel _ (by omega)
      (by intro j hj
          have := hz (j + 1) (by omega)
          simpa [Nat.add_assoc, Nat.add_comm 1 j] using this)
      (by simpa [Nat.add_assoc, Nat.add_comm 1 k] using hne)]
    ext <;> simp [drained, drainEvents, Nat.add_assoc, Nat.add_comm 1 k]

theorem example2.checkError_nonneg2 (lib : Lib) {err : Int} (msg : String) (s : State)
    (h : 0 ≤ err) : example2.checkError lib err msg s = s := by
  simp [example2.checkError, not_lt.mpr h]

theorem example2.drain_eq2 (lib : Lib) (msgR msgW : String)
    (hA : lib.AVERROR_EAGAIN ≠ 0) (hE : lib.AVERROR_EOF ≠ 0)
    (hw : ∀ j, 0 ≤ lib.av_interleaved_write_frame j) :
    ∀ (k fuel : Nat) (ret : Int) (s : State), k < fuel → 0 ≤ ret →
      (∀ j, j < k → lib.avcodec_receive_packet (s.n_recv + j) = 0) →
      (lib.avcodec_receive_packet (s.n_recv + k) = lib.AVERROR_EAGAIN ∨
        lib.avcodec_receive_packet (s.n_recv + k) = lib.AVERROR_EOF) →
      s.status = .running →
      example2.drain lib msgR msgW fuel ret s = drained lib k s := by
  intro k
  induction k with
  | zero =>
    intro fuel ret s hf hret _ hstop _
    obtain ⟨fuel, rfl⟩ : ∃ f, fuel = f + 1 := ⟨fuel - 1, by omega⟩
    simp only [Nat.add_zero] at hstop
    unfold example2.drain
    simp only [not_lt.mpr hret, if_false, hstop, if_true]
    ext <;> simp [drained, drainEvents]
  | succ k ih =>
    intro fuel ret s hf hret hz hstop hs
    obtain ⟨fuel, rfl⟩ : ∃ f, fuel = f + 1 := ⟨fuel - 1, by omega⟩
    have h0 : lib.avcodec_receive_packet s.n_recv = 0 := by simpa using hz 0 (by omega)
    have hA' : ¬ (0 : Int) = lib.AVERROR_EAGAIN := fun h => hA h.symm
    have hE' : ¬ (0 : Int) = lib.AVERROR_EOF := fun h => hE h.symm
    unfold example2.drain
    simp only [not_lt.mpr hret, if_false, h0, hA', hE', or_self,
      example2.checkError_nonneg2 lib _ _ (le_refl (0 : Int)),
      example2.checkError_nonneg2 lib _ _ (hw _)]
    rw [State.andThen_running _ (by simpa using hs), State.andThen_running _ (by simpa using hs)]
    rw [ih fuel _ _ (by omega) (hw _)
      (by intro j hj
          have := hz (j + 1) (by omega)
          simpa [Nat.add_assoc, Nat.add_comm 1 j] using this)
      (by simpa [Nat.add_assoc, Nat.add_comm 1 k] using hstop)
      (by simpa using hs)]
    ext <;> simp [drained, drainEvents, Nat.add_assoc, Nat.add_comm 1 k]

@[simp] theorem sendLog_nil : sendLog [] = [] := rfl

@[simp] theorem muxCalls_nil : muxCalls [] = [] := rfl

@[simp] theorem sendLog_append (a b : List Event) :
    sendLog (a ++ b) = sendLog a ++ sendLog b := by
  simp [sendLog, List.filterMap_append]

@[simp] theorem muxCalls_append (a b : List Event) :
    muxCalls (a ++ b) = muxCalls a ++ muxCalls b := by
  simp [muxCalls]

theorem sendLog_cons (e : Event) (t : List Event) :
    sendLog (e :: t) =
      (match e.call with
        | .avcodec_send_frame f => [(f.map Frame.pts, e.ret)]
        | _ => []) ++ sendLog t := by
  unfold sendLog
  rw [List.filterMap_cons]
  cases h : e.call <;> simp [h]

theorem muxCalls_cons (e : Event) (t : List Event) :
    muxCalls (e :: t) = (if isMux e then [e.call] else []) ++ muxCalls t := by
  unfold muxCalls
  rw [List.filter_cons]
  split <;> simp

theorem drainEvents_sendLog (lib : Lib) :
    ∀ (k nr nw : Nat), sendLog (drainEvents lib nr nw k) = [] := by
  intro k
  induction k with
  | zero => intro nr nw; rfl
  | succ k ih => intro nr nw; simp [drainEvents, sendLog_cons, ih]

theorem drainEvents_sentFrames (lib : Lib) :
    ∀ (k nr nw : Nat), sentFrames (drainEvents lib nr nw k) = [] := by
  intro k
  induction k with
  | zero => intro nr nw; rfl
  | succ k ih => intro nr nw; simp [drainEvents, sentFrames_cons, ih]

theorem drainEvents_loop (lib : Lib) :
    ∀ (k nr nw : Nat) (e : Event), e ∈ drainEvents lib nr nw k → isLoopCall e.call = true := by
  intro k
  induction k with
  | zero => intro nr nw e h; simp [drainEvents] at h
  | succ k ih =>
    intro nr nw e h
    simp only [drainEvents, List.cons_append, List.nil_append, List.mem_cons] at h
    rcases h with h | h | h | h | h
    · subst h; rfl
    · subst h; rfl
    · subst h; rfl
    · subst h; rfl
    · exact ih _ _ e h

theorem drainEvents_muxCalls (lib : Lib) :
    ∀ (k nr nw : Nat),
      muxCalls (drainEvents lib nr nw k) = (packetsFrom lib nr k).flatMap (muxPair lib) := by
  intro k
  induction k with
  | zero => intro nr nw; rfl
  | succ k ih =>
    intro nr nw
    simp [drainEvents, muxCalls_cons, isMux, ih, packetsFrom, List.range'_succ, muxPair]

@[simp] theorem muxLog_nil : muxLog [] = [] := rfl

@[simp] theorem muxLog_append (a b : List Event) :
    muxLog (a ++ b) = muxLog a ++ muxLog b := by
  simp [muxLog, List.filterMap_append]

theorem muxLog_cons (e : Event) (t : List Event) :
    muxLog (e :: t) =
      (match e.call with
        | .avcodec_send_frame f => [MuxEv.submit (f.map Frame.pts) e.ret]
        | .avcodec_receive_packet p => [MuxEv.receive p e.ret]
        | .av_interleaved_write_frame p => [MuxEv.write p]
        | _ => []) ++ muxLog t := by
  unfold muxLog
  rw [List.filterMap_cons]
  cases h : e.call <;> simp [h]

/-- The submissions, receptions and writes of a packet loop that wrote `k`
packets and then stopped. -/
theorem drainEvents_muxLog (lib : Lib) :
    ∀ (k nr nw : Nat),
      muxLog (drainEvents lib nr nw k ++
        [⟨.avcodec_receive_packet (lib.packet (nr + k)),
          lib.avcodec_receive_packet (nr + k)⟩]) = drainLog lib nr k := by
  intro k
  induction k with
  | zero => intro nr nw; simp [drainEvents, drainLog, muxLog_cons]
  | succ k ih =>
    intro nr nw
    have h := ih (nr + 1) (nw + 1)
    rw [show nr + 1 + k = nr + (k + 1) by omega] at h
    simp only [drainEvents, drainLog, List.cons_append, List.nil_append, muxLog_cons, h]

theorem LoopRun.zero (lib : Lib) (i : Nat) (s : State) (hs : s.status = .running)
    (hf : ∃ f, s.frame = some f ∧ FrameFits f) (hn : s.n_send = i) : LoopRun lib i 0 s s :=
  ⟨hs, hf, rfl, by simpa using hn, fun _ => ⟨[], rfl, trivial, rfl, by simp [loopLog]⟩,
    [], [], by simp, by simp, rfl, rfl, rfl, rfl⟩

/-- An iteration whose submission fails leaves the loop of `example1`. -/
theorem LoopRun.failed (lib : Lib) (i : Nat) (s : State) (f : Frame) (msg : String)
    (hs : s.status = .running) (hf : FrameFits f) (hpts : f.pts = (i : Int))
    (hn : s.n_send = i) (hfail : lib.avcodec_send_frame s.n_send < 0) :
    LoopRun lib i 1 s ((submitted lib f s).printErr msg) := by
  refine ⟨by simpa [submitted] using hs, ⟨f, rfl, hf⟩, rfl, by simp [submitted, hn],
    fun hok => absurd (hok i (le_refl i) (by omega)) (not_le.mpr (hn ▸ hfail)),
    [⟨.av_frame_make_writable, lib.av_frame_make_writable s.n_writable⟩,
      ⟨.avcodec_send_frame (some f), lib.avcodec_send_frame s.n_send⟩],
    [(some f, [])], by simp [submitted], ?_, ?_, ?_, ?_, ?_⟩
  · intro e he
    simp only [List.mem_cons, List.mem_singleton, List.not_mem_nil, or_false] at he
    rcases he with h | h <;> subst h <;> rfl
  · simp [sentFrames_cons]
  · simp [sendLog_cons, hn, hpts, List.range'_succ]
  · simp [muxCalls_cons, isMux, render]
  · simp [List.range'_succ, hpts]

/-- An iteration with its packet loop, followed by more iterations. -/
theorem LoopRun.step (lib : Lib) (i m k : Nat) (s s' : State) (f : Frame)
    (hf : f.pts = (i : Int)) (hn : s.n_send = i)
    (hz : ∀ j, j < k → lib.avcodec_receive_packet (s.n_recv + j) = 0)
    (hr : lib.avcodec_receive_packet (s.n_recv + k) ≠ 0)
    (h : LoopRun lib (i + 1) m (drained lib k (submitted lib f s)) s') :
    LoopRun lib i (1 + m) s s' := by
  obtain ⟨h1, h2, h3, h4, hlog, evs, blocks, e1, e2, e3, e4, e5, e6⟩ := h
  refine ⟨h1, h2, by rw [h3]; rfl, by rw [h4]; omega, ?_,
    [⟨.av_frame_make_writable, lib.av_frame_make_writable s.n_writable⟩,
      ⟨.avcodec_send_frame (some f), lib.avcodec_send_frame s.n_send⟩] ++
      drainEvents lib s.n_recv s.n_write k ++
      [⟨.avcodec_receive_packet (lib.packet (s.n_recv + k)),
        lib.avcodec_receive_packet (s.n_recv + k)⟩] ++ evs,
    (some f, packetsFrom lib s.n_recv k) :: blocks, ?_, ?_, ?_, ?_, ?_, ?_⟩
  · intro hok
    obtain ⟨ks, l1, l2, l3, l4⟩ := hlog (fun j hj1 hj2 => hok j (by omega) (by omega))
    refine ⟨k :: ks, by simp [l1]; omega, ⟨⟨hz, hr⟩, l2⟩, l3, ?_⟩
    rw [l4]
    have hd := drainEvents_muxLog lib k s.n_recv s.n_write
    simp only [drained, submitted, List.append_assoc, muxLog_append, loopLog, hd]
    simp [muxLog_cons, hn, hf]
  · rw [e1]; simp [drained, submitted]
  · intro e he
    simp only [List.mem_append, List.mem_cons, List.mem_singleton, List.not_mem_nil,
      or_false] at he
    rcases he with ((((h | h) | h) | h) | h)
    · subst h; rfl
    · subst h; rfl
    · exact drainEvents_loop lib _ _ _ e h
    · subst h; rfl
    · exact e2 e h
  · simp [sentFrames_cons, drainEvents_sentFrames, e3]; omega
  · have e : 1 + m = m + 1 := by omega
    simp [sendLog_cons, drainEvents_sendLog, e4, hn, hf, e, List.range'_succ]
  · simp [muxCalls_cons, isMux, drainEvents_muxCalls, e5, render, hr]
  · have e : 1 + m = m + 1 := by omega
    simp [e6, hf, e, List.range'_succ]

theorem example1.encode_step1 (lib : Lib) (fuel n i : Nat) (s : State) (f f' : Frame)
    (hf : s.frame = some f) (hfill : example1.fillFrame i f = some f') :
    example1.encode lib fuel (n + 1) i s =
      if lib.avcodec_send_frame s.n_send < 0 then
        (submitted lib { f' with pts := (i : Int) } s).printErr
          "Error sending a frame for encoding\n"
      else
        (example1.drain lib fuel (submitted lib { f' with pts := (i : Int) } s)).andThen
          (example1.encode lib fuel n (i + 1)) := by
  rw [example1.encode]
  simp only [State.call_frame, State.call_n_send, hf, Option.some_bind, hfill]
  split_ifs <;> rfl

theorem example1.encode_run1 (lib : Lib) (hd : lib.Drains) (hp : lib.av_packet_alloc = true) :
    ∀ (n i : Nat) (s : State), s.status = .running →
      (∃ f, s.frame = some f ∧ FrameFits f) → s.n_send = i →
      ∃ s', LoopRun lib i (example1.iterations lib n i) s s' ∧
        ∃ F, ∀ fuel, F ≤ fuel → example1.encode lib fuel n i s = s' := by
  intro n
  induction n with
  | zero =>
    intro i s hs hf hn
    exact ⟨s, LoopRun.zero lib i s hs hf hn, 0, fun fuel _ => rfl⟩
  | succ n ih =>
    intro i s hs hf hn
    obtain ⟨f, hf, hfit⟩ := hf
    obtain ⟨f', hfill, hfit', _⟩ := example1.fillFrame_ok1 i f hfit
    by_cases hr : lib.avcodec_send_frame s.n_send < 0
    · refine ⟨(submitted lib { f' with pts := (i : Int) } s).printErr
          "Error sending a frame for encoding\n", ?_, 0, fun fuel _ => ?_⟩
      rotate_left
      · rw [example1.encode_step1 lib fuel n i s f f' hf hfill, if_pos hr]
      · have : example1.iterations lib (n + 1) i = 1 := by
          simp [example1.iterations, ← hn, hr]
        rw [this]
        exact LoopRun.failed lib i s _ _ hs (hfit'.with_pts _) rfl hn hr
    · obtain ⟨k, hz, hne⟩ := hd.stop s.n_recv
      obtain ⟨s', hrun, F, hF⟩ := ih (i + 1)
        (drained lib k (submitted lib { f' with pts := (i : Int) } s))
        (by simpa [drained, submitted] using hs)
        ⟨_, rfl, hfit'.with_pts _⟩ (by simp [drained, submitted, hn])
      refine ⟨s', ?_, max (k + 1) F, fun fuel hfuel => ?_⟩
      · have : example1.iterations lib (n + 1) i = 1 + example1.iterations lib n (i + 1) := by
          simp [example1.iterations, ← hn, hr]
        rw [this]
        exact LoopRun.step lib i _ k s s' _ rfl hn hz hne hrun
      · rw [example1.encode_step1 lib fuel n i s f f' hf hfill, if_neg hr,
          example1.drain_eq1 lib hp k fuel (submitted lib { f' with pts := (i : Int) } s)
            (by omega) hz hne,
          State.andThen_running _ (by simpa [drained, submitted] using hs)]
        exact hF fuel (by omega)

theorem example2.encode_step2 (lib : Lib) (fuel n i : Nat) (s : State) (f f' : Frame)
    (hs : s.status = .running) (hmw : 0 ≤ lib.av_frame_make_writable s.n_writable)
    (hsend : 0 ≤ lib.avcodec_send_frame s.n_send)
    (hf : s.frame = some f) (hfill : example2.fillFrame i f = some f') :
    example2.encode lib fuel (n + 1) i s =
      (example2.drain lib "avcodec_receive_packet" "av_interleaved_write_frame" fuel
          (lib.avcodec_send_frame s.n_send)
          (submitted lib { f' with pts := (i : Int) } s)).andThen
        (example2.encode lib fuel n (i + 1)) := by
  rw [example2.encode]
  simp only [example2.checkError_nonneg2 lib _ _ hmw]
  rw [State.andThen_running _ (by simpa using hs)]
  simp only [State.call_frame, State.call_n_send, hf, Option.some_bind, hfill,
    example2.checkError_nonneg2 lib _ _ hsend]
  rw [State.andThen_running _ (by simpa using hs)]
  rfl

theorem example2.encode_run2 (lib : Lib) (hd : lib.Drains)
    (hA : lib.AVERROR_EAGAIN ≠ 0) (hE : lib.AVERROR_EOF ≠ 0)
    (hmw : ∀ j, 0 ≤ lib.av_frame_make_writable j)
    (hsend : ∀ j, 0 ≤ lib.avcodec_send_frame j)
    (hrecv : ∀ j, lib.avcodec_receive_packet j = 0 ∨
      lib.avcodec_receive_packet j = lib.AVERROR_EAGAIN ∨
      lib.avcodec_receive_packet j = lib.AVERROR_EOF)
    (hw : ∀ j, 0 ≤ lib.av_interleaved_write_frame j) :
    ∀ (n i : Nat) (s : State), s.status = .running →
      (∃ f, s.frame = some f ∧ FrameFits f) → s.n_send = i →
      ∃ s', LoopRun lib i n s s' ∧
        ∃ F, ∀ fuel, F ≤ fuel → example2.encode lib fuel n i s = s' := by
  intro n
  induction n with
  | zero =>
    intro i s hs hf hn
    exact ⟨s, LoopRun.zero lib i s hs hf hn, 0, fun fuel _ => rfl⟩
  | succ n ih =>
    intro i s hs hf hn
    obtain ⟨f, hf, hfit⟩ := hf
    obtain ⟨f', hfill, hfit', _⟩ := example2.fillFrame_ok2 i f hfit
    obtain ⟨k, hz, hne⟩ := hd.stop s.n_recv
    have hstop : lib.avcodec_receive_packet (s.n_recv + k) = lib.AVERROR_EAGAIN ∨
        lib.avcodec_receive_packet (s.n_recv + k) = lib.AVERROR_EOF := by
      rcases hrecv (s.n_recv + k) with h | h
      · exact absurd h hne
      · exact h
    obtain ⟨s', hrun, F, hF⟩ := ih (i + 1)
      (drained lib k (submitted lib { f' with pts := (i : Int) } s))
      (by simpa [drained, submitted] using hs)
      ⟨_, rfl, hfit'.with_pts _⟩ (by simp [drained, submitted, hn])
    refine ⟨s', ?_, max (k + 1) F, fun fuel hfuel => ?_⟩
    · have e : n + 1 = 1 + n := by omega
      rw [e]
      exact LoopRun.step lib i _ k s s' _ rfl hn hz hne hrun
    · rw [example2.encode_step2 lib fuel n i s f f' hs (hmw _) (hsend _) hf hfill,
        example2.drain_eq2 lib _ _ hA hE hw k fuel _
          (submitted lib { f' with pts := (i : Int) } s) (by omega) (hsend _) hz hstop
          (by simpa [submitted] using hs),
        State.andThen_running _ (by simpa [drained, submitted] using hs)]
      exact hF fuel (by omega)

theorem newFrame_fits (lib : Lib) (w h : Nat) (hb : 0 ≤ lib.av_frame_get_buffer)
    (hfit : lib.BuffersFit) : FrameFits (newFrame lib w h) := by
  unfold newFrame
  rw [if_neg (not_lt.mpr hb)]
  exact ⟨lib.buf0, lib.buf1, lib.buf2, rfl, rfl, rfl, hfit.1, hfit.2.1, hfit.2.2⟩

theorem Lib.NoFail.ready {lib : Lib} (h : lib.NoFail) : example1.Ready lib :=
  ⟨h.oc, h.find_encoder _, h.new_stream, h.alloc_context3, h.open2, Or.inr h.avio_open,
    h.write_header, h.frame_alloc, h.get_buffer, h.fits, h.packet_alloc⟩

theorem example1.setup_prepare_eq1 (lib : Lib) (h : example1.Ready lib) :
    example1.setup lib State.init =
      { State.init with trace := example1.setupEvents lib ++
          [⟨.avformat_write_header false, lib.avformat_write_header⟩] } ∧
    example1.prepare lib (example1.setup lib State.init) = example1.prepared lib := by
  have h1 : example1.setup lib State.init =
      { State.init with trace := example1.setupEvents lib ++
          [⟨.avformat_write_header false, lib.avformat_write_header⟩] } := by
    unfold example1.setup
    simp only [h.oc, h.find_encoder, h.new_stream, h.alloc_context3, not_lt.mpr h.open2,
      not_lt.mpr h.write_header, if_false, Bool.true_eq_false]
    rcases h.avio_open with hn | hn
    · simp only [hn, Bool.true_eq_false, false_and, if_false]
      apply State.ext <;>
        simp [example1.setupEvents, hn, State.init, State.call, h.oc, h.find_encoder,
          h.new_stream, h.alloc_context3]
    · simp only [not_lt.mpr hn, and_false, if_false]
      cases hnf : lib.nofile <;>
        (apply State.ext <;>
          simp [example1.setupEvents, hnf, State.init, State.call, h.oc, h.find_encoder,
            h.new_stream, h.alloc_context3])
  refine ⟨h1, ?_⟩
  rw [h1]
  unfold example1.prepare
  simp only [h.frame_alloc, Bool.true_eq_false, if_false]
  apply State.ext <;>
    simp [example1.prepared, example1.prepareEvents, State.init, State.call, h.frame_alloc]

theorem example1.finish_eq1 (lib : Lib) (hp : lib.av_packet_alloc = true) (k fuel : Nat)
    (s : State) (hs : s.status = .running) (hf : k < fuel)
    (hz : ∀ j, j < k → lib.avcodec_receive_packet (s.n_recv + j) = 0)
    (hne : lib.avcodec_receive_packet (s.n_recv + k) ≠ 0) :
    example1.finish lib fuel s = example1.finished lib k s := by
  unfold example1.finish
  simp only []
  rw [example1.drain_eq1 lib hp k fuel _ hf (by simpa using hz) (by simpa using hne),
    State.andThen_running _ (by simpa [drained] using hs)]
  cases hnf : lib.nofile <;>
    (apply State.ext <;>
      simp [example1.finished, example1.closeEvents, drained, hnf, State.call,
        State.printOut, State.exit])

/-- A complete run of `example1`: it ends with `return 0` in a state made of
the frame loop (`LoopRun`) followed by the flush and the cleanup. -/
theorem example1.main_run1 (lib : Lib) (h : example1.Ready lib) (hd : lib.Drains) :
    ∃ s k, LoopRun lib 0 (example1.iterations lib 10 0) (example1.prepared lib) s ∧
      (∀ j, j < k → lib.avcodec_receive_packet (s.n_recv + j) = 0) ∧
      lib.avcodec_receive_packet (s.n_recv + k) ≠ 0 ∧
      ∃ F, ∀ fuel, F ≤ fuel → example1.main lib fuel = example1.finished lib k s := by
  obtain ⟨h1, h2⟩ := example1.setup_prepare_eq1 lib h
  obtain ⟨s, hrun, F, hF⟩ := example1.encode_run1 lib hd h.packet_alloc 10 0
    (example1.prepared lib) rfl
    ⟨_, rfl, newFrame_fits lib _ _ h.get_buffer h.fits⟩ rfl
  obtain ⟨k, hz, hne⟩ := hd.stop s.n_recv
  refine ⟨s, k, hrun, hz, hne, max (k + 1) F, fun fuel hfuel => ?_⟩
  unfold example1.main
  rw [State.andThen_running _ (by rw [h1]; rfl)]
  rw [State.andThen_running _ (by rw [h2]; rfl)]
  rw [h2, hF fuel (by omega), State.andThen_running _ hrun.status]
  exact example1.finish_eq1 lib h.packet_alloc k fuel s hrun.status (by omega) hz hne

theorem example2.setup_prepare_eq2 (lib : Lib) (h : lib.NoFail) :
    example2.setup lib State.init =
      { State.init with trace := example2.setupEvents lib ++
          [⟨.avformat_write_header true, lib.avformat_write_header⟩] } ∧
    example2.prepare lib (example2.setup lib State.init) = example2.prepared lib := by
  have h1 : example2.setup lib State.init =
      { State.init with trace := example2.setupEvents lib ++
          [⟨.avformat_write_header true, lib.avformat_write_header⟩] } := by
    unfold example2.setup
    simp only [h.oc, h.find_encoder, h.new_stream, h.alloc_context3, if_false,
      Bool.true_eq_false, example2.checkError_nonneg2 lib _ _ h.alloc_output_context2,
      example2.checkError_nonneg2 lib _ _ h.open2,
      example2.checkError_nonneg2 lib _ _ h.parameters_from_context,
      example2.checkError_nonneg2 lib _ _ h.avio_open,
      example2.checkError_nonneg2 lib _ _ h.write_header]
    rw [State.andThen_running _ rfl, State.andThen_running _ rfl,
      State.andThen_running _ rfl]
    cases hnf : lib.nofile
    · rw [State.andThen_running _ (by simp [State.init])]
      apply State.ext <;>
        simp [example2.setupEvents, hnf, State.init, State.call, h.oc, h.find_encoder,
          h.new_stream, h.alloc_context3]
    · rw [State.andThen_running _ (by simp [State.init])]
      apply State.ext <;>
        simp [example2.setupEvents, hnf, State.init, State.call, h.oc, h.find_encoder,
          h.new_stream, h.alloc_context3]
  refine ⟨h1, ?_⟩
  rw [h1]
  unfold example2.prepare
  simp only [h.frame_alloc, Bool.true_eq_false, if_false,
    example2.checkError_nonneg2 lib _ _ h.get_buffer]
  apply State.ext <;>
    simp [example2.prepared, example2.prepareEvents, State.init, State.call, h.frame_alloc]

theorem example2.finish_eq2 (lib : Lib) (h : lib.NoFail) (k fuel : Nat)
    (s : State) (hs : s.status = .running) (hf : k < fuel)
    (hz : ∀ j, j < k → lib.avcodec_receive_packet (s.n_recv + j) = 0)
    (hne : lib.avcodec_receive_packet (s.n_recv + k) ≠ 0) :
    example2.finish lib fuel s = example2.finished lib k s := by
  have hstop : lib.avcodec_receive_packet (s.n_recv + k) = lib.AVERROR_EAGAIN ∨
      lib.avcodec_receive_packet (s.n_recv + k) = lib.AVERROR_EOF := by
    rcases h.receive_packet (s.n_recv + k) with h' | h'
    · exact absurd h' hne
    · exact h'
  unfold example2.finish
  simp only [example2.checkError_nonneg2 lib _ _ (h.send_frame _)]
  rw [State.andThen_running _ (by simpa using hs),
    example2.drain_eq2 lib _ _ (ne_of_lt h.eagain) (ne_of_lt h.eof) h.write_frame k fuel _ _ hf
      (h.send_frame _) (by simpa using hz) (by simpa using hstop) (by simpa using hs),
    State.andThen_running _ (by simpa [drained] using hs)]
  cases hnf : lib.nofile <;>
    (apply State.ext <;>
      simp [example2.finished, example2.closeEvents, drained, hnf, State.call,
        State.printOut, State.exit])

/-- A complete run of `example2` when no call fails: it ends with `return 0`
in a state made of 20 iterations of the frame loop followed by the flush and
the cleanup. -/
theorem example2.main_run2 (lib : Lib) (h : lib.NoFail) :
    ∃ s k, LoopRun lib 0 example2.numFrames (example2.prepared lib) s ∧
      (∀ j, j < k → lib.avcodec_receive_packet (s.n_recv + j) = 0) ∧
      lib.avcodec_receive_packet (s.n_recv + k) ≠ 0 ∧
      ∃ F, ∀ fuel, F ≤ fuel → example2.main lib fuel = example2.finished lib k s := by
  obtain ⟨h1, h2⟩ := example2.setup_prepare_eq2 lib h
  obtain ⟨s, hrun, F, hF⟩ := example2.encode_run2 lib h.drains (ne_of_lt h.eagain)
    (ne_of_lt h.eof) h.make_writable h.send_frame h.receive_packet h.write_frame
    example2.numFrames 0 (example2.prepared lib) rfl
    ⟨_, rfl, newFrame_fits lib _ _ h.get_buffer h.fits⟩ rfl
  obtain ⟨k, hz, hne⟩ := h.drains.stop s.n_recv
  refine ⟨s, k, hrun, hz, hne, max (k + 1) F, fun fuel hfuel => ?_⟩
  unfold example2.main
  rw [State.andThen_running _ (by rw [h1]; rfl)]
  rw [State.andThen_running _ (by rw [h2]; rfl)]
  rw [h2, hF fuel (by omega), State.andThen_running _ hrun.status]
  exact example2.finish_eq2 lib h k fuel s hrun.status (by omega) hz hne

theorem example1.iterations_fail1 (lib : Lib) :
    ∀ (n j i : Nat), j ≤ i → i < j + n →
      (∀ k, j ≤ k → k < i → 0 ≤ lib.avcodec_send_frame k) →
      lib.avcodec_send_frame i < 0 → example1.iterations lib n j = i - j + 1 := by
  intro n
  induction n with
  | zero => intro j i h1 h2; omega
  | succ n ih =>
    intro j i h1 h2 hok hfail
    by_cases e : i = j
    · subst e
      simp [example1.iterations, hfail]
    · have hj : 0 ≤ lib.avcodec_send_frame j := hok j (le_refl j) (by omega)
      simp only [example1.iterations, not_lt.mpr hj, if_false]
      rw [ih (j + 1) i (by omega) (by omega) (fun k hk1 hk2 => hok k (by omega) hk2) hfail]
      omega

theorem example1.main_shape1 (lib : Lib) (h : example1.Ready lib) (hd : lib.Drains) :
    ∃ F, ∀ fuel, F ≤ fuel →
      RunShape lib (example1.preEvents lib) (example1.postEvents lib)
        (example1.iterations lib 10 0) (example1.main lib fuel) ∧
      (example1.main lib fuel).cout = ["output written to " ++ example1.filename ++ "\n"] := by
  obtain ⟨s, k, hrun, _, hne, F, hF⟩ := example1.main_run1 lib h hd
  refine ⟨F, fun fuel hfuel => ?_⟩
  rw [hF fuel hfuel]
  obtain ⟨_, _, hcout, hn, _, evs, blocks, e1, e2, e3, e4, e5, e6⟩ := hrun
  refine ⟨⟨rfl, evs, blocks, s.n_recv, s.n_write, k, ?_, hne, e2, e3, e4, e5, e6⟩, ?_⟩
  · simp only [example1.finished, e1, hn, example1.prepared, example1.preEvents,
      example1.postEvents, Nat.zero_add, List.append_assoc]
  · simp [example1.finished, hcout, example1.prepared, State.init]

theorem example2.main_shape2 (lib : Lib) (h : lib.NoFail) :
    ∃ F, ∀ fuel, F ≤ fuel →
      RunShape lib (example2.preEvents lib) (example2.postEvents lib)
        example2.numFrames (example2.main lib fuel) ∧
      (example2.main lib fuel).cout = ["Wrote " ++ example2.outFilename ++ "\n"] := by
  obtain ⟨s, k, hrun, _, hne, F, hF⟩ := example2.main_run2 lib h
  refine ⟨F, fun fuel hfuel => ?_⟩
  rw [hF fuel hfuel]
  obtain ⟨_, _, hcout, hn, _, evs, blocks, e1, e2, e3, e4, e5, e6⟩ := hrun
  refine ⟨⟨rfl, evs, blocks, s.n_recv, s.n_write, k, ?_, hne, e2, e3, e4, e5, e6⟩, ?_⟩
  · simp only [example2.finished, e1, hn, example2.prepared, example2.preEvents,
      example2.postEvents, Nat.zero_add, List.append_assoc]
  · simp [example2.finished, hcout, example2.prepared, State.init]

theorem example1.pre_post_views1 (lib : Lib) :
    sendLog (example1.preEvents lib) = [] ∧ sendLog (example1.postEvents lib) = [] ∧
    muxCalls (example1.preEvents lib) = [] ∧ muxCalls (example1.postEvents lib) = [] ∧
    sentFrames (example1.preEvents lib) = [] ∧ sentFrames (example1.postEvents lib) = [] := by
  cases hnf : lib.nofile <;>
    simp [example1.preEvents, example1.postEvents, example1.setupEvents,
      example1.prepareEvents, example1.closeEvents, hnf, sendLog_cons, muxCalls_cons,
      sentFrames_cons, isMux]

theorem example2.pre_post_views2 (lib : Lib) :
    sendLog (example2.preEvents lib) = [] ∧ sendLog (example2.postEvents lib) = [] ∧
    muxCalls (example2.preEvents lib) = [] ∧ muxCalls (example2.postEvents lib) = [] ∧
    sentFrames (example2.preEvents lib) = [] ∧ sentFrames (example2.postEvents lib) = [] := by
  cases hnf : lib.nofile <;>
    simp [example2.preEvents, example2.postEvents, example2.setupEvents,
      example2.prepareEvents, example2.closeEvents, hnf, sendLog_cons, muxCalls_cons,
      sentFrames_cons, isMux]

/-- The submissions of a complete run: frames `0 .. m - 1`, then the flush. -/
theorem RunShape.sendLog_eq {lib : Lib} {pre post : List Event} {m : Nat} {s : State}
    (h : RunShape lib pre post m s) (hpre : sendLog pre = []) (hpost : sendLog post = []) :
    sendLog s.trace =
      (List.range m).map (fun k : Nat => (some (k : Int), lib.avcodec_send_frame k)) ++
        [(none, lib.avcodec_send_frame m)] := by
  obtain ⟨_, evs, blocks, nr, nw, k, e1, _, _, _, e4, _, _⟩ := h
  rw [e1]
  simp [hpre, hpost, e4, sendLog_cons, drainEvents_sendLog, List.range_eq_range']

theorem RunShape.sentFrames_length {lib : Lib} {pre post : List Event} {m : Nat} {s : State}
    (h : RunShape lib pre post m s) (hpre : sentFrames pre = [])
    (hpost : sentFrames post = []) : (sentFrames s.trace).length = m := by
  obtain ⟨_, evs, blocks, nr, nw, k, e1, _, _, e3, _, _, _⟩ := h
  rw [e1]
  simp [hpre, hpost, e3, sentFrames_cons, drainEvents_sentFrames]

/-- The muxing order of a complete run: `m` frame submissions and the flush
submission, each followed by its packets, each received and then written. -/
theorem RunShape.muxCalls_eq {lib : Lib} {pre post : List Event} {m : Nat} {s : State}
    (h : RunShape lib pre post m s) (hpre : muxCalls pre = []) (hpost : muxCalls post = []) :
    ∃ blocks : List (Option Frame × List Packet),
      muxCalls s.trace = blocks.flatMap (render lib) ∧
      blocks.map (fun b => b.1.map Frame.pts) =
        (List.range m).map (fun k : Nat => some (k : Int)) ++ [none] := by
  obtain ⟨_, evs, blocks, nr, nw, k, e1, hne, _, _, _, e5, e6⟩ := h
  refine ⟨blocks ++ [(none, packetsFrom lib nr k)], ?_, ?_⟩
  · rw [e1]
    simp [hpre, hpost, e5, muxCalls_cons, isMux, drainEvents_muxCalls, render, hne]
  · simp [e6, List.range_eq_range']

theorem receivedPackets_eq (t : List Event) :
    receivedPackets t = (muxCalls t).filterMap Call.received := by
  induction t with
  | nil => rfl
  | cons e t ih =>
    rw [muxCalls_cons, List.filterMap_append, ← ih]
    unfold receivedPackets
    rw [List.filterMap_cons]
    cases hc : e.call <;> simp [isMux, hc, Call.received]
    split_ifs <;> simp [Call.received]

theorem writtenPackets_eq (t : List Event) :
    writtenPackets t = (muxCalls t).filterMap Call.written := by
  induction t with
  | nil => rfl
  | cons e t ih =>
    rw [muxCalls_cons, List.filterMap_append, ← ih]
    unfold writtenPackets
    rw [List.filterMap_cons]
    cases hc : e.call <;> simp [isMux, hc, Call.written]

theorem muxPair_received (lib : Lib) (ps : List Packet) :
    (ps.flatMap (muxPair lib)).filterMap Call.received = ps := by
  induction ps with
  | nil => rfl
  | cons p ps ih =>
    simp only [List.flatMap_cons, muxPair, List.filterMap_append, List.filterMap_cons,
      Call.received, List.filterMap_nil, List.cons_append, List.nil_append]
    exact congrArg _ ih

theorem muxPair_written (lib : Lib) (ps : List Packet) :
    (ps.flatMap (muxPair lib)).filterMap Call.written = ps.map (muxPacket lib) := by
  induction ps with
  | nil => rfl
  | cons p ps ih =>
    simp only [List.flatMap_cons, muxPair, List.filterMap_append, List.filterMap_cons,
      Call.written, List.filterMap_nil, List.cons_append, List.nil_append, List.map_cons]
    exact congrArg _ ih

theorem render_received (lib : Lib) (blocks : List (Option Frame × List Packet)) :
    (blocks.flatMap (render lib)).filterMap Call.received = blocks.flatMap (fun b => b.2) := by
  induction blocks with
  | nil => rfl
  | cons b bs ih =>
    rw [List.flatMap_cons, List.filterMap_append, ih, List.flatMap_cons]
    congr 1
    simp only [render, List.filterMap_cons, Call.received]
    exact muxPair_received lib b.2

theorem render_written (lib : Lib) (blocks : List (Option Frame × List Packet)) :
    (blocks.flatMap (render lib)).filterMap Call.written =
      (blocks.flatMap (fun b => b.2)).map (muxPacket lib) := by
  induction blocks with
  | nil => rfl
  | cons b bs ih =>
    rw [List.flatMap_cons, List.filterMap_append, ih, List.flatMap_cons, List.map_append]
    congr 1
    simp only [render, List.filterMap_cons, Call.written]
    exact muxPair_written lib b.2

theorem RunShape.muxBlocks {lib : Lib} {pre post : List Event} {m : Nat} {s : State}
    (h : RunShape lib pre post m s) (hpre : muxCalls pre = []) (hpost : muxCalls post = []) :
    MuxBlocks lib m s.trace := by
  obtain ⟨blocks, hb, hp⟩ := h.muxCalls_eq hpre hpost
  have hw : writtenPackets s.trace = (receivedPackets s.trace).map (muxPacket lib) := by
    rw [writtenPackets_eq, receivedPackets_eq, hb, render_written, render_received]
  refine ⟨hw, ?_, blocks, hb, hp⟩
  rw [hw, List.map_map]
  rfl

theorem example1.iterations_ok1 (lib : Lib) :
    ∀ (n j : Nat), (∀ k, j ≤ k → k < j + n → 0 ≤ lib.avcodec_send_frame k) →
      example1.iterations lib n j = n := by
  intro n
  induction n with
  | zero => intro j _; rfl
  | succ n ih =>
    intro j h
    have hj : 0 ≤ lib.avcodec_send_frame j := h j (le_refl j) (by omega)
    simp only [example1.iterations, not_lt.mpr hj, if_false]
    rw [ih (j + 1) (fun k hk1 hk2 => h k (by omega) (by omega))]
    omega

theorem sampleLib_drains : sampleLib.Drains := by
  intro n
  refine ⟨2 * n + 1, by omega, ?_⟩
  show (if (2 * n + 1) % 2 = 0 then (0 : Int) else -11) ≠ 0
  rw [if_neg (by omega)]
  decide

theorem sampleLib_fits : sampleLib.BuffersFit := by
  refine ⟨fun y hy => ?_, fun y hy => ?_, fun y hy => ?_⟩ <;>
    simp only [sampleLib, List.length_replicate] <;> omega

theorem sampleLib_noFail : sampleLib.NoFail where
  network_init := by decide
  alloc_output_context2 := by decide
  oc := rfl
  find_encoder := fun _ => rfl
  new_stream := rfl
  alloc_context3 := rfl
  open2 := by decide
  parameters_from_context := by decide
  avio_open := by decide
  dict_set := by decide
  write_header := by decide
  frame_alloc := rfl
  get_buffer := by decide
  fits := sampleLib_fits
  packet_alloc := rfl
  make_writable := fun _ => le_refl (0 : Int)
  send_frame := fun _ => le_refl (0 : Int)
  eagain := by decide
  eof := by decide
  receive_packet := fun k => by
    show (if k % 2 = 0 then (0 : Int) else -11) = 0 ∨
      (if k % 2 = 0 then (0 : Int) else -11) = -11 ∨
      (if k % 2 = 0 then (0 : Int) else -11) = -541478725
    by_cases h : k % 2 = 0
    · left; rw [if_pos h]
    · right; left; rw [if_neg h]
  write_frame := fun _ => le_refl (0 : Int)
  write_trailer := by decide
  closep := by decide
  drains := sampleLib_drains

theorem sendFailsLib_ready : example1.Ready sendFailsLib where
  oc := rfl
  find_encoder := rfl
  new_stream := rfl
  alloc_context3 := rfl
  open2 := by decide
  avio_open := Or.inr (by decide)
  write_header := by decide
  frame_alloc := rfl
  get_buffer := by decide
  fits := sampleLib_fits
  packet_alloc := rfl

theorem roughLib_ready : example1.Ready roughLib where
  oc := rfl
  find_encoder := rfl
  new_stream := rfl
  alloc_context3 := rfl
  open2 := by decide
  avio_open := Or.inr (by decide)
  write_header := by decide
  frame_alloc := rfl
  get_buffer := by decide
  fits := sampleLib_fits
  packet_alloc := rfl

/-! ## Claims on complete runs -/

theorem example1.pre_post_log1 (lib : Lib) :
    muxLog (example1.preEvents lib) = [] ∧ muxLog (example1.postEvents lib) = [] := by
  cases hnf : lib.nofile <;>
    simp [example1.preEvents, example1.postEvents, example1.setupEvents,
      example1.prepareEvents, example1.closeEvents, hnf, muxLog_cons]

theorem example2.pre_post_log2 (lib : Lib) :
    muxLog (example2.preEvents lib) = [] ∧ muxLog (example2.postEvents lib) = [] := by
  cases hnf : lib.nofile <;>
    simp [example2.preEvents, example2.postEvents, example2.setupEvents,
      example2.prepareEvents, example2.closeEvents, hnf, muxLog_cons]

/-- In a complete run of `example1` in which no submission fails every packet
loop runs until the encoder has no packet left. -/
theorem example1.main_log1 (lib : Lib) (h : example1.Ready lib) (hd : lib.Drains)
    (hsend : ∀ k, 0 ≤ lib.avcodec_send_frame k) :
    ∃ F, ∀ fuel, F ≤ fuel → UntilDrained lib 10 (example1.main lib fuel).trace := by
  obtain ⟨s, k, hrun, hz, hne, F, hF⟩ := example1.main_run1 lib h hd
  rw [example1.iterations_ok1 lib 10 0 (fun k _ _ => hsend k)] at hrun
  obtain ⟨ks, l1, l2, l3, l4⟩ := hrun.log (fun k _ _ => hsend k)
  have hn := hrun.n_send
  have hpre : muxLog (example1.prepared lib).trace = [] := (example1.pre_post_log1 lib).1
  have hpost := (example1.pre_post_log1 lib).2
  have hd := drainEvents_muxLog lib k s.n_recv s.n_write
  refine ⟨F, fun fuel hfuel => ?_⟩
  rw [hF fuel hfuel]
  have l3' : s.n_recv = endIndex 0 ks := l3
  have l2' : AllDrained lib 0 ks := l2
  have l4' : muxLog s.trace = loopLog lib 0 0 ks := by
    rw [l4, hpre]; rfl
  refine ⟨ks, k, l1, l2', ⟨l3' ▸ hz, l3' ▸ hne⟩, ?_⟩
  have e : (example1.finished lib k s).trace =
      s.trace ++ [⟨.avcodec_send_frame none, lib.avcodec_send_frame s.n_send⟩] ++
        (drainEvents lib s.n_recv s.n_write k ++
          [⟨.avcodec_receive_packet (lib.packet (s.n_recv + k)),
            lib.avcodec_receive_packet (s.n_recv + k)⟩]) ++ example1.postEvents lib := by
    simp [example1.finished, example1.postEvents, List.append_assoc]
  rw [e, muxLog_append, muxLog_append, muxLog_append, hd, hpost, l4']
  simp [muxLog_cons, hn, l3']

/-- In a complete run of `example2` in which no call fails every packet loop
runs until the encoder has no packet left. -/
theorem example2.main_log2 (lib : Lib) (h : lib.NoFail) :
    ∃ F, ∀ fuel, F ≤ fuel → UntilDrained lib 20 (example2.main lib fuel).trace := by
  obtain ⟨s, k, hrun, hz, hne, F, hF⟩ := example2.main_run2 lib h
  obtain ⟨ks, l1, l2, l3, l4⟩ := hrun.log (fun k _ _ => h.send_frame k)
  have hn := hrun.n_send
  have hpre : muxLog (example2.prepared lib).trace = [] := (example2.pre_post_log2 lib).1
  have hpost := (example2.pre_post_log2 lib).2
  have hd := drainEvents_muxLog lib k s.n_recv s.n_write
  refine ⟨F, fun fuel hfuel => ?_⟩
  rw [hF fuel hfuel]
  have l3' : s.n_recv = endIndex 0 ks := l3
  have l2' : AllDrained lib 0 ks := l2
  have l4' : muxLog s.trace = loopLog lib 0 0 ks := by
    rw [l4, hpre]; rfl
  refine ⟨ks, k, l1, l2', ⟨l3' ▸ hz, l3' ▸ hne⟩, ?_⟩
  have e : (example2.finished lib k s).trace =
      s.trace ++ [⟨.avcodec_send_frame none, lib.avcodec_send_frame s.n_send⟩] ++
        (drainEvents lib s.n_recv s.n_write k ++
          [⟨.avcodec_receive_packet (lib.packet (s.n_recv + k)),
            lib.avcodec_receive_packet (s.n_recv + k)⟩]) ++ example2.postEvents lib := by
    simp [example2.finished, example2.postEvents, List.append_assoc]
  rw [e, muxLog_append, muxLog_append, muxLog_append, hd, hpost, l4']
  simp [muxLog_cons, hn, l3', example2.numFrames]

/-- C2: when no call fails, in both programs every packet loop runs until the
encoder is drained and every packet is written as soon as it is received.
With `N` = 10 frames in `example1` and 20 in `example2`, the calls of
`avcodec_send_frame`, `avcodec_receive_packet` and `av_interleaved_write_frame`
of the run are, in this order and with nothing of the three left out: for
each frame `k = 0 .. N - 1` its submission, then for every one of the packets
the encoder has available (`avcodec_receive_packet` returns 0) the reception
followed at once by the write of that packet, then the one call of
`avcodec_receive_packet` that returns non-zero; after the last frame the flush
submission with its packets in the same way (`UntilDrained`). So every packet
available after a submission is written before the next submission, the
packets written are exactly the packets received with result 0, in the same
order and each once, and the packets of the flush come last (`MuxBlocks`). -/
theorem C2_encode_and_mux_until_drained (lib : Lib) (h : lib.NoFail) :
    ∃ F, ∀ fuel, F ≤ fuel →
      MuxOrder lib 10 (example1.main lib fuel).trace ∧
      MuxOrder lib 20 (example2.main lib fuel).trace := by
  obtain ⟨F1, h1⟩ := example1.main_shape1 lib h.ready h.drains
  obtain ⟨F2, h2⟩ := example2.main_shape2 lib h
  obtain ⟨F3, h3⟩ := example1.main_log1 lib h.ready h.drains h.send_frame
  obtain ⟨F4, h4⟩ := example2.main_log2 lib h
  have hit : example1.iterations lib 10 0 = 10 :=
    example1.iterations_ok1 lib 10 0 (fun k _ _ => h.send_frame k)
  refine ⟨max (max F1 F2) (max F3 F4), fun fuel hfuel => ⟨⟨?_, ?_⟩, ⟨?_, ?_⟩⟩⟩
  · have := (h1 fuel (by omega)).1
    rw [hit] at this
    exact this.muxBlocks (example1.pre_post_views1 lib).2.2.1
      (example1.pre_post_views1 lib).2.2.2.1
  · exact h3 fuel (by omega)
  · exact (h2 fuel (by omega)).1.muxBlocks (example2.pre_post_views2 lib).2.2.1
      (example2.pre_post_views2 lib).2.2.2.1
  · exact h4 fuel (by omega)

/-- Witness of C2: the library `sampleLib`. -/
theorem C2_encode_and_mux_until_drained_witness :
    sampleLib.NoFail ∧ ∃ F, ∀ fuel, F ≤ fuel →
      MuxOrder sampleLib 10 (example1.main sampleLib fuel).trace ∧
      MuxOrder sampleLib 20 (example2.main sampleLib fuel).trace :=
  ⟨sampleLib_noFail, C2_encode_and_mux_until_drained sampleLib sampleLib_noFail⟩

theorem example1.cout_text1 : "output written to " ++ example1.filename ++ "\n" =
    "output written to output.mp4\n" := by decide

theorem RunShape.reaches_trailer {lib : Lib} {pre close : List Event} {m : Nat} {s : State}
    (h : RunShape lib pre ([⟨.av_write_trailer, lib.av_write_trailer⟩] ++ close) m s) :
    ∃ before mid, s.trace = before ++
      [⟨.avcodec_send_frame none, lib.avcodec_send_frame m⟩] ++ mid ++
      [⟨.av_write_trailer, lib.av_write_trailer⟩] ++ close := by
  obtain ⟨_, evs, blocks, nr, nw, k, e1, _⟩ := h
  refine ⟨pre ++ evs, drainEvents lib nr nw k ++
    [⟨.avcodec_receive_packet (lib.packet (nr + k)), lib.avcodec_receive_packet (nr + k)⟩], ?_⟩
  rw [e1]; simp only [List.append_assoc]

/-- Counterexample to C1: with `sendFailsLib` the first call of
`avcodec_send_frame` in `example1` fails, yet the program goes on to the
flush submission and to `av_write_trailer` and ends with exit status 0. -/
theorem C1_counterexample :
    sendFailsLib.avcodec_send_frame 0 < 0 ∧
    ∃ F, ∀ fuel, F ≤ fuel →
      (example1.main sendFailsLib fuel).status = .exited 0 ∧
      sendLog (example1.main sendFailsLib fuel).trace = [(some 0, -1), (none, -1)] ∧
      (⟨.av_write_trailer, 0⟩ : Event) ∈ (example1.main sendFailsLib fuel).trace := by
  refine ⟨by decide, ?_⟩
  obtain ⟨F, hF⟩ := example1.main_shape1 sendFailsLib sendFailsLib_ready sampleLib_drains
  refine ⟨F, fun fuel hfuel => ?_⟩
  obtain ⟨hs, _⟩ := hF fuel hfuel
  have hit : example1.iterations sendFailsLib 10 0 = 1 := by decide
  rw [hit] at hs
  refine ⟨hs.status, ?_, ?_⟩
  · rw [hs.sendLog_eq (example1.pre_post_views1 _).1 (example1.pre_post_views1 _).2.1]
    rfl
  · obtain ⟨before, mid, e⟩ := RunShape.reaches_trailer hs
    rw [e]
    simp only [List.mem_append, List.mem_singleton]
    exact Or.inl (Or.inr rfl)

/-! ## Claims on the submitted frames -/

/-- C4: in every run of either program, however it ends, the frames submitted
so far carry the timestamps `0, 1, ..., n - 1` in this order (`n` at most 10
in `example1`, at most 20 in `example2`); when no call fails, the complete
run submits exactly the timestamps `0 .. 9` and `0 .. 19`. -/
theorem C4_pts_counter (lib : Lib) (fuel : Nat) :
    (∃ n, n ≤ 10 ∧ (sentFrames (example1.main lib fuel).trace).map Frame.pts =
      (List.range n).map (fun k : Nat => (k : Int))) ∧
    (∃ n, n ≤ 20 ∧ (sentFrames (example2.main lib fuel).trace).map Frame.pts =
      (List.range n).map (fun k : Nat => (k : Int))) ∧
    (lib.NoFail → ∃ F, ∀ fuel', F ≤ fuel' →
      (sentFrames (example1.main lib fuel').trace).map Frame.pts =
        (List.range 10).map (fun k : Nat => (k : Int)) ∧
      (sentFrames (example2.main lib fuel').trace).map Frame.pts =
        (List.range 20).map (fun k : Nat => (k : Int))) := by
  have p1 : ∀ fuel, (sentFrames (example1.main lib fuel).trace).map Frame.pts =
      (List.range (sentFrames (example1.main lib fuel).trace).length).map
        (fun k : Nat => (k : Int)) := by
    intro fuel
    rw [List.range_eq_range']
    exact GoodFrom.pts_eq _ 0 (example1.main_sent1 lib fuel).2
  have p2 : ∀ fuel, (sentFrames (example2.main lib fuel).trace).map Frame.pts =
      (List.range (sentFrames (example2.main lib fuel).trace).length).map
        (fun k : Nat => (k : Int)) := by
    intro fuel
    rw [List.range_eq_range']
    exact GoodFrom.pts_eq _ 0 (example2.main_sent2 lib fuel).2
  refine ⟨⟨_, (example1.main_sent1 lib fuel).1, p1 fuel⟩,
    ⟨_, (example2.main_sent2 lib fuel).1, p2 fuel⟩, fun h => ?_⟩
  obtain ⟨F1, h1⟩ := example1.main_shape1 lib h.ready h.drains
  obtain ⟨F2, h2⟩ := example2.main_shape2 lib h
  have hit : example1.iterations lib 10 0 = 10 :=
    example1.iterations_ok1 lib 10 0 (fun k _ _ => h.send_frame k)
  refine ⟨max F1 F2, fun fuel' hfuel => ⟨?_, ?_⟩⟩
  · have := (h1 fuel' (by omega)).1.sentFrames_length (example1.pre_post_views1 lib).2.2.2.2.1
      (example1.pre_post_views1 lib).2.2.2.2.2
    rw [p1 fuel', this, hit]
  · have := (h2 fuel' (by omega)).1.sentFrames_length (example2.pre_post_views2 lib).2.2.2.2.1
      (example2.pre_post_views2 lib).2.2.2.2.2
    rw [p2 fuel', this]; rfl

/-- C5: the `k`-th frame `example1` submits (in any run) has `k < 10`,
`pts = k`, every luma sample of the 320 x 240 picture equal to 255 for even
`k` and 0 for odd `k`, and every sample of both 160 x 120 chroma planes equal
to 128; the first pattern is white and consecutive patterns differ. -/
theorem C5_alternating_frames (lib : Lib) (fuel k : Nat) (f : Frame)
    (h : (sentFrames (example1.main lib fuel).trace)[k]? = some f) :
    k < 10 ∧ f.pts = (k : Int) ∧
    (∀ x y, x < 320 → y < 240 → f.luma x y = some (if k % 2 = 0 then 255 else 0)) ∧
    (∀ x y, x < 160 → y < 120 → f.chromaU x y = some 128 ∧ f.chromaV x y = some 128) ∧
    example1.y_val 0 = 255 ∧ (∀ i, example1.y_val (i + 1) ≠ example1.y_val i) := by
  obtain ⟨hlen, hgood⟩ := example1.main_sent1 lib fuel
  have hk : k < (sentFrames (example1.main lib fuel).trace).length := by
    by_contra hn
    rw [List.getElem?_eq_none (by omega)] at h
    simp at h
  have := GoodFrom.get _ 0 k f hgood h
  rw [Nat.zero_add] at this
  refine ⟨by omega, this.1, this.2.1, this.2.2, rfl, fun i => ?_⟩
  unfold example1.y_val
  by_cases e : i % 2 = 0
  · have : (i + 1) % 2 ≠ 0 := by omega
    simp [e, this]
  · have : (i + 1) % 2 = 0 := by omega
    simp [e, this]

/-- Witness of C5: the first frame of a complete run with `sampleLib`. -/
theorem C5_alternating_frames_witness :
    ∃ fuel f, (sentFrames (example1.main sampleLib fuel).trace)[0]? = some f ∧
      (0 < 10 ∧ f.pts = ((0 : Nat) : Int) ∧
      (∀ x y, x < 320 → y < 240 → f.luma x y = some (if 0 % 2 = 0 then 255 else 0)) ∧
      (∀ x y, x < 160 → y < 120 → f.chromaU x y = some 128 ∧ f.chromaV x y = some 128) ∧
      example1.y_val 0 = 255 ∧ (∀ i, example1.y_val (i + 1) ≠ example1.y_val i)) := by
  obtain ⟨F, hF⟩ := example1.main_shape1 sampleLib sampleLib_noFail.ready sampleLib_drains
  have hlen := (hF F (le_refl F)).1.sentFrames_length
    (example1.pre_post_views1 sampleLib).2.2.2.2.1 (example1.pre_post_views1 sampleLib).2.2.2.2.2
  have hit : example1.iterations sampleLib 10 0 = 10 := by decide
  rw [hit] at hlen
  have h0 : 0 < (sentFrames (example1.main sampleLib F).trace).length := by omega
  exact ⟨F, (sentFrames (example1.main sampleLib F).trace)[0], List.getElem?_eq_getElem h0,
    C5_alternating_frames sampleLib F 0 _ (List.getElem?_eq_getElem h0)⟩

@[simp] theorem Clean_nil (ab : Event → Bool) : Clean ab [] := by
  intro e h; simp at h

@[simp] theorem Clean_append (ab : Event → Bool) (a b : List Event) :
    Clean ab (a ++ b) ↔ Clean ab a ∧ Clean ab b := by
  unfold Clean
  constructor
  · intro h
    exact ⟨fun e he => h e (List.mem_append_left _ he),
      fun e he => h e (List.mem_append_right _ he)⟩
  · rintro ⟨h1, h2⟩ e he
    rcases List.mem_append.mp he with h | h
    · exact h1 e h
    · exact h2 e h

@[simp] theorem Clean_singleton (ab : Event → Bool) (e : Event) :
    Clean ab [e] ↔ ab e = false := by
  unfold Clean
  simp

theorem Clean_cons (ab : Event → Bool) (e : Event) (t : List Event) :
    Clean ab (e :: t) ↔ ab e = false ∧ Clean ab t := by
  unfold Clean
  simp

theorem AbortsAtOnce.good {ab : Event → Bool} {s : State} (h : AbortsAtOnce ab s)
    (hs : s.status = .running) : Good ab s := by
  rcases h with h | ⟨_, _, _, _, _, _, _, ⟨c, hc, _⟩, _⟩
  · exact ⟨hs, h.1⟩
  · rw [hs] at hc; cases hc

theorem AbortsAtOnce.of_clean {ab : Event → Bool} {s : State} (hc : Clean ab s.trace)
    (hs : ∀ c, s.status = .exited c → c = 0) : AbortsAtOnce ab s := Or.inl ⟨hc, hs⟩

theorem AbortsAtOnce.andThen {ab : Event → Bool} {s : State} {k : State → State}
    (h : AbortsAtOnce ab s) (hk : Good ab s → AbortsAtOnce ab (k s)) :
    AbortsAtOnce ab (s.andThen k) :=
  State.andThen_cases (AbortsAtOnce ab) s k (fun _ => h) (fun hs => hk (h.good hs))

/-- The program prints and exits right after a failing checked result. -/
theorem AbortsAtOnce.abort {ab : Event → Bool} (s : State) (pre : List Event) (e : Event)
    (m : String) (code : Int) (ht : s.trace = pre ++ [e]) (hc : Clean ab pre)
    (he : ab e = true) (hcode : code ≠ 0) : AbortsAtOnce ab ((s.printErr m).exit code) :=
  Or.inr ⟨pre, e, [], by simpa using ht, hc, he, Or.inl rfl, ⟨code, rfl, hcode⟩, by simp⟩

/-- The program asks for the text of the message, prints and exits right
after a failing checked result. -/
theorem AbortsAtOnce.abort_msg {ab : Event → Bool} (s : State) (pre : List Event)
    (e n : Event) (m : String) (code : Int) (ht : s.trace = pre ++ [e] ++ [n])
    (hc : Clean ab pre) (he : ab e = true) (hn : isMessageCall n.call = true)
    (hn' : ab n = false) (hcode : code ≠ 0) :
    AbortsAtOnce ab ((s.printErr m).exit code) :=
  Or.inr ⟨pre, e, [n], by simpa using ht, hc, he, Or.inr ⟨n, rfl, hn, hn'⟩,
    ⟨code, rfl, hcode⟩, by simp⟩

theorem example1.setup_inv1 (lib : Lib) :
    AbortsAtOnce example1.aborts (example1.setup lib State.init) := by
  unfold example1.setup
  simp only []
  split_ifs <;>
    first
    | (refine AbortsAtOnce.abort _ _ _ _ _ rfl ?_ ?_ (by decide)
       all_goals simp_all [example1.aborts, ptr, Clean_cons]
       done)
    | (refine AbortsAtOnce.abort_msg _ _ _ _ _ _ rfl ?_ ?_ rfl rfl (by decide)
       all_goals simp_all [example1.aborts, ptr, Clean_cons])
    | (refine AbortsAtOnce.of_clean ?_ ?_
       all_goals simp_all [example1.aborts, ptr, Clean_cons])

theorem Quiet.andThen_quiet {ab : Event → Bool} {s : State} {k : State → State}
    (h : Quiet ab s) (hk : s.status = .running → Quiet ab (k s)) : Quiet ab (s.andThen k) :=
  State.andThen_cases (Quiet ab) s k (fun _ => h) hk

theorem example1.prepare_quiet1 (lib : Lib) (s : State) (h : Good example1.aborts s) :
    Quiet example1.aborts (example1.prepare lib s) := by
  obtain ⟨hs, hc⟩ := h
  unfold example1.prepare
  simp only []
  split_ifs <;> simp_all [Quiet, example1.aborts, Clean_cons]

theorem example1.drain_quiet1 (lib : Lib) :
    ∀ (fuel : Nat) (s : State), Good example1.aborts s →
      Quiet example1.aborts (example1.drain lib fuel s) := by
  intro fuel
  induction fuel with
  | zero => intro s h; exact ⟨h.2, by simp [example1.drain]⟩
  | succ fuel ih =>
    intro s h
    obtain ⟨hs, hc⟩ := h
    unfold example1.drain
    simp only []
    split_ifs
    · simp_all [Quiet, example1.aborts, Clean_cons]
    · apply ih
      simp_all [Good, example1.aborts, Clean_cons]
    · simp_all [Quiet, example1.aborts, Clean_cons]

theorem example1.encode_quiet1 (lib : Lib) (fuel : Nat) :
    ∀ (n i : Nat) (s : State), Good example1.aborts s →
      Quiet example1.aborts (example1.encode lib fuel n i s) := by
  intro n
  induction n with
  | zero => intro i s h; exact ⟨h.2, by simp [example1.encode, h.1]⟩
  | succ n ih =>
    intro i s h
    obtain ⟨hs, hc⟩ := h
    have key : ∀ u : State, Good example1.aborts u →
        Quiet example1.aborts
          ((example1.drain lib fuel u).andThen (example1.encode lib fuel n (i + 1))) := by
      intro u hu
      have hq := example1.drain_quiet1 lib fuel u hu
      exact Quiet.andThen_quiet hq (fun hr => ih (i + 1) _ ⟨hr, hq.1⟩)
    unfold example1.encode
    simp only []
    split
    · simp_all [Quiet, example1.aborts, Clean_cons]
    · split_ifs
      · simp_all [Quiet, example1.aborts, Clean_cons]
      · apply key
        simp_all [Good, example1.aborts, Clean_cons]

theorem example1.finish_quiet1 (lib : Lib) (fuel : Nat) (s : State)
    (h : Good example1.aborts s) : Quiet example1.aborts (example1.finish lib fuel s) := by
  obtain ⟨hs, hc⟩ := h
  have key : ∀ u : State, Good example1.aborts u →
      Quiet example1.aborts ((example1.drain lib fuel u).andThen fun s =>
        let s := s.call .av_write_trailer lib.av_write_trailer
        let s := { s.call .av_frame_free 0 with frame := none }
        let s := s.call .av_packet_free 0
        let s := s.call .avcodec_free_context 0
        let s := if lib.nofile = false then s.call .avio_closep lib.avio_closep else s
        let s := s.call .avformat_free_context 0
        let s := s.printOut ("output written to " ++ example1.filename ++ "\n")
        s.exit 0) := by
    intro u hu
    have hq := example1.drain_quiet1 lib fuel u hu
    refine Quiet.andThen_quiet hq (fun hr => ?_)
    have hc' := hq.1
    simp only []
    split_ifs <;> simp_all [Quiet, example1.aborts, Clean_cons]
  unfold example1.finish
  apply key
  simp_all [Good, example1.aborts, Clean_cons]

theorem example1.main_inv1 (lib : Lib) (fuel : Nat) :
    AbortsAtOnce example1.aborts (example1.main lib fuel) := by
  unfold example1.main
  refine (example1.setup_inv1 lib).andThen (fun hg => ?_)
  have q1 := example1.prepare_quiet1 lib _ hg
  refine AbortsAtOnce.of_clean ?_ ?_
  · refine (Quiet.andThen_quiet q1 (fun h1 => ?_)).1
    have q2 := example1.encode_quiet1 lib fuel 10 0 _ ⟨h1, q1.1⟩
    exact Quiet.andThen_quiet q2 (fun h2 => example1.finish_quiet1 lib fuel _ ⟨h2, q2.1⟩)
  · refine (Quiet.andThen_quiet q1 (fun h1 => ?_)).2
    have q2 := example1.encode_quiet1 lib fuel 10 0 _ ⟨h1, q1.1⟩
    exact Quiet.andThen_quiet q2 (fun h2 => example1.finish_quiet1 lib fuel _ ⟨h2, q2.1⟩)

theorem example2.check_inv2 (lib : Lib) (s : State) (pre : List Event) (c : Call) (r : Int)
    (msg : String) (ht : s.trace = pre ++ [⟨c, r⟩]) (hs : s.status = .running)
    (hc : Clean (example2.aborts lib) pre)
    (hab : example2.aborts lib ⟨c, r⟩ = decide (r < 0)) :
    AbortsAtOnce (example2.aborts lib) (example2.checkError lib r msg s) ∧
    ((example2.checkError lib r msg s).status = .running →
      example2.checkError lib r msg s = s ∧ 0 ≤ r ∧ Good (example2.aborts lib) s) := by
  by_cases h : r < 0
  · have e : example2.checkError lib r msg s =
        (((s.call (.av_strerror r) (lib.av_strerror_ret r)).printErr
          (msg ++ " error=" ++ toString r ++ " (" ++ lib.av_strerror r ++ ")\n")).exit 1) := by
      simp [example2.checkError, h]
    rw [e]
    refine ⟨AbortsAtOnce.abort_msg _ pre ⟨c, r⟩ ⟨.av_strerror r, lib.av_strerror_ret r⟩ _ _
      (by simp [ht]) hc (by rw [hab]; simpa using h) rfl rfl (by decide), fun hr => ?_⟩
    simp at hr
  · have e : example2.checkError lib r msg s = s :=
      example2.checkError_nonneg2 lib msg s (not_lt.mp h)
    rw [e]
    have hcl : Clean (example2.aborts lib) s.trace := by
      rw [ht, Clean_append, Clean_singleton, hab]
      exact ⟨hc, by simpa using h⟩
    exact ⟨AbortsAtOnce.of_clean hcl (by simp [hs]), fun _ => ⟨rfl, not_lt.mp h, hs, hcl⟩⟩

theorem example2.check_then2 (lib : Lib) (s : State) (pre : List Event) (c : Call) (r : Int)
    (msg : String) (k : State → State) (ht : s.trace = pre ++ [⟨c, r⟩])
    (hs : s.status = .running) (hc : Clean (example2.aborts lib) pre)
    (hab : example2.aborts lib ⟨c, r⟩ = decide (r < 0))
    (hk : Good (example2.aborts lib) s → 0 ≤ r → AbortsAtOnce (example2.aborts lib) (k s)) :
    AbortsAtOnce (example2.aborts lib) ((example2.checkError lib r msg s).andThen k) := by
  obtain ⟨h1, h2⟩ := example2.check_inv2 lib s pre c r msg ht hs hc hab
  refine State.andThen_cases (AbortsAtOnce (example2.aborts lib)) _ _ (fun _ => h1)
    (fun hr => ?_)
  obtain ⟨e, hr', hg⟩ := h2 hr
  rw [e]
  exact hk hg hr'

theorem example2.setup_inv2 (lib : Lib) :
    AbortsAtOnce (example2.aborts lib) (example2.setup lib State.init) := by
  have tail : ∀ u : State, Good (example2.aborts lib) u →
      AbortsAtOnce (example2.aborts lib)
        (example2.checkError lib lib.avformat_write_header "avformat_write_header"
          ((u.call (.av_dict_set "movflags" "empty_moov+frag_keyframe+default_base_moof")
            lib.av_dict_set).call (.avformat_write_header true)
            lib.avformat_write_header)) := by
    intro u hu
    exact (example2.check_inv2 lib
      ((u.call (.av_dict_set "movflags" "empty_moov+frag_keyframe+default_base_moof")
        lib.av_dict_set).call (.avformat_write_header true) lib.avformat_write_header)
      _ _ _ _ rfl hu.1 (by simp [hu.2, example2.aborts]) rfl).1
  unfold example2.setup
  simp only []
  refine example2.check_then2 lib _ [] _ _ _ _ rfl rfl (by simp) rfl (fun hg _ => ?_)
  obtain ⟨hs, hc⟩ := hg
  simp only [State.call_trace, State.init_trace, List.nil_append] at hc
  have hc4 : lib.avcodec_find_encoder .AV_CODEC_ID_MPEG4 ≠ false →
      lib.avformat_new_stream ≠ false → lib.avcodec_alloc_context3 ≠ false →
      Clean (example2.aborts lib)
        ([⟨.avformat_alloc_output_context2 (some "mp4") example2.outFilename lib.oc,
            lib.avformat_alloc_output_context2⟩] ++
          [⟨.avcodec_find_encoder .AV_CODEC_ID_MPEG4,
            ptr (lib.avcodec_find_encoder .AV_CODEC_ID_MPEG4)⟩] ++
          [⟨.avformat_new_stream, ptr lib.avformat_new_stream⟩] ++
          [⟨.avcodec_alloc_context3, ptr lib.avcodec_alloc_context3⟩]) := by
    intro h1 h2 h4
    simp_all [example2.aborts, ptr, Clean_cons]
  split_ifs with h1 h2 h3 h4 h5
  · refine AbortsAtOnce.abort _ _ _ _ _ rfl ?_ ?_ (by decide) <;>
      simp_all [example2.aborts, ptr, Clean_cons]
  · refine AbortsAtOnce.abort _ _ _ _ _ rfl ?_ ?_ (by decide) <;>
      simp_all [example2.aborts, ptr, Clean_cons]
  · refine AbortsAtOnce.of_clean ?_ ?_ <;> simp_all [example2.aborts, ptr, Clean_cons]
  · refine AbortsAtOnce.abort _ _ _ _ _ rfl ?_ ?_ (by decide) <;>
      simp_all [example2.aborts, ptr, Clean_cons]
  · refine example2.check_then2 lib _ _ _ _ _ _ rfl rfl (hc4 h1 h2 h4) rfl (fun hg _ => ?_)
    refine example2.check_then2 lib _ _ _ _ _ _ rfl rfl hg.2 rfl (fun hg _ => ?_)
    exact example2.check_then2 lib _ _ _ _ _ _ rfl rfl hg.2 rfl (fun hg' _ => tail _ hg')
  · refine example2.check_then2 lib _ _ _ _ _ _ rfl rfl (hc4 h1 h2 h4) rfl (fun hg _ => ?_)
    refine example2.check_then2 lib _ _ _ _ _ _ rfl rfl hg.2 rfl (fun hg _ => ?_)
    rw [State.andThen_running _ hg.1]
    exact tail _ hg

theorem example2.prepare_inv2 (lib : Lib) (s : State) (h : Good (example2.aborts lib) s) :
    AbortsAtOnce (example2.aborts lib) (example2.prepare lib s) := by
  obtain ⟨hs, hc⟩ := h
  unfold example2.prepare
  simp only []
  split_ifs
  · refine AbortsAtOnce.of_clean ?_ ?_ <;> simp_all [example2.aborts, Clean_cons]
  · refine (example2.check_inv2 lib _
      (s.trace ++ [⟨.av_frame_alloc, ptr lib.av_frame_alloc⟩] ++ [⟨.av_init_packet, 0⟩])
      (.av_frame_get_buffer 32) lib.av_frame_get_buffer _ rfl ?_ ?_ rfl).1
    · simpa using hs
    · simp [hc, example2.aborts, Clean_cons]

theorem example2.drain_inv2 (lib : Lib) (msgR msgW : String) :
    ∀ (fuel : Nat) (ret : Int) (s : State), Good (example2.aborts lib) s →
      AbortsAtOnce (example2.aborts lib) (example2.drain lib msgR msgW fuel ret s) := by
  intro fuel
  induction fuel with
  | zero =>
    intro ret s h
    unfold example2.drain
    split_ifs
    · exact AbortsAtOnce.of_clean h.2 (by simp [h.1])
    · exact AbortsAtOnce.of_clean h.2 (by simp)
  | succ fuel ih =>
    intro ret s h
    obtain ⟨hs, hc⟩ := h
    unfold example2.drain
    simp only []
    split_ifs with h1 h2
    · exact AbortsAtOnce.of_clean hc (by simp [hs])
    · refine AbortsAtOnce.of_clean ?_ (by simp [hs])
      simp only [State.call_trace, Clean_append, Clean_singleton]
      refine ⟨hc, ?_⟩
      rcases h2 with h2 | h2 <;> simp [example2.aborts, h2]
    · have h2' : lib.avcodec_receive_packet s.n_recv ≠ lib.AVERROR_EAGAIN ∧
          lib.avcodec_receive_packet s.n_recv ≠ lib.AVERROR_EOF :=
        ⟨fun e => h2 (Or.inl e), fun e => h2 (Or.inr e)⟩
      refine example2.check_then2 lib _ _ _ _ _ _ rfl (by simpa using hs) hc
        (by simp [example2.aborts, h2'.1, h2'.2]) (fun hg _ => ?_)
      refine example2.check_then2 lib _ _ _ _ _ _ rfl (by simpa using hs)
        (by simpa [example2.aborts, Clean_cons] using hg.2) rfl (fun hg' _ => ?_)
      apply ih
      exact ⟨by simpa using hs, by simpa [example2.aborts, Clean_cons] using hg'.2⟩

theorem example2.encode_inv2 (lib : Lib) (fuel : Nat) :
    ∀ (n i : Nat) (s : State), Good (example2.aborts lib) s →
      AbortsAtOnce (example2.aborts lib) (example2.encode lib fuel n i s) := by
  intro n
  induction n with
  | zero => intro i s h; exact AbortsAtOnce.of_clean h.2 (by simp [example2.encode, h.1])
  | succ n ih =>
    intro i s h
    obtain ⟨hs, hc⟩ := h
    unfold example2.encode
    simp only []
    refine example2.check_then2 lib _ s.trace .av_frame_make_writable _ _ _ rfl
      (by simpa using hs) hc rfl (fun hg _ => ?_)
    split
    · exact AbortsAtOnce.of_clean hg.2 (by simp)
    · rename_i f _
      refine example2.check_then2 lib _ _ (.avcodec_send_frame (some { f with pts := (i : Int) }))
        _ _ _ rfl (by simpa using hs) hg.2 rfl (fun hg' _ => ?_)
      exact AbortsAtOnce.andThen (example2.drain_inv2 lib _ _ fuel _ _ hg')
        (fun hg'' => ih (i + 1) _ hg'')

theorem example2.finish_inv2 (lib : Lib) (fuel : Nat) (s : State)
    (h : Good (example2.aborts lib) s) :
    AbortsAtOnce (example2.aborts lib) (example2.finish lib fuel s) := by
  obtain ⟨hs, hc⟩ := h
  unfold example2.finish
  simp only []
  refine example2.check_then2 lib _ s.trace (.avcodec_send_frame none) _ _ _ rfl
    (by simpa using hs) hc rfl (fun hg _ => ?_)
  refine AbortsAtOnce.andThen (example2.drain_inv2 lib _ _ fuel _ _ hg) ?_
  generalize example2.drain lib _ _ fuel _ _ = u
  intro hg'
  obtain ⟨_, hc'⟩ := hg'
  refine AbortsAtOnce.of_clean ?_ (by simp)
  split_ifs <;> simp [hc', example2.aborts, Clean_cons]

theorem example2.main_inv2 (lib : Lib) (fuel : Nat) :
    AbortsAtOnce (example2.aborts lib) (example2.main lib fuel) := by
  unfold example2.main
  refine (example2.setup_inv2 lib).andThen (fun hg => ?_)
  refine (example2.prepare_inv2 lib _ hg).andThen (fun hg => ?_)
  refine (example2.encode_inv2 lib fuel _ 0 _ hg).andThen (fun hg => ?_)
  exact example2.finish_inv2 lib fuel _ hg

/-- C1, as amended: in both programs a failing result of a call whose result
the program checks in order to abort (`example1.aborts`, `example2.aborts`)
ends the process at once: in every run either no such result has failed, and
then the process has not exited with a non-zero status, or exactly one has,
the trace holds after it at most one call, which only produces the text of
the message (`av_strerror`, `avcodec_get_name`), a message was written to
`std::cerr`, and the process has exited with a non-zero status. -/
theorem C1_checked_failures_abort (lib : Lib) (fuel : Nat) :
    AbortsAtOnce example1.aborts (example1.main lib fuel) ∧
    AbortsAtOnce (example2.aborts lib) (example2.main lib fuel) :=
  ⟨example1.main_inv1 lib fuel, example2.main_inv2 lib fuel⟩

/-! ## Exit status of `example1` (C10) -/

theorem example1.drain_safe1 (lib : Lib) (hp : lib.av_packet_alloc = true) :
    ∀ (fuel : Nat) (s : State), s.status = .running →
      ((example1.drain lib fuel s).status = .running ∧
        (example1.drain lib fuel s).frame = s.frame) ∨
      (example1.drain lib fuel s).status = .outOfFuel := by
  intro fuel
  induction fuel with
  | zero => intro s _; exact Or.inr rfl
  | succ fuel ih =>
    intro s hs
    unfold example1.drain
    simp only [hp, Bool.true_eq_false, if_false]
    split_ifs
    · exact ih _ (by simpa using hs)
    · exact Or.inl ⟨by simpa using hs, rfl⟩

theorem example1.encode_safe1 (lib : Lib) (hp : lib.av_packet_alloc = true) (fuel : Nat) :
    ∀ (n i : Nat) (s : State), s.status = .running → (∃ f, s.frame = some f ∧ FrameFits f) →
      ((example1.encode lib fuel n i s).status = .running ∧
        ∃ f, (example1.encode lib fuel n i s).frame = some f ∧ FrameFits f) ∨
      (example1.encode lib fuel n i s).status = .outOfFuel := by
  intro n
  induction n with
  | zero => intro i s hs hf; exact Or.inl ⟨hs, hf⟩
  | succ n ih =>
    intro i s hs hf
    obtain ⟨f, hf, hfit⟩ := hf
    obtain ⟨f', hfill, hfit', _⟩ := example1.fillFrame_ok1 i f hfit
    rw [example1.encode_step1 lib fuel n i s f f' hf hfill]
    split_ifs
    · exact Or.inl ⟨by simpa [submitted] using hs, _, rfl, hfit'.with_pts _⟩
    · rcases example1.drain_safe1 lib hp fuel (submitted lib { f' with pts := (i : Int) } s)
          (by simpa [submitted] using hs) with ⟨h1, h2⟩ | h1
      · rw [State.andThen_running _ h1]
        exact ih (i + 1) _ h1 ⟨_, h2, hfit'.with_pts _⟩
      · rw [State.andThen_stopped _ (by rw [h1]; simp)]
        exact Or.inr h1

theorem example1.finish_safe1 (lib : Lib) (hp : lib.av_packet_alloc = true) (fuel : Nat)
    (s : State) (hs : s.status = .running) :
    (example1.finish lib fuel s).status = .exited 0 ∨
      (example1.finish lib fuel s).status = .outOfFuel := by
  unfold example1.finish
  simp only []
  rcases example1.drain_safe1 lib hp fuel
      { s.call (.avcodec_send_frame none) (lib.avcodec_send_frame s.n_send) with
        n_send := s.n_send + 1 } (by simpa using hs) with ⟨h1, _⟩ | h1
  · rw [State.andThen_running _ h1]
    exact Or.inl rfl
  · rw [State.andThen_stopped _ (by rw [h1]; simp)]
    exact Or.inr h1

theorem example1.main_safe1 (lib : Lib) (h : example1.Ready lib) (fuel : Nat) :
    (example1.main lib fuel).status = .exited 0 ∨
      (example1.main lib fuel).status = .outOfFuel := by
  obtain ⟨h1, h2⟩ := example1.setup_prepare_eq1 lib h
  unfold example1.main
  rw [State.andThen_running _ (by rw [h1]; rfl)]
  rw [State.andThen_running _ (by rw [h2]; rfl), h2]
  rcases example1.encode_safe1 lib h.packet_alloc fuel 10 0 (example1.prepared lib) rfl
      ⟨_, rfl, newFrame_fits lib _ _ h.get_buffer h.fits⟩ with ⟨h3, _⟩ | h3
  · rw [State.andThen_running _ h3]
    exact example1.finish_safe1 lib h.packet_alloc fuel _ h3
  · rw [State.andThen_stopped _ (by rw [h3]; simp)]
    exact Or.inr h3

theorem neverDrainsLib_ready : example1.Ready neverDrainsLib where
  oc := rfl
  find_encoder := rfl
  new_stream := rfl
  alloc_context3 := rfl
  open2 := by decide
  avio_open := Or.inr (by decide)
  write_header := by decide
  frame_alloc := rfl
  get_buffer := by decide
  fits := sampleLib_fits
  packet_alloc := rfl

/-- A packet loop of `example1` in which `avcodec_receive_packet` returns 0 at
every call never ends: whatever the number of rounds allowed, it is still
running after them, has printed nothing and has not called
`av_write_trailer`. -/
theorem example1.drain_stuck1 (lib : Lib) (hp : lib.av_packet_alloc = true)
    (hz : ∀ k, lib.avcodec_receive_packet k = 0) :
    ∀ (fuel : Nat) (s : State),
      (example1.drain lib fuel s).status = .outOfFuel ∧
      (example1.drain lib fuel s).cout = s.cout ∧
      (example1.drain lib fuel s).trace.filter (fun e => isTrailer e.call) =
        s.trace.filter (fun e => isTrailer e.call) := by
  intro fuel
  induction fuel with
  | zero => intro s; exact ⟨rfl, rfl, rfl⟩
  | succ fuel ih =>
    intro s
    unfold example1.drain
    simp only [hz, hp, Bool.true_eq_false, if_false, if_true]
    refine ⟨(ih _).1, ?_, ?_⟩
    · rw [(ih _).2.1]; rfl
    · rw [(ih _).2.2]
      simp [State.call, List.filter_append, List.filter_cons, isTrailer]

/-- When `avcodec_receive_packet` returns 0 at every call, `example1` never
leaves the packet loop of its first frame. -/
theorem example1.main_stuck1 (lib : Lib) (h : example1.Ready lib)
    (h0 : 0 ≤ lib.avcodec_send_frame 0) (hz : ∀ k, lib.avcodec_receive_packet k = 0)
    (fuel : Nat) :
    (example1.main lib fuel).status = .outOfFuel ∧
    (example1.main lib fuel).cout = [] ∧
    ∀ e, e ∈ (example1.main lib fuel).trace → isTrailer e.call = false := by
  obtain ⟨h1, h2⟩ := example1.setup_prepare_eq1 lib h
  obtain ⟨f', hfill, _, _⟩ := example1.fillFrame_ok1 0 _
    (newFrame_fits lib example1.width example1.height h.get_buffer h.fits)
  obtain ⟨d1, d2, d3⟩ := example1.drain_stuck1 lib h.packet_alloc hz fuel
    (submitted lib { f' with pts := ((0 : Nat) : Int) } (example1.prepared lib))
  have hmain : example1.main lib fuel =
      example1.drain lib fuel
        (submitted lib { f' with pts := ((0 : Nat) : Int) } (example1.prepared lib)) := by
    unfold example1.main
    rw [State.andThen_running _ (by rw [h1]; rfl)]
    rw [State.andThen_running _ (by rw [h2]; rfl), h2]
    rw [example1.encode_step1 lib fuel 9 0 (example1.prepared lib) _ f' rfl hfill,
      if_neg (show ¬ lib.avcodec_send_frame (example1.prepared lib).n_send < 0 from
        not_lt.mpr h0),
      State.andThen_stopped (example1.encode lib fuel 9 (0 + 1)) (by rw [d1]; simp),
      State.andThen_stopped _ (by rw [d1]; simp)]
  rw [hmain]
  refine ⟨d1, by rw [d2]; rfl, fun e he => ?_⟩
  have hpre : (submitted lib { f' with pts := ((0 : Nat) : Int) }
      (example1.prepared lib)).trace.filter (fun e => isTrailer e.call) = [] := by
    cases hnf : lib.nofile <;>
      simp [submitted, example1.prepared, example1.setupEvents, example1.prepareEvents, hnf,
        List.filter_append, List.filter_cons, isTrailer]
  rw [hpre, List.filter_eq_nil_iff] at d3
  simpa using d3 e he

/-- Counterexample to C10: the library `neverDrainsLib` lets `example1` past
`avformat_write_header` with its frame and packet (`Ready`) and accepts every
frame, but its `avcodec_receive_packet` returns 0 at every call.  The packet
loop of the first frame then never ends: however many rounds are allowed,
`main` has not returned, has not called `av_write_trailer` and has not printed
"output written to output.mp4". -/
theorem C10_counterexample :
    example1.Ready neverDrainsLib ∧
    (∀ k, neverDrainsLib.avcodec_receive_packet k = 0) ∧
    ∀ fuel, (example1.main neverDrainsLib fuel).status = .outOfFuel ∧
      (example1.main neverDrainsLib fuel).status ≠ .exited 0 ∧
      (example1.main neverDrainsLib fuel).cout = [] ∧
      ∀ e, e ∈ (example1.main neverDrainsLib fuel).trace → isTrailer e.call = false := by
  refine ⟨neverDrainsLib_ready, fun _ => rfl, fun fuel => ?_⟩
  obtain ⟨h1, h2, h3⟩ := example1.main_stuck1 neverDrainsLib neverDrainsLib_ready
    (le_refl (0 : Int)) (fun _ => rfl) fuel
  exact ⟨h1, by rw [h1]; simp, h2, h3⟩

/-- C10, amended: once `example1` is past `avformat_write_header` and has its
frame and packet (`Ready`), then whatever `av_frame_make_writable`,
`avcodec_send_frame`, `avcodec_receive_packet`, `av_interleaved_write_frame`
and `av_write_trailer` return, the only exit status it can end with is 0: a
run is either still inside a packet loop or has returned 0.  When the packet
loops end (`Drains`: `avcodec_receive_packet` does not return 0 for ever),
`main` reaches the flush submission, `av_write_trailer` and the cleanup,
prints "output written to output.mp4" and returns 0; if `avcodec_send_frame`
fails first at frame `i`, the submissions are the frames `0 .. i` (the first
`i` accepted, frame `i` refused) followed by the flush, and if it never fails
they are the frames `0 .. 9` followed by the flush. -/
theorem C10_example1_exit_status (lib : Lib) (h : example1.Ready lib) :
    (∀ fuel, (example1.main lib fuel).status = .exited 0 ∨
      (example1.main lib fuel).status = .outOfFuel) ∧
    (lib.Drains → ∃ F, ∀ fuel, F ≤ fuel →
      (example1.main lib fuel).status = .exited 0 ∧
      (example1.main lib fuel).cout = ["output written to output.mp4\n"] ∧
      (∃ before mid r, (example1.main lib fuel).trace = before ++
        [⟨.avcodec_send_frame none, r⟩] ++ mid ++
        [⟨.av_write_trailer, lib.av_write_trailer⟩] ++ example1.closeEvents lib) ∧
      (∀ i, i < 10 → (∀ k, k < i → 0 ≤ lib.avcodec_send_frame k) →
        lib.avcodec_send_frame i < 0 →
        sendLog (example1.main lib fuel).trace =
          (List.range (i + 1)).map (fun k : Nat => (some (k : Int), lib.avcodec_send_frame k))
            ++ [(none, lib.avcodec_send_frame (i + 1))]) ∧
      ((∀ k, k < 10 → 0 ≤ lib.avcodec_send_frame k) →
        sendLog (example1.main lib fuel).trace =
          (List.range 10).map (fun k : Nat => (some (k : Int), lib.avcodec_send_frame k))
            ++ [(none, lib.avcodec_send_frame 10)])) := by
  refine ⟨example1.main_safe1 lib h, fun hd => ?_⟩
  obtain ⟨F, hF⟩ := example1.main_shape1 lib h hd
  refine ⟨F, fun fuel hfuel => ?_⟩
  obtain ⟨hs, hc⟩ := hF fuel hfuel
  have hlog := hs.sendLog_eq (example1.pre_post_views1 lib).1 (example1.pre_post_views1 lib).2.1
  refine ⟨hs.status, by rw [hc, example1.cout_text1], ?_, ?_, ?_⟩
  · obtain ⟨before, mid, e⟩ := RunShape.reaches_trailer hs
    exact ⟨before, mid, _, e⟩
  · intro i hi hok hfail
    have : example1.iterations lib 10 0 = i + 1 := by
      rw [example1.iterations_fail1 lib 10 0 i (Nat.zero_le i) (by omega)
        (fun k _ hk => hok k hk) hfail]
      omega
    rw [hlog, this]
  · intro hok
    have : example1.iterations lib 10 0 = 10 :=
      example1.iterations_ok1 lib 10 0 (fun k _ hk => hok k (by omega))
    rw [hlog, this]

/-- Witness of C10: the library `roughLib`, in which `av_frame_make_writable`,
`av_interleaved_write_frame` and `av_write_trailer` fail and
`avcodec_send_frame` fails at frame 3: the run returns 0 after the
submissions of the frames 0 to 3 and the flush. -/
theorem C10_example1_exit_status_witness :
    example1.Ready roughLib ∧ roughLib.Drains ∧
    roughLib.avcodec_send_frame 3 < 0 ∧ roughLib.av_write_trailer < 0 ∧
    ∃ F, ∀ fuel, F ≤ fuel →
      (example1.main roughLib fuel).status = .exited 0 ∧
      (example1.main roughLib fuel).cout = ["output written to output.mp4\n"] ∧
      sendLog (example1.main roughLib fuel).trace =
        [(some 0, 0), (some 1, 0), (some 2, 0), (some 3, -1), (none, 0)] := by
  refine ⟨roughLib_ready, sampleLib_drains, by decide, by decide, ?_⟩
  obtain ⟨F, hF⟩ := (C10_example1_exit_status roughLib roughLib_ready).2 sampleLib_drains
  refine ⟨F, fun fuel hfuel => ?_⟩
  obtain ⟨h1, h2, _, h4, _⟩ := hF fuel hfuel
  refine ⟨h1, h2, ?_⟩
  rw [h4 3 (by decide) (by decide) (by decide)]
  rfl

/-! ## Claims on the fill patterns, the constants and `checkError` -/

/-- C9: on planes of `linesize * rows` bytes with `linesize >= width` (luma:
320 samples in 240 rows; chroma: 160 samples in 120 rows) the fill loops of
both programs never store outside the plane (the fill is defined), every
visible sample holds the fill value, every padding byte keeps its old value,
and the memset-based fill of `example1` and the per-sample fill of `example2`
produce the same planes. -/
theorem C9_fill_in_bounds (ls ls1 ls2 v : Nat) (p p1 p2 : List Nat)
    (hls : 320 ≤ ls) (hp : p.length = ls * 240)
    (hls1 : 160 ≤ ls1) (hp1 : p1.length = ls1 * 120)
    (hls2 : 160 ≤ ls2) (hp2 : p2.length = ls2 * 120) (hv : v < 256) :
    (∃ q, example1.fillPlane ls v example1.width example1.height p = some q ∧
        example2.fillPlane ls v example2.width example2.height p = some q ∧
        q.length = p.length ∧
        (∀ x y, x < 320 → y < 240 → q[y * ls + x]? = some v) ∧
        (∀ x y, 320 ≤ x → x < ls → y < 240 → q[y * ls + x]? = p[y * ls + x]?)) ∧
    (∃ q1 q2,
        example1.fillChroma ls1 ls2 v (example1.width / 2) (example1.height / 2) (p1, p2)
          = some (q1, q2) ∧
        example2.fillChroma ls1 ls2 v (example2.width / 2) (example2.height / 2) (p1, p2)
          = some (q1, q2) ∧
        q1.length = p1.length ∧ q2.length = p2.length ∧
        (∀ x y, x < 160 → y < 120 →
          q1[y * ls1 + x]? = some v ∧ q2[y * ls2 + x]? = some v) ∧
        (∀ x y, 160 ≤ x → y < 120 →
          (x < ls1 → q1[y * ls1 + x]? = p1[y * ls1 + x]?) ∧
          (x < ls2 → q2[y * ls2 + x]? = p2[y * ls2 + x]?))) := by
  constructor
  · exact plane_fill_spec ls v 320 240 p hls hp hv
  · obtain ⟨q1, a1, b1, c1, d1, e1⟩ := plane_fill_spec ls1 v 160 120 p1 hls1 hp1 hv
    obtain ⟨q2, a2, b2, c2, d2, e2⟩ := plane_fill_spec ls2 v 160 120 p2 hls2 hp2 hv
    refine ⟨q1, q2, ?_, ?_, c1, c2, fun x y hx hy => ⟨d1 x y hx hy, d2 x y hx hy⟩,
      fun x y hx hy => ⟨fun h => e1 x y hx h hy, fun h => e2 x y hx h hy⟩⟩
    · rw [example1.fillChroma_eq1]
      show (example1.fillPlane ls1 v 160 120 p1).bind _ = _
      rw [a1]
      show (example1.fillPlane ls2 v 160 120 p2).bind _ = _
      rw [a2]; rfl
    · rw [example2.fillChroma_eq2]
      show (example2.fillPlane ls1 v 160 120 p1).bind _ = _
      rw [b1]
      show (example2.fillPlane ls2 v 160 120 p2).bind _ = _
      rw [b2]; rfl

/-- Witness of C9: strides 352 and 192, planes of zeros, fill value 128. -/
theorem C9_fill_in_bounds_witness :
    (∃ q, example1.fillPlane 352 128 example1.width example1.height
          (List.replicate (352 * 240) 0) = some q ∧
        example2.fillPlane 352 128 example2.width example2.height
          (List.replicate (352 * 240) 0) = some q ∧
        q.length = (List.replicate (352 * 240) 0).length ∧
        (∀ x y, x < 320 → y < 240 → q[y * 352 + x]? = some 128) ∧
        (∀ x y, 320 ≤ x → x < 352 → y < 240 →
          q[y * 352 + x]? = (List.replicate (352 * 240) 0)[y * 352 + x]?)) ∧
    (∃ q1 q2,
        example1.fillChroma 192 192 128 (example1.width / 2) (example1.height / 2)
          (List.replicate (192 * 120) 0, List.replicate (192 * 120) 0) = some (q1, q2) ∧
        example2.fillChroma 192 192 128 (example2.width / 2) (example2.height / 2)
          (List.replicate (192 * 120) 0, List.replicate (192 * 120) 0) = some (q1, q2) ∧
        q1.length = (List.replicate (192 * 120) 0).length ∧
        q2.length = (List.replicate (192 * 120) 0).length ∧
        (∀ x y, x < 160 → y < 120 →
          q1[y * 192 + x]? = some 128 ∧ q2[y * 192 + x]? = some 128) ∧
        (∀ x y, 160 ≤ x → y < 120 →
          (x < 192 → q1[y * 192 + x]? = (List.replicate (192 * 120) 0)[y * 192 + x]?) ∧
          (x < 192 → q2[y * 192 + x]? = (List.replicate (192 * 120) 0)[y * 192 + x]?))) :=
  C9_fill_in_bounds 352 192 192 128 (List.replicate (352 * 240) 0)
    (List.replicate (192 * 120) 0) (List.replicate (192 * 120) 0)
    (by decide) (List.length_replicate _ _) (by decide) (List.length_replicate _ _)
    (by decide) (List.length_replicate _ _) (by decide)

/-- C7: `checkError` ends the process with status 1, after a call of
`av_strerror` and one line on `std::cerr` holding `msg` and the code, exactly
when `err < 0`; for `err >= 0` it leaves the state as it is. -/
theorem C7_checkError (lib : Lib) (err : Int) (msg : String) (s : State) :
    (err < 0 →
      example2.checkError lib err msg s =
        { s with status := .exited 1,
                 trace := s.trace ++ [⟨.av_strerror err, lib.av_strerror_ret err⟩],
                 cerr := s.cerr ++
                  [msg ++ " error=" ++ toString err ++ " (" ++ lib.av_strerror err ++ ")\n"] }) ∧
    (0 ≤ err → example2.checkError lib err msg s = s) ∧
    (s.status = .running →
      ((example2.checkError lib err msg s).status = .exited 1 ↔ err < 0)) := by
  refine ⟨fun h => ?_, fun h => ?_, fun hs => ⟨fun h => ?_, fun h => ?_⟩⟩
  · simp [example2.checkError, h, State.call, State.printErr, State.exit]
  · simp [example2.checkError, not_lt.mpr h]
  · by_contra hn
    simp [example2.checkError, hn, hs] at h
  · simp [example2.checkError, h, State.call, State.printErr, State.exit]

/-- C8: the 20 frames of `example2` at `time_base = 1/fps = 1/2` span exactly
10 seconds, and in both programs `time_base * framerate = 1`. -/
theorem C8_duration :
    (example2.numFrames : ℚ) * example2.time_base.toRat = 10 ∧
    example2.time_base.toRat * example2.framerate.toRat = 1 ∧
    example1.time_base.toRat * example1.framerate.toRat = 1 := by
  simp only [example2.numFrames, example2.time_base, example2.framerate, example2.fps,
    example1.time_base, example1.framerate, AVRational.toRat]
  norm_num

end LibavPlayground
